import Mathlib

/-!
# OpenDungeons traps: a shallow embedding of `source/traps/Trap.cpp`

The development embeds the `Trap` class of OpenDungeons in Lean and proves
properties of its upkeep cycle, its active spots and render requests, its
activation control and its two codecs (save stream and live packet).

Conventions of the embedding.

* Pointers (`Tile*`, `Seat*`, `Player*`, `Trap*`, `RenderedMovableEntity*`) are
  addresses, natural numbers, and `0` is the null pointer.  Dereferencing is
  total: the objects behind the pointers are read through a heap function or
  through the collaborator functions of `Env`.
* `std::map<Tile*, V>` is an association list with distinct keys (`AList`);
  `std::vector<Tile*>` is a `List`.
* `double` values are rationals (finite values only).
* Every call that leaves the class (queues, log, map, virtual hooks) is
  recorded, in order, in the `trace` of the state.
* Code of the repository that `Trap.cpp` calls but that is defined elsewhere
  (`Building`, `GameMap`, `Seat`, `ODPacket`, the concrete trap classes, the
  `OD_ASSERT_TRUE` helpers, `Trap.h`) is either a parameter in `Env` or a
  definition whose comment starts with "Modelled from the spec:".
-/

namespace OpenDungeons

/-! ## Pointers and containers -/

/-- The type `Tile*`: the address of a tile, `0` being the null pointer. -/
abbrev TilePtr := Nat

/-- The type `Seat*`. -/
abbrev SeatPtr := Nat

/-- The type `Player*`. -/
abbrev PlayerPtr := Nat

/-- The type `Trap*`. -/
abbrev TrapPtr := Nat

/-- The type `RenderedMovableEntity*`. -/
abbrev ObjPtr := Nat

/-- The null pointer (`nullptr`, `NULL`). -/
def nullptr : Nat := 0

/-- The container `std::map<Tile*, V>`. -/
abbrev TileMap (V : Type) := AList (fun _ : TilePtr => V)

/-- The call `m.find(k)`: `none` stands for `m.end()`. -/
def mapFind {V : Type} (m : TileMap V) (k : TilePtr) : Option V :=
  AList.lookup k m

/-- The map after the expression `m[k]` was evaluated: `std::map::operator[]` inserts a
value-initialised entry when the key is absent. -/
def mapTouch {V : Type} (dflt : V) (m : TileMap V) (k : TilePtr) : TileMap V :=
  if k ∈ m then m else AList.insert k dflt m

/-- The value that the expression `m[k]` refers to. -/
def mapAt {V : Type} (dflt : V) (m : TileMap V) (k : TilePtr) : V :=
  (AList.lookup k m).getD dflt

/-- The statement `m[k] = v`, and every `m[k].setter(..)` that leaves the entry at `v`. -/
def mapSet {V : Type} (m : TileMap V) (k : TilePtr) (v : V) : TileMap V :=
  AList.insert k v m

/-- The call `m.erase(k)`. -/
def mapErase {V : Type} (m : TileMap V) (k : TilePtr) : TileMap V :=
  AList.erase k m

/-- The call `m.size()`. -/
def mapSize {V : Type} (m : TileMap V) : Nat :=
  m.keys.length

/-- The call `m.count(k)`. -/
def mapCount {V : Type} (m : TileMap V) (k : TilePtr) : Nat :=
  if k ∈ m then 1 else 0

/-- The keys in iteration order: a `std::map` is traversed by increasing key. -/
def mapIterKeys {V : Type} (m : TileMap V) : List TilePtr :=
  m.keys.insertionSort (fun a b => a ≤ b)

/-! ## Machine integers -/

/-- Conversion to `int` / `int32_t`: the value modulo `2^32`, read as two's complement. -/
def toInt32 (i : Int) : Int :=
  (i + 2147483648) % 4294967296 - 2147483648

/-- Conversion to `uint32_t`. -/
def toUInt32 (i : Int) : Nat :=
  (i % 4294967296).toNat

/-! ## The trap type tag -/

/-- The enumeration `Trap::TrapType`, by its underlying value. -/
abbrev TrapType := Nat

/-- Modelled from the spec: `Trap.h` is not part of the sources; the null tag has value `0`. -/
def nullTrapType : TrapType := 0

/-- Modelled from the spec: `Trap.h` is not part of the sources; the enumerators follow the
null tag in the order of the `switch` statements of `Trap.cpp`. -/
def cannon : TrapType := 1

/-- Modelled from the spec: see `cannon`. -/
def spike : TrapType := 2

/-- Modelled from the spec: see `cannon`. -/
def boulder : TrapType := 3

/-! ## Per-tile trap state -/

/-- Modelled from the spec: the class `TrapTileInfo` of `Trap.h`, the per-tile state
"reloadTimeRemaining: integer ≥ 0, activated: boolean". -/
structure TrapTileInfo where
  mReloadTime : Nat
  mIsActivated : Bool
deriving DecidableEq, Repr

namespace TrapTileInfo

/-- The getter `getReloadTime()`. -/
def getReloadTime (i : TrapTileInfo) : Nat := i.mReloadTime

/-- The getter `isActivated()`. -/
def isActivated (i : TrapTileInfo) : Bool := i.mIsActivated

/-- The setter `setActivated(b)`. -/
def setActivated (i : TrapTileInfo) (b : Bool) : TrapTileInfo := { i with mIsActivated := b }

/-- The setter `setReloadTime(r)`. -/
def setReloadTime (i : TrapTileInfo) (r : Nat) : TrapTileInfo := { i with mReloadTime := r }

/-- Modelled from the spec: `decreaseReloadTime()`, "if its reload-time-remaining is > 0,
decrement it". -/
def decreaseReloadTime (i : TrapTileInfo) : TrapTileInfo :=
  { i with mReloadTime := i.mReloadTime - 1 }

end TrapTileInfo

/-! ## Tiles, notifications, render requests -/

/-- The fields of a `Tile` object that `Trap.cpp` reads or writes. -/
structure Tile where
  x : Int
  y : Int
  mClaimedPercentage : ℚ
  mSeat : SeatPtr
  mCoveringTrap : TrapPtr

/-- One value written to an `ODPacket`. -/
inductive PacketField where
  | uint32 (v : Nat)
  | int32 (v : Int)
  | string (s : String)
deriving DecidableEq, Repr

/-- Modelled from the spec: the class `ODPacket` (not part of the sources), the "live-packet
record" of "logical fields" in a fixed-width binary framing.  A packet is the sequence of the
fields not read yet, with the validity flag that `operator bool` returns. -/
structure ODPacket where
  fields : List PacketField
  valid : Bool
deriving DecidableEq, Repr

/-- Modelled from the spec: the notification kinds of `network/ServerNotification.h`,
"turn-started, creature-add-destination, set-turns-per-second, tile-fullness-change,
remove-trap-tile". -/
inductive ServerNotificationType where
  | turnStarted
  | creatureAddDestination
  | setTurnsPerSecond
  | tileFullnessChange
  | removeTrapTile
deriving DecidableEq, Repr

/-- Modelled from the spec: a `ServerNotification`, "a discriminated notification kind, an
associated encoded payload, and an associated recipient". -/
structure ServerNotification where
  type : ServerNotificationType
  mConcernedPlayer : PlayerPtr
  mPacket : List PacketField
deriving DecidableEq, Repr

/-- The render requests that `Trap.cpp` creates, with the trap and the tile they carry. -/
inductive RenderRequest where
  | createBuilding (trap : TrapPtr) (tile : TilePtr)
  | destroyBuilding (trap : TrapPtr) (tile : TilePtr)
deriving DecidableEq, Repr

/-- A call that leaves the `Trap` class.  The trace of a state lists them in call order. -/
inductive Event where
  | queueServerNotification (n : ServerNotification)
  | queueRenderRequest (r : RenderRequest)
  | logMessage (msg : String)
  | assertFailed (msg : String)
  | removeTrap (trap : TrapPtr)
  | deleteYourself (trap : TrapPtr)
  | playerIsFighting (player : PlayerPtr)
  | shoot (tile : TilePtr)
  | updateActiveSpots
  | createMesh
  | buildingCreateMeshLocal
  | buildingDestroyMeshLocal
  | notifyActiveSpotCreated (tile : TilePtr)
  | addRenderedMovableEntity (obj : ObjPtr)
  | removeRenderedMovableEntity (obj : ObjPtr)
  | newTrap (type : TrapType)
deriving DecidableEq, Repr

/-! ## The trap and the state it lives in -/

/-- The data members of a `Trap` (those of `Building` and `GameEntity` included) that
`Trap.cpp` uses.  `addr` is `this`; `mType` is what the virtual `getType()` returns. -/
structure Trap where
  addr : TrapPtr
  mType : TrapType
  mName : String
  mSeat : SeatPtr
  mReloadTime : Nat
  mMinDamage : ℚ
  mMaxDamage : ℚ
  mCoveredTiles : List TilePtr
  mTileHP : TileMap ℚ
  mTrapTiles : TileMap TrapTileInfo
  mBuildingObjects : TileMap ObjPtr

/-- The state that a member function of `Trap` runs in: the trap itself (`self`), the tile
objects, and the trace of outgoing calls. -/
structure State where
  self : Trap
  tiles : TilePtr → Tile
  trace : List Event

/-- What one call of the virtual `shoot(tile)` does, as far as `Trap.cpp` can tell: the
boolean it returns, and whether it called `deactivate(tile)` ("The trap shoot method will
optionally deactivate the trap"). -/
structure ShootResult where
  triggered : Bool
  deactivates : Bool
deriving DecidableEq, Repr

/-- Modelled from the spec: the `GameMap` collaborator, which "exposes tile lookup by
coordinate, seat lookup by id" and "an authoritative-mode flag". -/
structure GameMap where
  isServerGameMap : Bool
  getSeatById : Int → SeatPtr
  getTile : Int → Int → TilePtr
  getPlayerBySeat : SeatPtr → PlayerPtr

/-- The collaborators and constants that `Trap.cpp` takes from elsewhere. -/
structure Env where
  /-- The result of `getGameMap()`. -/
  gameMap : GameMap
  /-- The getter `Seat::getId()`. -/
  seatGetId : SeatPtr → Int
  /-- The call `a->isAlliedSeat(b)`. -/
  isAlliedSeat : SeatPtr → SeatPtr → Bool
  /-- The value-initialised `TrapTileInfo()`. -/
  trapTileInfoDefault : TrapTileInfo
  /-- The constant `Trap::DEFAULT_TILE_HP`. -/
  DEFAULT_TILE_HP : ℚ
  /-- The virtual `shoot(tile)` of the concrete trap. -/
  shoot : State → TilePtr → ShootResult
  /-- The virtual `notifyActiveSpotCreated(tile)` of the concrete trap. -/
  notifyActiveSpotCreated : State → TilePtr → ObjPtr
  /-- The address of the object that the next `new` returns. -/
  newAddr : TrapPtr
  /-- The reload time that the constructor of a concrete trap sets. -/
  reloadTimeOf : TrapType → Nat
  /-- The content of a variable that was declared without an initialiser. -/
  uninitialised : Int

namespace State

/-- Append one outgoing call to the trace. -/
def emit (s : State) (e : Event) : State :=
  { s with trace := s.trace ++ [e] }

/-- Replace the trap of the state. -/
def setSelf (s : State) (t : Trap) : State :=
  { s with self := t }

end State

/-! ## Activation control (`Trap.cpp`, lines 332-355) -/

namespace Trap

/-- The member function `Trap::activate(Tile*)`. -/
def activate (env : Env) (s : State) (tile : TilePtr) : State :=
  if tile = nullptr then s
  else
    s.setSelf { s.self with
      mTrapTiles := mapSet s.self.mTrapTiles tile
        ((mapAt env.trapTileInfoDefault s.self.mTrapTiles tile).setActivated true) }

/-- The member function `Trap::deactivate(Tile*)`. -/
def deactivate (env : Env) (s : State) (tile : TilePtr) : State :=
  if tile = nullptr then s
  else
    s.setSelf { s.self with
      mTrapTiles := mapSet s.self.mTrapTiles tile
        ((mapAt env.trapTileInfoDefault s.self.mTrapTiles tile).setActivated false) }

/-- The member function `Trap::isActivated(Tile*) const`. -/
def isActivated (s : State) (tile : TilePtr) : Bool :=
  match mapFind s.self.mTrapTiles tile with
  | none => false
  | some info => info.isActivated

end Trap

/-! ## The `Building` base class -/

namespace Building

/-- Modelled from the spec: `Building::addCoveredTile(Tile*, double)` (not part of the
sources), the "generic owner of a contiguous set of covered tiles, with per-tile hit-point
tracking": the tile joins the covered tiles with the given hit points. -/
def addCoveredTile (s : State) (t : TilePtr) (nHP : ℚ) : State :=
  s.setSelf { s.self with
    mCoveredTiles := s.self.mCoveredTiles ++ [t]
    mTileHP := mapSet s.self.mTileHP t nHP }

/-- Modelled from the spec: `Building::removeCoveredTile(Tile*)` (not part of the sources),
"remove the tile from the covered set": the tile leaves the covered tiles together with its
hit points, and the result tells whether it was covered. -/
def removeCoveredTile (s : State) (t : TilePtr) : Bool × State :=
  if t ∈ s.self.mCoveredTiles then
    (true, s.setSelf { s.self with
      mCoveredTiles := s.self.mCoveredTiles.erase t
      mTileHP := mapErase s.self.mTileHP t })
  else (false, s)

/-- Modelled from the spec: `Building::numCoveredTiles()`, the "covered-tile count". -/
def numCoveredTiles (s : State) : Nat :=
  s.self.mCoveredTiles.length

/-- Modelled from the spec: `Building::addBuildingObject(Tile*, RenderedMovableEntity*)`,
which does "register its result" for the tile. -/
def addBuildingObject (s : State) (tile : TilePtr) (obj : ObjPtr) : State :=
  if obj = nullptr then s
  else
    (s.setSelf { s.self with mBuildingObjects := mapSet s.self.mBuildingObjects tile obj }).emit
      (Event.addRenderedMovableEntity obj)

/-- Modelled from the spec: `Building::removeBuildingObject(Tile*)`, which "unregisters and
destroys the object" of the tile. -/
def removeBuildingObject (s : State) (tile : TilePtr) : State :=
  match mapFind s.self.mBuildingObjects tile with
  | none => s
  | some obj =>
    (s.setSelf { s.self with mBuildingObjects := mapErase s.self.mBuildingObjects tile }).emit
      (Event.removeRenderedMovableEntity obj)

end Building

/-! ## Covered tiles and active spots (`Trap.cpp`, lines 44-72 and 253-330) -/

namespace Trap

/-- The method `Tile::setCoveringTrap(Trap*)`. -/
def setCoveringTrap (s : State) (t : TilePtr) (trap : TrapPtr) : State :=
  { s with tiles := Function.update s.tiles t { s.tiles t with mCoveringTrap := trap } }

/-- The method `Tile::setSeat(Seat*)`. -/
def tileSetSeat (s : State) (t : TilePtr) (seat : SeatPtr) : State :=
  { s with tiles := Function.update s.tiles t { s.tiles t with mSeat := seat } }

/-- The member function `Trap::addCoveredTile(Tile*, double)`. -/
def addCoveredTile (s : State) (t : TilePtr) (nHP : ℚ) : State :=
  let s1 := Building.addCoveredTile s t nHP
  let s2 := setCoveringTrap s1 t s1.self.addr
  s2.setSelf { s2.self with
    mTrapTiles := mapSet s2.self.mTrapTiles t (TrapTileInfo.mk s2.self.mReloadTime false) }

/-- The member function `Trap::removeCoveredTile(Tile*)`. -/
def removeCoveredTile (env : Env) (s : State) (t : TilePtr) : Bool × State :=
  let r := Building.removeCoveredTile s t
  if !r.1 then (false, r.2)
  else
    let s1 := setCoveringTrap r.2 t nullptr
    let s2 := s1.setSelf { s1.self with mTrapTiles := mapErase s1.self.mTrapTiles t }
    if env.gameMap.isServerGameMap then (true, s2)
    else (true, s2.emit (Event.queueRenderRequest (RenderRequest.destroyBuilding s2.self.addr t)))

/-- The member function `Trap::notifyActiveSpotCreated(Tile*)` of the base class. -/
def notifyActiveSpotCreated (_s : State) (_tile : TilePtr) : ObjPtr := nullptr

/-- The member function `Trap::notifyActiveSpotRemoved(Tile*)`. -/
def notifyActiveSpotRemoved (s : State) (tile : TilePtr) : State :=
  Building.removeBuildingObject s tile

/-- The body of the loop of `updateActiveSpots` over the covered tiles (lines 289-297). -/
def activeSpotCreateStep (env : Env) (s : State) (tile : TilePtr) : State :=
  let obj := env.notifyActiveSpotCreated s tile
  let s1 := s.emit (Event.notifyActiveSpotCreated tile)
  if obj = nullptr then s1 else Building.addBuildingObject s1 tile obj

/-- The list `tilesToRemove` of `updateActiveSpots` (lines 302-309): the tiles of
`mBuildingObjects` that are not covered. -/
def activeSpotTilesToRemove (s : State) : List TilePtr :=
  (mapIterKeys s.self.mBuildingObjects).filter (fun tile => decide (tile ∉ s.self.mCoveredTiles))

/-- The body of the loop of `updateActiveSpots` over `tilesToRemove` (lines 313-318). -/
def activeSpotRemoveStep (s : State) (tile : TilePtr) : State :=
  if mapCount s.self.mBuildingObjects tile > 0 then notifyActiveSpotRemoved s tile else s

/-- The member function `Trap::updateActiveSpots()`. -/
def updateActiveSpots (env : Env) (s0 : State) : State :=
  let s := s0.emit Event.updateActiveSpots
  if !env.gameMap.isServerGameMap then s
  else if s.self.mCoveredTiles.length > mapSize s.self.mBuildingObjects then
    s.self.mCoveredTiles.foldl (activeSpotCreateStep env) s
  else if s.self.mCoveredTiles.length < mapSize s.self.mBuildingObjects then
    let tilesToRemove := activeSpotTilesToRemove s
    let s1 := if tilesToRemove.isEmpty then s.emit (Event.assertFailed "!tilesToRemove.empty()") else s
    tilesToRemove.foldl activeSpotRemoveStep s1
  else s

/-- The member function `Trap::setupTrap(name, seat, tiles)`. -/
def setupTrap (env : Env) (s : State) (name : String) (seat : SeatPtr) (tiles : List TilePtr) :
    State :=
  let s1 := s.setSelf { s.self with mName := name, mSeat := seat }
  tiles.foldl (fun s tile => addCoveredTile s tile env.DEFAULT_TILE_HP) s1

/-! ## The upkeep cycle (`Trap.cpp`, lines 182-251) -/

/-- The condition of line 187: the tile is fully claimed by a seat that is not allied with
the seat of the trap. -/
def claimedByEnemy (env : Env) (s : State) (tile : TilePtr) : Bool :=
  decide ((s.tiles tile).mClaimedPercentage ≥ 1) &&
    !env.isAlliedSeat s.self.mSeat (s.tiles tile).mSeat

/-- The body of the first loop of `doUpkeep` (lines 187-197), on the pair of `tilesToRemove`
and the state.  Evaluating `mTileHP[tile]` creates the entry when it is missing. -/
def scanStep (env : Env) (acc : List TilePtr × State) (tile : TilePtr) :
    List TilePtr × State :=
  if claimedByEnemy env acc.2 tile then (acc.1 ++ [tile], acc.2)
  else
    let s1 := acc.2.setSelf { acc.2.self with mTileHP := mapTouch 0 acc.2.self.mTileHP tile }
    if mapAt 0 acc.2.self.mTileHP tile ≤ 0 then (acc.1 ++ [tile], s1) else (acc.1, s1)

/-- The first loop of `doUpkeep` (lines 184-198). -/
def scanTiles (env : Env) (s : State) : List TilePtr × State :=
  s.self.mCoveredTiles.foldl (scanStep env) ([], s)

/-- The notification built at lines 204-207, with the payload `name << tile`.
Modelled from the spec: `operator<<(ODPacket&, Tile*)` writes the "tile coordinate". -/
def removeTrapTileNotification (env : Env) (s : State) (tile : TilePtr) : ServerNotification :=
  { type := ServerNotificationType.removeTrapTile
    mConcernedPlayer := env.gameMap.getPlayerBySeat s.self.mSeat
    mPacket := [PacketField.string s.self.mName, PacketField.int32 (s.tiles tile).x,
      PacketField.int32 (s.tiles tile).y] }

/-- The body of the removal loop of `doUpkeep` (lines 204-210). -/
def removalStep (env : Env) (s : State) (tile : TilePtr) : State :=
  (removeCoveredTile env
    (s.emit (Event.queueServerNotification (removeTrapTileNotification env s tile))) tile).2

/-- The block of lines 200-216 of `doUpkeep`. -/
def removalPass (env : Env) (tilesToRemove : List TilePtr) (s : State) : State :=
  if tilesToRemove.isEmpty then s
  else
    let s1 := tilesToRemove.foldl (removalStep env) s
    let s2 := updateActiveSpots env s1
    s2.emit Event.createMesh

/-- Lines 241-249 of `doUpkeep`: the call of `shoot(tile)` and what follows it. -/
def shootStep (env : Env) (s : State) (tile : TilePtr) : State :=
  let r := env.shoot s tile
  let s1 := s.emit (Event.shoot tile)
  let s2 := if r.deactivates then deactivate env s1 tile else s1
  if r.triggered then
    let s3 := s2.setSelf { s2.self with
      mTrapTiles := mapSet s2.self.mTrapTiles tile
        ((mapAt env.trapTileInfoDefault s2.self.mTrapTiles tile).setReloadTime
          s2.self.mReloadTime) }
    if env.gameMap.isServerGameMap then
      s3.emit (Event.playerIsFighting (env.gameMap.getPlayerBySeat s3.self.mSeat))
    else s3
  else s2

/-- The body of the last loop of `doUpkeep` (lines 229-249).  Evaluating `mTrapTiles[tile]`
creates the entry when it is missing. -/
def fireStep (env : Env) (s : State) (tile : TilePtr) : State :=
  let s1 := s.setSelf { s.self with
    mTrapTiles := mapTouch env.trapTileInfoDefault s.self.mTrapTiles tile }
  let info := mapAt env.trapTileInfoDefault s1.self.mTrapTiles tile
  if info.getReloadTime > 0 then
    s1.setSelf { s1.self with mTrapTiles := mapSet s1.self.mTrapTiles tile info.decreaseReloadTime }
  else
    let s2 := if !info.isActivated then activate env s1 tile else s1
    shootStep env s2 tile

/-- The member function `Trap::doUpkeep()`. -/
def doUpkeep (env : Env) (s : State) : State :=
  let scan := scanTiles env s
  let s1 := removalPass env scan.1 scan.2
  if Building.numCoveredTiles s1 ≤ 0 then
    ((s1.emit (Event.logMessage ("Removing trap " ++ s1.self.mName))).emit
      (Event.removeTrap s1.self.addr)).emit (Event.deleteYourself s1.self.addr)
  else
    s1.self.mCoveredTiles.foldl (fireStep env) s1

end Trap

/-! ## Packets and text streams -/

namespace ODPacket

/-- The empty packet. -/
def empty : ODPacket := { fields := [], valid := true }

/-- The operator `ODPacket << uint32_t`. -/
def writeUInt32 (p : ODPacket) (v : Nat) : ODPacket :=
  { p with fields := p.fields ++ [PacketField.uint32 v] }

/-- The operator `ODPacket << int`. -/
def writeInt (p : ODPacket) (v : Int) : ODPacket :=
  { p with fields := p.fields ++ [PacketField.int32 v] }

/-- The operator `ODPacket << std::string`. -/
def writeString (p : ODPacket) (v : String) : ODPacket :=
  { p with fields := p.fields ++ [PacketField.string v] }

/-- The operator `ODPacket >> uint32_t&`: the variable keeps its old content, and the packet
turns invalid, when the packet is invalid already or holds no such field next. -/
def readUInt32 (p : ODPacket) (old : Nat) : Nat × ODPacket :=
  match p.valid, p.fields with
  | true, PacketField.uint32 v :: rest => (v, { fields := rest, valid := true })
  | _, _ => (old, { p with valid := false })

/-- The operator `ODPacket >> int&`. -/
def readInt (p : ODPacket) (old : Int) : Int × ODPacket :=
  match p.valid, p.fields with
  | true, PacketField.int32 v :: rest => (v, { fields := rest, valid := true })
  | _, _ => (old, { p with valid := false })

/-- The operator `ODPacket >> std::string&`. -/
def readString (p : ODPacket) (old : String) : String × ODPacket :=
  match p.valid, p.fields with
  | true, PacketField.string v :: rest => (v, { fields := rest, valid := true })
  | _, _ => (old, { p with valid := false })

end ODPacket

/-- The decimal text of an unsigned number, as `operator<<` of `std::ostream` prints it. -/
def decimalNat (n : Nat) : List Char :=
  Nat.toDigits 10 n

/-- The decimal text of an `int`, as `operator<<` of `std::ostream` prints it. -/
def decimalInt (i : Int) : List Char :=
  match i with
  | Int.ofNat m => decimalNat m
  | Int.negSucc m => '-' :: decimalNat (m + 1)

/-- The text that `Ogre::StringConverter::toString(int)` returns. -/
def intToString (i : Int) : String :=
  String.mk (decimalInt i)

/-- The white space that formatted input skips (`std::isspace` in the C locale). -/
def isSpace (c : Char) : Bool :=
  c = ' ' || c = '\t' || c = '\n' || c = '\x0b' || c = '\x0c' || c = '\r'

/-- The value of a decimal digit. -/
def digitValue (c : Char) : Nat :=
  c.toNat - 48

/-- Consume the decimal digits at the front of the text, accumulating their value. -/
def readDigits : List Char → Nat → Nat × List Char
  | [], acc => (acc, [])
  | c :: cs, acc => if c.isDigit then readDigits cs (acc * 10 + digitValue c) else (acc, c :: cs)

/-- A `std::istream`: the characters not read yet and the `failbit`. -/
structure IStream where
  buf : List Char
  failbit : Bool
deriving DecidableEq, Repr

namespace IStream

/-- The optional sign at the front of a number: whether it is a minus, and the text after
the sign. -/
def scanSign : List Char → Bool × List Char
  | '-' :: rest => (true, rest)
  | '+' :: rest => (false, rest)
  | cs => (false, cs)

/-- The sign and the digits of a number at the front of the text, after the white space:
`none` when no digit follows the optional sign; otherwise whether the sign is a minus, the
magnitude, and the text left. -/
def scanNumber (cs : List Char) : Option (Bool × Nat × List Char) :=
  let body := scanSign cs
  match body.2 with
  | [] => none
  | c :: _ => if c.isDigit then some (body.1, readDigits body.2 0) else none

/-- The operator `std::istream >> int&` (C++11): a failed stream is left alone together with
the variable; at the end of the input the stream fails; text that is not a number stores `0`
and fails, with the sign consumed when there is one; a number out of range stores the nearest
bound and fails. -/
def readInt (is : IStream) (old : Int) : Int × IStream :=
  if is.failbit then (old, is)
  else
    match is.buf.dropWhile isSpace with
    | [] => (old, { buf := [], failbit := true })
    | c :: cs =>
      match scanNumber (c :: cs) with
      | none => (0, { buf := (scanSign (c :: cs)).2, failbit := true })
      | some (neg, n, rest) =>
        let v : Int := if neg then -(n : Int) else (n : Int)
        if v < -2147483648 then (-2147483648, { buf := rest, failbit := true })
        else if v > 2147483647 then (2147483647, { buf := rest, failbit := true })
        else (v, { buf := rest, failbit := false })

/-- The operator `std::istream >> uint32_t&` (C++11); a number with a minus sign is negated
modulo `2^32`. -/
def readUInt32 (is : IStream) (old : Nat) : Nat × IStream :=
  if is.failbit then (old, is)
  else
    match is.buf.dropWhile isSpace with
    | [] => (old, { buf := [], failbit := true })
    | c :: cs =>
      match scanNumber (c :: cs) with
      | none => (0, { buf := (scanSign (c :: cs)).2, failbit := true })
      | some (neg, n, rest) =>
        if n > 4294967295 then (4294967295, { buf := rest, failbit := true })
        else ((if neg then (4294967296 - n) % 4294967296 else n), { buf := rest, failbit := false })

end IStream

/-- The tiles and the trace: the part of a state that does not belong to one trap. -/
structure World where
  tiles : TilePtr → Tile
  trace : List Event

/-- The world of a state. -/
def State.world (s : State) : World :=
  { tiles := s.tiles, trace := s.trace }

/-- The state of a trap in a world. -/
def World.withSelf (w : World) (t : Trap) : State :=
  { self := t, tiles := w.tiles, trace := w.trace }

/-- Modelled from the spec: `OD_ASSERT_TRUE(cond)` and `OD_ASSERT_TRUE_MSG(cond, msg)` (not
part of the sources): when the condition fails, "process continues" and "the condition is
logged as a contract violation". -/
def odAssertTrue (s : State) (cond : Bool) (msg : String) : State :=
  if cond then s else s.emit (Event.assertFailed msg)

/-! ## The codecs (`Trap.cpp`, lines 74-138 and 373-482) -/

namespace Trap

/-- The constructor `Trap::Trap(GameMap*)` (lines 35-42), for the object at address `addr`. -/
def ctor (addr : TrapPtr) : Trap :=
  { addr := addr, mType := nullTrapType, mName := "", mSeat := nullptr, mReloadTime := 0,
    mMinDamage := 0, mMaxDamage := 0, mCoveredTiles := [], mTileHP := ∅, mTrapTiles := ∅,
    mBuildingObjects := ∅ }

/-- Modelled from the spec: `TrapCannon::getTrapCannonFromStream` and its siblings for the
other types and for packets (not part of the sources), the "matching concrete constructor":
a new trap of the type, which covers no tile and reads nothing from the input. -/
def newConcreteTrap (env : Env) (w : World) (type : TrapType) : State :=
  ({ w with trace := w.trace ++ [Event.newTrap type] } : World).withSelf
    { ctor env.newAddr with mType := type, mReloadTime := env.reloadTimeOf type }

/-- The operator `ODPacket << Trap::TrapType` (lines 477-482). -/
def writeTrapTypePacket (os : ODPacket) (tt : TrapType) : ODPacket :=
  os.writeUInt32 (toUInt32 tt)

/-- The operator `ODPacket >> Trap::TrapType&` (lines 469-475); `tmp` has no initialiser. -/
def readTrapTypePacket (env : Env) (is : ODPacket) : TrapType × ODPacket :=
  is.readUInt32 (toUInt32 env.uninitialised)

/-- The operator `std::ostream << Trap::TrapType` (lines 462-467). -/
def writeTrapTypeStream (os : List Char) (tt : TrapType) : List Char :=
  os ++ decimalNat (toUInt32 tt)

/-- The operator `std::istream >> Trap::TrapType&` (lines 454-460); `tmp` has no initialiser. -/
def readTrapTypeStream (env : Env) (is : IStream) : TrapType × IStream :=
  is.readUInt32 (toUInt32 env.uninitialised)

/-- The member function `Trap::exportHeadersToStream(std::ostream&)`. -/
def exportHeadersToStream (s : State) (os : List Char) : List Char :=
  writeTrapTypeStream os s.self.mType ++ ['\t']

/-- The member function `Trap::exportHeadersToPacket(ODPacket&)`. -/
def exportHeadersToPacket (s : State) (os : ODPacket) : ODPacket :=
  writeTrapTypePacket os s.self.mType

/-- The member function `Trap::exportToPacket(ODPacket&)`. -/
def exportToPacket (env : Env) (s : State) (os : ODPacket) : ODPacket :=
  let nbTiles : Int := toInt32 s.self.mCoveredTiles.length
  let seatId : Int := env.seatGetId s.self.mSeat
  let os1 := ((os.writeString s.self.mName).writeInt seatId).writeInt nbTiles
  s.self.mCoveredTiles.foldl
    (fun os tempTile => (os.writeInt (s.tiles tempTile).x).writeInt (s.tiles tempTile).y) os1

/-- The member function `Trap::exportToStream(std::ostream&)`. -/
def exportToStream (env : Env) (s : State) (os : List Char) : List Char :=
  let nbTiles : Int := toInt32 s.self.mCoveredTiles.length
  let seatId : Int := env.seatGetId s.self.mSeat
  let os1 := os ++ decimalInt seatId ++ ['\t'] ++ decimalInt nbTiles ++ ['\n']
  s.self.mCoveredTiles.foldl
    (fun os tempTile =>
      os ++ decimalInt (s.tiles tempTile).x ++ ['\t'] ++ decimalInt (s.tiles tempTile).y ++ ['\n'])
    os1

/-- The variables of the loop of `importFromPacket` / `importFromStream`: the state, the
input, and `tempX`, `tempY`, which keep their content when a read fails. -/
structure ImportLoop (σ : Type) where
  s : State
  is : σ
  tempX : Int
  tempY : Int

/-- Lines 411-417 and 444-450: look the tile up and cover it. -/
def importTile (env : Env) (s : State) (tempX tempY : Int) : State :=
  let tempTile := env.gameMap.getTile tempX tempY
  let s1 := odAssertTrue s (decide (tempTile ≠ nullptr))
    ("tile=" ++ intToString tempX ++ "," ++ intToString tempY)
  if tempTile ≠ nullptr then
    let s2 := addCoveredTile s1 tempTile env.DEFAULT_TILE_HP
    tileSetSeat s2 tempTile s2.self.mSeat
  else s1

/-- The body of the loop of `importFromPacket` (lines 410-417). -/
def importFromPacketStep (env : Env) (l : ImportLoop ODPacket) : ImportLoop ODPacket :=
  let rx := l.is.readInt l.tempX
  let ry := rx.2.readInt l.tempY
  let s1 := odAssertTrue l.s ry.2.valid "is >> tempX >> tempY"
  { s := importTile env s1 rx.1 ry.1, is := ry.2, tempX := rx.1, tempY := ry.1 }

/-- The member function `Trap::importFromPacket(ODPacket&)`. -/
def importFromPacket (env : Env) (s : State) (is : ODPacket) : State × ODPacket :=
  let rname := is.readString ""
  let s1 := odAssertTrue s rname.2.valid "is >> name"
  let s2 := s1.setSelf { s1.self with mName := rname.1 }
  let rseat := rname.2.readInt env.uninitialised
  let s3 := odAssertTrue s2 rseat.2.valid "is >> tempInt"
  let s4 := s3.setSelf { s3.self with mSeat := env.gameMap.getSeatById rseat.1 }
  let rcount := rseat.2.readInt env.uninitialised
  let s5 := odAssertTrue s4 rcount.2.valid "is >> tilesToLoad"
  let l := (importFromPacketStep env)^[rcount.1.toNat]
    { s := s5, is := rcount.2, tempX := env.uninitialised, tempY := env.uninitialised }
  (l.s, l.is)

/-- The body of the loop of `importFromStream` (lines 443-450). -/
def importFromStreamStep (env : Env) (l : ImportLoop IStream) : ImportLoop IStream :=
  let rx := l.is.readInt l.tempX
  let ry := rx.2.readInt l.tempY
  let s1 := odAssertTrue l.s (!ry.2.failbit) "is >> tempX >> tempY"
  { s := importTile env s1 rx.1 ry.1, is := ry.2, tempX := rx.1, tempY := ry.1 }

/-- The member function `Trap::importFromStream(std::istream&)`. -/
def importFromStream (env : Env) (s : State) (is : IStream) : State × IStream :=
  let rseat := is.readInt env.uninitialised
  let s1 := odAssertTrue s (!rseat.2.failbit) "is >> tempInt"
  let s2 := s1.setSelf { s1.self with mSeat := env.gameMap.getSeatById rseat.1 }
  let rcount := rseat.2.readInt env.uninitialised
  let s3 := odAssertTrue s2 (!rcount.2.failbit) "is >> tilesToLoad"
  let l := (importFromStreamStep env)^[rcount.1.toNat]
    { s := s3, is := rcount.2, tempX := env.uninitialised, tempY := env.uninitialised }
  (l.s, l.is)

/-- What a decoding function leaves behind: the pointer it returns (`none` for `nullptr`,
otherwise the trap behind it), the world and the input. -/
structure Decoded (σ : Type) where
  result : Option Trap
  world : World
  is : σ

/-- The `switch` of `getTrapFromStream` / `getTrapFromPacket` (lines 80-97 and 113-130): the
value of `tempTrap` after it, `none` for `nullptr`, in the state after it. -/
def dispatchTrapType (env : Env) (w : World) (nType : TrapType) : Option Trap × World :=
  if nType = nullTrapType then (none, w)
  else if nType = cannon then
    let s := newConcreteTrap env w cannon
    (some s.self, s.world)
  else if nType = spike then
    let s := newConcreteTrap env w spike
    (some s.self, s.world)
  else if nType = boulder then
    let s := newConcreteTrap env w boulder
    (some s.self, s.world)
  else
    (none, { w with trace := w.trace ++
      [Event.assertFailed ("Unknown enum value : " ++ intToString (toInt32 nType))] })

/-- The static member function `Trap::getTrapFromStream(GameMap*, std::istream&)`. -/
def getTrapFromStream (env : Env) (w : World) (is : IStream) : Decoded IStream :=
  let r := readTrapTypeStream env is
  let d := dispatchTrapType env w r.1
  match d.1 with
  | none => { result := none, world := d.2, is := r.2 }
  | some tempTrap =>
    let i := importFromStream env (d.2.withSelf tempTrap) r.2
    { result := some i.1.self, world := i.1.world, is := i.2 }

/-- The static member function `Trap::getTrapFromPacket(GameMap*, ODPacket&)`. -/
def getTrapFromPacket (env : Env) (w : World) (is : ODPacket) : Decoded ODPacket :=
  let r := readTrapTypePacket env is
  let d := dispatchTrapType env w r.1
  match d.1 with
  | none => { result := none, world := d.2, is := r.2 }
  | some tempTrap =>
    let i := importFromPacket env (d.2.withSelf tempTrap) r.2
    { result := some i.1.self, world := i.1.world, is := i.2 }

/-- The static member function `Trap::getTrapNameFromTrapType(TrapType)`. -/
def getTrapNameFromTrapType (t : TrapType) : String :=
  if t = nullTrapType then "NullTrapType"
  else if t = cannon then "Cannon"
  else if t = spike then "Spike"
  else if t = boulder then "Boulder"
  else "UnknownTrapType"

/-- The static member function `Trap::costPerTile(TrapType)`. -/
def costPerTile (t : TrapType) : Int :=
  if t = nullTrapType then 0
  else if t = cannon then 500
  else if t = spike then 400
  else if t = boulder then 500
  else 100

end Trap

/-! ## What a call of `doUpkeep` can be asked about -/

/-- The two conditions of the first loop of `doUpkeep` (lines 187 and 193) under which a
covered tile is put in `tilesToRemove`. -/
def removalCandidate (env : Env) (s : State) (tile : TilePtr) : Bool :=
  Trap.claimedByEnemy env s tile || decide (mapAt 0 s.self.mTileHP tile ≤ 0)

/-- The state of `doUpkeep` when it reaches the extinction check of line 219. -/
def afterRemoval (env : Env) (s : State) : State :=
  Trap.removalPass env (Trap.scanTiles env s).1 (Trap.scanTiles env s).2

/-- The notifications queued in a trace, in order. -/
def serverNotifications (trace : List Event) : List ServerNotification :=
  trace.filterMap (fun e =>
    match e with
    | Event.queueServerNotification n => some n
    | _ => none)

/-- The tiles that the `shoot` hook was invoked for in a trace, in order. -/
def shootCalls (trace : List Event) : List TilePtr :=
  trace.filterMap (fun e =>
    match e with
    | Event.shoot tile => some tile
    | _ => none)

/-- The events of the kinds that the fire loop of `doUpkeep` produces. -/
def isFireEvent (e : Event) : Bool :=
  match e with
  | Event.shoot _ => true
  | Event.playerIsFighting _ => true
  | _ => false

/-- The requests to remove the trap from the map and to delete it. -/
def isExtinctionEvent (e : Event) : Bool :=
  match e with
  | Event.removeTrap _ => true
  | Event.deleteYourself _ => true
  | _ => false

/-- The events that a call added to the trace `before`, given the trace `after` it. -/
def newEvents (before after : List Event) : List Event :=
  after.drop before.length

/-! ## Closed forms of the loops of `doUpkeep`, used in the proofs -/

/-- The map `mTileHP` after the first loop of `doUpkeep` ran over the tiles `l`: the entry of
every tile that is not claimed by an enemy was looked up with `operator[]`. -/
def scanHP (enemy : TilePtr → Bool) (l : List TilePtr) (hp : TileMap ℚ) : TileMap ℚ :=
  l.foldl (fun m t => if enemy t then m else mapTouch 0 m t) hp

/-- A map after `erase` was called for every tile of `L`. -/
def eraseAll {V : Type} (L : List TilePtr) (m : TileMap V) : TileMap V :=
  L.foldl mapErase m

/-- The tile objects after `setCoveringTrap(NULL)` was called on every tile of `L`. -/
def clearCovering (L : List TilePtr) (tiles : TilePtr → Tile) : TilePtr → Tile :=
  L.foldl (fun f t => Function.update f t { f t with mCoveringTrap := nullptr }) tiles

/-- The events of one round of the removal loop of `doUpkeep` for a covered tile: the
notification, and on a map that is not a server map the request to destroy the mesh. -/
def removalEventsOf (env : Env) (s : State) (t : TilePtr) : List Event :=
  Event.queueServerNotification (Trap.removeTrapTileNotification env s t) ::
    (if env.gameMap.isServerGameMap then []
     else [Event.queueRenderRequest (RenderRequest.destroyBuilding s.self.addr t)])

/-- The events of the removal loop of `doUpkeep` over the tiles `L`. -/
def removalEvents (env : Env) (s : State) (L : List TilePtr) : List Event :=
  (L.map (removalEventsOf env s)).flatten

/-- The events of the kinds that `updateActiveSpots()` and `createMesh()` produce. -/
def isRebuildEvent (e : Event) : Bool :=
  match e with
  | Event.updateActiveSpots => true
  | Event.notifyActiveSpotCreated _ => true
  | Event.addRenderedMovableEntity _ => true
  | Event.removeRenderedMovableEntity _ => true
  | Event.assertFailed _ => true
  | Event.createMesh => true
  | _ => false

/-- The state `s2` differs from `s` in `mBuildingObjects` and by new events of the rebuild
kinds only. -/
def ObjectsRel (s s2 : State) : Prop :=
  ∃ m evs, s2 = { self := { s.self with mBuildingObjects := m }, tiles := s.tiles,
                  trace := s.trace ++ evs } ∧ ∀ e ∈ evs, isRebuildEvent e = true

/-- The state `s2` differs from `s` in `mTrapTiles`, at the tiles of `ts` only and without
losing a key, and by new fire events, the shots among them at tiles of `ts`. -/
def TrapTilesRel (ts : List TilePtr) (s s2 : State) : Prop :=
  ∃ m evs, s2 = { self := { s.self with mTrapTiles := m }, tiles := s.tiles,
                  trace := s.trace ++ evs } ∧
    (∀ t, t ∈ m → t ∈ ts ∨ t ∈ s.self.mTrapTiles) ∧
    (∀ t, t ∈ s.self.mTrapTiles → t ∈ m) ∧
    (∀ t, t ∉ ts → mapFind m t = mapFind s.self.mTrapTiles t) ∧
    (∀ e ∈ evs, isFireEvent e = true ∧ ∀ t, e = Event.shoot t → t ∈ ts)

/-! ## Auxiliary definitions for the codecs -/

/-- The value of a list of decimal digits read from the left, starting from `acc`. -/
def digitsValue (acc : Nat) (cs : List Char) : Nat :=
  cs.foldl (fun a c => a * 10 + digitValue c) acc

/-- The values of the type `int`. -/
def isInt32 (v : Int) : Prop :=
  -2147483648 ≤ v ∧ v ≤ 2147483647

/-- The coordinates `(x, y)` of a tile object. -/
def tileCoords (tiles : TilePtr → Tile) (t : TilePtr) : Int × Int :=
  ((tiles t).x, (tiles t).y)

/-- The state after lines 411-417 ran for each coordinate pair of a list. -/
def importTiles (env : Env) (s : State) (cs : List (Int × Int)) : State :=
  cs.foldl (fun s c => Trap.importTile env s c.1 c.2) s

/-- The state in which the loop of `importFromPacket` / `importFromStream` starts for a
new trap of type `ty`, after the name and the seat were set. -/
def importStart (env : Env) (w : World) (ty : TrapType) (name : String) (sid : Int) : State :=
  (Trap.newConcreteTrap env w ty).setSelf { (Trap.newConcreteTrap env w ty).self with
    mName := name, mSeat := env.gameMap.getSeatById sid }

/-- The packet fields of a list of coordinate pairs. -/
def coordFields (cs : List (Int × Int)) : List PacketField :=
  (cs.map (fun c => [PacketField.int32 c.1, PacketField.int32 c.2])).flatten

/-- The text of a list of coordinate pairs in the save stream: one line `x<TAB>y` each. -/
def coordText (cs : List (Int × Int)) : List Char :=
  (cs.map (fun c => decimalInt c.1 ++ '\t' :: (decimalInt c.2 ++ ['\n']))).flatten

/-! ## What the other member functions and the fire loop can be asked about -/

/-- The event that line 413 / 446 logs for a coordinate pair without a tile. -/
def tileAssertion (c : Int × Int) : Event :=
  Event.assertFailed ("tile=" ++ intToString c.1 ++ "," ++ intToString c.2)

/-- The state in which a round of the fire loop of `doUpkeep` (lines 229-241) calls
`shoot(tile)` when the reload time of the tile is `0`: the entry of the tile was looked up,
and the tile was activated if it was not. -/
def hookState (env : Env) (s : State) (tile : TilePtr) : State :=
  let s1 := s.setSelf { s.self with
    mTrapTiles := mapTouch env.trapTileInfoDefault s.self.mTrapTiles tile }
  if !(mapAt env.trapTileInfoDefault s1.self.mTrapTiles tile).isActivated then
    Trap.activate env s1 tile
  else s1

/-- The state of the fire loop of `doUpkeep` when it reaches the tile `t`: the rounds for the
covered tiles in front of `t` are done. -/
def fireLoopBefore (env : Env) (s : State) (t : TilePtr) : State :=
  ((afterRemoval env s).self.mCoveredTiles.takeWhile (fun x => decide (x ≠ t))).foldl
    (Trap.fireStep env) (afterRemoval env s)

/-- What the hook `shoot` returns in a call of `doUpkeep` when it is invoked for `t`. -/
def shotResult (env : Env) (s : State) (t : TilePtr) : ShootResult :=
  env.shoot (hookState env (fireLoopBefore env s t) t) t

/-! ## A concrete map and a concrete trap, used to evaluate the definitions -/

/-- A server map with seat `7` at address `70` and the tiles `(2,3)`, `(2,4)` at the
addresses `23`, `24`. -/
def demoMap : GameMap :=
  { isServerGameMap := true
    getSeatById := fun i => if i = 7 then 70 else 0
    getTile := fun x y => if x = 2 ∧ y = 3 then 23 else if x = 2 ∧ y = 4 then 24 else 0
    getPlayerBySeat := fun seat => seat + 1000 }

/-- An environment on `demoMap`: a seat is allied with itself only, and every shot hits. -/
def demoEnv : Env :=
  { gameMap := demoMap
    seatGetId := fun p => if p = 70 then 7 else 0
    isAlliedSeat := fun a b => a == b
    trapTileInfoDefault := { mReloadTime := 0, mIsActivated := false }
    DEFAULT_TILE_HP := 10
    shoot := fun _ _ => { triggered := true, deactivates := false }
    notifyActiveSpotCreated := fun _ _ => 0
    newAddr := 500
    reloadTimeOf := fun _ => 3
    uninitialised := 0 }

/-- The tile objects of `demoMap`, all unclaimed and owned by seat `70`. -/
def demoTiles : TilePtr → Tile := fun p =>
  if p = 23 then { x := 2, y := 3, mClaimedPercentage := 0, mSeat := 70, mCoveringTrap := 0 }
  else if p = 24 then { x := 2, y := 4, mClaimedPercentage := 0, mSeat := 70, mCoveringTrap := 0 }
  else { x := 0, y := 0, mClaimedPercentage := 0, mSeat := 0, mCoveringTrap := 0 }

/-- The world of `demoTiles` with an empty trace. -/
def demoWorld : World := { tiles := demoTiles, trace := [] }

/-- A cannon named `Cannon_1` at address `400`, with reload time `3`, set up by `setupTrap`
for seat `70` on the given tiles. -/
def demoTrapOn (tiles : List TilePtr) : State :=
  Trap.setupTrap demoEnv
    (demoWorld.withSelf { Trap.ctor 400 with mType := cannon, mReloadTime := 3 })
    "Cannon_1" 70 tiles

/-- The cannon `Cannon_1` on the tiles `(2,3)` and `(2,4)`. -/
def demoTrap : State := demoTrapOn [23, 24]

/-- The demo cannon after the hit points of its tiles at `23` and `24` were set to `h23`
and `h24`. -/
def demoTrapHP (h23 h24 : ℚ) : State :=
  demoTrap.setSelf { demoTrap.self with
    mTileHP := mapSet (mapSet demoTrap.self.mTileHP 23 h23) 24 h24 }

/-- The demo cannon after three calls of `doUpkeep`: the reload time of its tiles has run
down to `0`. -/
def demoTrapLoaded : State :=
  (Trap.doUpkeep demoEnv)^[3] demoTrap

/-- An environment like `demoEnv` whose hook `notifyActiveSpotCreated` returns an object for
every tile, at the address `900` plus the address of the tile. -/
def demoSpotEnv : Env :=
  { demoEnv with notifyActiveSpotCreated := fun _ tile => 900 + tile }

/-- The demo cannon after its two active spots were created and the tile at `24` was
removed from it by `removeCoveredTile`. -/
def demoTrapShrunk : State :=
  (Trap.removeCoveredTile demoSpotEnv (Trap.updateActiveSpots demoSpotEnv demoTrap) 24).2

/-- A new cannon at address `500` in the demo world, before anything was imported. -/
def demoBlankTrap : State :=
  demoWorld.withSelf { Trap.ctor 500 with mType := cannon, mReloadTime := 3 }

/-- A cannon like `demoTrap` whose covered tiles list the tile at `23` twice: `setupTrap` was
called with the tiles `23`, `24`, `23`. -/
def demoTrapTwice : State := demoTrapOn [23, 24, 23]

/-- The cannon `demoTrapTwice` after the hit points of the tile at `23` were set to `0`. -/
def demoTrapTwiceDead : State :=
  demoTrapTwice.setSelf { demoTrapTwice.self with
    mTileHP := mapSet demoTrapTwice.self.mTileHP 23 0 }

/-- A cannon with reload time `2`, set up by `setupTrap` on the tiles `23`, `24`, `23`, after
one call of `doUpkeep`: the reload time of the tile at `23`, which has two rounds in a call,
has run down to `0`. -/
def demoTrapTwiceLoaded : State :=
  Trap.doUpkeep demoEnv
    (Trap.setupTrap demoEnv
      (demoWorld.withSelf { Trap.ctor 400 with mType := cannon, mReloadTime := 2 })
      "Cannon_1" 70 [23, 24, 23])

/-- An environment like `demoEnv` in which every shot misses. -/
def demoMissEnv : Env :=
  { demoEnv with shoot := fun _ _ => { triggered := false, deactivates := false } }

/-! ## Facts about the containers -/

theorem mem_mapSet {V : Type} (m : TileMap V) (k t : TilePtr) (v : V) :
    t ∈ mapSet m k v ↔ t = k ∨ t ∈ m := by
  unfold mapSet
  exact AList.mem_insert m

theorem mem_mapTouch {V : Type} (d : V) (m : TileMap V) (k t : TilePtr) :
    t ∈ mapTouch d m k ↔ t = k ∨ t ∈ m := by
  unfold mapTouch
  by_cases hk : k ∈ m
  · rw [if_pos hk]
    constructor
    · intro h
      exact Or.inr h
    · rintro (h | h)
      · rw [h]; exact hk
      · exact h
  · rw [if_neg hk]
    exact AList.mem_insert m

theorem mem_mapErase {V : Type} (m : TileMap V) (k t : TilePtr) :
    t ∈ mapErase m k ↔ t ≠ k ∧ t ∈ m := by
  unfold mapErase
  exact AList.mem_erase

theorem mapFind_mapSet_same {V : Type} (m : TileMap V) (k : TilePtr) (v : V) :
    mapFind (mapSet m k v) k = some v := by
  unfold mapFind mapSet
  exact AList.lookup_insert m

theorem mapFind_mapSet_ne {V : Type} (m : TileMap V) {k t : TilePtr} (v : V) (h : t ≠ k) :
    mapFind (mapSet m k v) t = mapFind m t := by
  unfold mapFind mapSet
  exact AList.lookup_insert_ne h

theorem mapFind_mapErase_same {V : Type} (m : TileMap V) (k : TilePtr) :
    mapFind (mapErase m k) k = none := by
  unfold mapFind mapErase
  exact AList.lookup_erase k m

theorem mapFind_mapErase_ne {V : Type} (m : TileMap V) {k t : TilePtr} (h : t ≠ k) :
    mapFind (mapErase m k) t = mapFind m t := by
  unfold mapFind mapErase
  exact AList.lookup_erase_ne h

theorem mapFind_eq_none {V : Type} (m : TileMap V) (k : TilePtr) :
    mapFind m k = none ↔ k ∉ m := by
  unfold mapFind
  exact AList.lookup_eq_none

theorem mapFind_isSome {V : Type} (m : TileMap V) (k : TilePtr) :
    (mapFind m k).isSome ↔ k ∈ m := by
  unfold mapFind
  exact AList.lookup_isSome

theorem mem_of_mapFind_eq_some {V : Type} {m : TileMap V} {k : TilePtr} {v : V}
    (h : mapFind m k = some v) : k ∈ m := by
  rw [← mapFind_isSome, h]
  rfl

theorem mapAt_eq {V : Type} (d : V) (m : TileMap V) (k : TilePtr) :
    mapAt d m k = (mapFind m k).getD d := rfl

theorem mapFind_mapTouch_of_mem {V : Type} (d : V) (m : TileMap V) {k : TilePtr} (t : TilePtr)
    (h : k ∈ m) : mapFind (mapTouch d m k) t = mapFind m t := by
  unfold mapTouch
  rw [if_pos h]

theorem mapFind_mapTouch_ne {V : Type} (d : V) (m : TileMap V) {k t : TilePtr} (h : t ≠ k) :
    mapFind (mapTouch d m k) t = mapFind m t := by
  unfold mapTouch
  by_cases hk : k ∈ m
  · rw [if_pos hk]
  · rw [if_neg hk]
    exact mapFind_mapSet_ne m d h

theorem mapFind_mapTouch_same {V : Type} (d : V) (m : TileMap V) (k : TilePtr) :
    mapFind (mapTouch d m k) k = some (mapAt d m k) := by
  unfold mapTouch
  by_cases hk : k ∈ m
  · rw [if_pos hk, mapAt_eq]
    have h := (mapFind_isSome m k).2 hk
    cases hf : mapFind m k with
    | none => rw [hf] at h; cases h
    | some v => rfl
  · rw [if_neg hk, mapAt_eq, (mapFind_eq_none m k).2 hk]
    exact mapFind_mapSet_same m k d

theorem mapAt_mapTouch {V : Type} (d : V) (m : TileMap V) (k t : TilePtr) :
    mapAt d (mapTouch d m k) t = mapAt d m t := by
  by_cases h : t = k
  · rw [h, mapAt_eq, mapFind_mapTouch_same]
    rfl
  · rw [mapAt_eq, mapFind_mapTouch_ne d m h]
    rfl

/-! ## The loops of `doUpkeep` -/

theorem mapAt_scanHP (enemy : TilePtr → Bool) (l : List TilePtr) (hp : TileMap ℚ) (t : TilePtr) :
    mapAt 0 (scanHP enemy l hp) t = mapAt 0 hp t := by
  induction l generalizing hp with
  | nil => rfl
  | cons a l ih =>
    unfold scanHP
    rw [List.foldl_cons]
    have := ih (if enemy a then hp else mapTouch 0 hp a)
    unfold scanHP at this
    rw [this]
    by_cases h : enemy a
    · simp [h]
    · simp [h, mapAt_mapTouch]

theorem mapFind_scanHP_of_mem (enemy : TilePtr → Bool) (l : List TilePtr) (hp : TileMap ℚ)
    {t : TilePtr} (ht : t ∈ hp) : mapFind (scanHP enemy l hp) t = mapFind hp t := by
  induction l generalizing hp with
  | nil => rfl
  | cons a l ih =>
    unfold scanHP
    rw [List.foldl_cons]
    by_cases h : enemy a
    · simp only [h, if_true]
      exact ih hp ht
    · simp only [h, Bool.false_eq_true, if_false]
      have h1 := ih (mapTouch 0 hp a) ((mem_mapTouch 0 hp a t).2 (Or.inr ht))
      unfold scanHP at h1
      rw [h1]
      by_cases hta : t = a
      · rw [hta, mapFind_mapTouch_of_mem 0 hp a (hta ▸ ht)]
      · exact mapFind_mapTouch_ne 0 hp hta

theorem removalCandidate_setHP (env : Env) (s : State) (hp : TileMap ℚ) (t : TilePtr)
    (h : mapAt 0 hp t = mapAt 0 s.self.mTileHP t) :
    removalCandidate env (s.setSelf { s.self with mTileHP := hp }) t = removalCandidate env s t := by
  unfold removalCandidate
  simp only [State.setSelf, h]
  rfl

theorem scanTiles_foldl (env : Env) (l : List TilePtr) (acc : List TilePtr) (s : State) :
    l.foldl (Trap.scanStep env) (acc, s)
      = (acc ++ l.filter (removalCandidate env s),
          s.setSelf { s.self with
            mTileHP := scanHP (Trap.claimedByEnemy env s) l s.self.mTileHP }) := by
  induction l generalizing acc s with
  | nil => simp [scanHP, State.setSelf]
  | cons a l ih =>
    rw [List.foldl_cons]
    by_cases he : Trap.claimedByEnemy env s a = true
    · have hstep : Trap.scanStep env (acc, s) a = (acc ++ [a], s) := by
        simp [Trap.scanStep, he]
      have hc : removalCandidate env s a = true := by simp [removalCandidate, he]
      rw [hstep, ih]
      simp [List.filter_cons, hc, scanHP, he]
    · have he' : Trap.claimedByEnemy env s a = false := by simpa using he
      by_cases hhp : mapAt 0 s.self.mTileHP a ≤ 0
      · have hstep : Trap.scanStep env (acc, s) a
            = (acc ++ [a], s.setSelf { s.self with mTileHP := mapTouch 0 s.self.mTileHP a }) := by
          simp [Trap.scanStep, he', hhp]
        have hc : removalCandidate env s a = true := by simp [removalCandidate, hhp]
        rw [hstep, ih]
        have hrc : removalCandidate env
            (s.setSelf { s.self with mTileHP := mapTouch 0 s.self.mTileHP a })
            = removalCandidate env s := by
          funext t
          exact removalCandidate_setHP env s _ t (mapAt_mapTouch 0 _ a t)
        rw [hrc]
        simp only [List.filter_cons, hc, scanHP, List.foldl_cons, he', State.setSelf,
          List.append_assoc, List.singleton_append, if_true, if_false, Bool.false_eq_true]
        rfl
      · have hstep : Trap.scanStep env (acc, s) a
            = (acc, s.setSelf { s.self with mTileHP := mapTouch 0 s.self.mTileHP a }) := by
          simp [Trap.scanStep, he', hhp]
        have hc : removalCandidate env s a = false := by simp [removalCandidate, hhp, he']
        rw [hstep, ih]
        have hrc : removalCandidate env
            (s.setSelf { s.self with mTileHP := mapTouch 0 s.self.mTileHP a })
            = removalCandidate env s := by
          funext t
          exact removalCandidate_setHP env s _ t (mapAt_mapTouch 0 _ a t)
        rw [hrc]
        simp only [List.filter_cons, hc, scanHP, List.foldl_cons, he', State.setSelf,
          List.append_assoc, List.singleton_append, if_true, if_false, Bool.false_eq_true]
        rfl

theorem removeCoveredTile_of_mem (env : Env) (s : State) (t : TilePtr)
    (h : t ∈ s.self.mCoveredTiles) :
    (Trap.removeCoveredTile env s t).2 =
      { self := { s.self with
          mCoveredTiles := s.self.mCoveredTiles.erase t
          mTileHP := mapErase s.self.mTileHP t
          mTrapTiles := mapErase s.self.mTrapTiles t }
        tiles := Function.update s.tiles t { s.tiles t with mCoveringTrap := nullptr }
        trace := s.trace ++
          (if env.gameMap.isServerGameMap then []
           else [Event.queueRenderRequest (RenderRequest.destroyBuilding s.self.addr t)]) } := by
  unfold Trap.removeCoveredTile Building.removeCoveredTile
  rw [if_pos h]
  cases hs : env.gameMap.isServerGameMap <;>
    simp [Trap.setCoveringTrap, State.setSelf, State.emit]

theorem removalStep_of_mem (env : Env) (s : State) (t : TilePtr)
    (h : t ∈ s.self.mCoveredTiles) :
    Trap.removalStep env s t =
      { self := { s.self with
          mCoveredTiles := s.self.mCoveredTiles.erase t
          mTileHP := mapErase s.self.mTileHP t
          mTrapTiles := mapErase s.self.mTrapTiles t }
        tiles := Function.update s.tiles t { s.tiles t with mCoveringTrap := nullptr }
        trace := s.trace ++ removalEventsOf env s t } := by
  unfold Trap.removalStep
  rw [removeCoveredTile_of_mem env _ t (by simpa [State.emit] using h)]
  simp [State.emit, removalEventsOf]

theorem removalEventsOf_congr (env : Env) (s1 s : State) (t : TilePtr)
    (hn : s1.self.mName = s.self.mName) (hs : s1.self.mSeat = s.self.mSeat)
    (ha : s1.self.addr = s.self.addr)
    (hx : (s1.tiles t).x = (s.tiles t).x) (hy : (s1.tiles t).y = (s.tiles t).y) :
    removalEventsOf env s1 t = removalEventsOf env s t := by
  simp [removalEventsOf, Trap.removeTrapTileNotification, hn, hs, ha, hx, hy]

theorem removalLoop_eq (env : Env) (p : TilePtr → Bool) (l : List TilePtr) :
    ∀ (pre : List TilePtr) (s : State), s.self.mCoveredTiles = pre ++ l →
      (∀ x ∈ pre, p x = false) →
      (l.filter p).foldl (Trap.removalStep env) s =
        { self := { s.self with
            mCoveredTiles := pre ++ l.filter (fun t => !p t)
            mTileHP := eraseAll (l.filter p) s.self.mTileHP
            mTrapTiles := eraseAll (l.filter p) s.self.mTrapTiles }
          tiles := clearCovering (l.filter p) s.tiles
          trace := s.trace ++ removalEvents env s (l.filter p) } := by
  induction l with
  | nil =>
    intro pre s hcov _
    simp [eraseAll, clearCovering, removalEvents, ← hcov]
  | cons a l ih =>
    intro pre s hcov hpre
    by_cases hpa : p a = true
    · have hmem : a ∈ s.self.mCoveredTiles := by rw [hcov]; simp
      have hnot : a ∉ pre := by
        intro hin
        have := hpre a hin
        rw [hpa] at this
        cases this
      have herase : s.self.mCoveredTiles.erase a = pre ++ l := by
        rw [hcov, List.erase_append_right _ hnot, List.erase_cons_head]
      rw [List.filter_cons_of_pos hpa, List.foldl_cons, removalStep_of_mem env s a hmem, herase]
      rw [ih pre _ rfl hpre]
      have hev : removalEvents env
          { self := { s.self with
              mCoveredTiles := pre ++ l
              mTileHP := mapErase s.self.mTileHP a
              mTrapTiles := mapErase s.self.mTrapTiles a }
            tiles := Function.update s.tiles a { s.tiles a with mCoveringTrap := nullptr }
            trace := s.trace ++ removalEventsOf env s a } (l.filter p)
          = removalEvents env s (l.filter p) := by
        unfold removalEvents
        congr 1
        apply List.map_congr_left
        intro t _
        apply removalEventsOf_congr <;> try rfl
        · by_cases h : t = a
          · subst h; simp
          · simp [Function.update_noteq h]
        · by_cases h : t = a
          · subst h; simp
          · simp [Function.update_noteq h]
      rw [hev]
      simp [eraseAll, clearCovering, removalEvents, List.filter_cons, hpa]
    · have hpa' : p a = false := by simpa using hpa
      rw [List.filter_cons_of_neg hpa]
      have h1 := ih (pre ++ [a]) s (by rw [hcov]; simp) (by
        intro x hx
        rcases List.mem_append.1 hx with h | h
        · exact hpre x h
        · rw [List.mem_singleton.1 h]; exact hpa')
      rw [h1]
      simp [List.filter_cons, hpa']

theorem objectsRel_refl (s : State) : ObjectsRel s s :=
  ⟨s.self.mBuildingObjects, [], by simp, by simp⟩

theorem objectsRel_trans {s s1 s2 : State}
    (h1 : ObjectsRel s s1) (h2 : ObjectsRel s1 s2) : ObjectsRel s s2 := by
  obtain ⟨m1, e1, rfl, hp1⟩ := h1
  obtain ⟨m2, e2, rfl, hp2⟩ := h2
  refine ⟨m2, e1 ++ e2, by simp, ?_⟩
  intro e he
  rcases List.mem_append.1 he with h | h
  · exact hp1 e h
  · exact hp2 e h

theorem objectsRel_emit (s : State) (e : Event) (h : isRebuildEvent e = true) :
    ObjectsRel s (s.emit e) :=
  ⟨s.self.mBuildingObjects, [e], by simp [State.emit], by simpa using h⟩

theorem objectsRel_foldl (f : State → TilePtr → State)
    (hf : ∀ s t, ObjectsRel s (f s t)) (l : List TilePtr) (s : State) :
    ObjectsRel s (l.foldl f s) := by
  induction l generalizing s with
  | nil => exact objectsRel_refl s
  | cons a l ih => exact objectsRel_trans (hf s a) (ih (f s a))

theorem activeSpotCreateStep_rel (env : Env) (s : State) (t : TilePtr) :
    ObjectsRel s (Trap.activeSpotCreateStep env s t) := by
  unfold Trap.activeSpotCreateStep
  by_cases h : env.notifyActiveSpotCreated s t = nullptr
  · simp only [h, if_true]
    exact objectsRel_emit s _ rfl
  · simp only [h, if_false]
    refine objectsRel_trans (objectsRel_emit s (Event.notifyActiveSpotCreated t) rfl) ?_
    unfold Building.addBuildingObject
    rw [if_neg h]
    exact ⟨mapSet s.self.mBuildingObjects t (env.notifyActiveSpotCreated s t),
      [Event.addRenderedMovableEntity (env.notifyActiveSpotCreated s t)],
      by simp [State.emit, State.setSelf], by simp [isRebuildEvent]⟩

theorem activeSpotRemoveStep_rel (s : State) (t : TilePtr) :
    ObjectsRel s (Trap.activeSpotRemoveStep s t) := by
  unfold Trap.activeSpotRemoveStep
  split
  · unfold Trap.notifyActiveSpotRemoved Building.removeBuildingObject
    split
    · exact objectsRel_refl s
    · rename_i obj _
      exact ⟨mapErase s.self.mBuildingObjects t, [Event.removeRenderedMovableEntity obj],
        by simp [State.emit, State.setSelf], by simp [isRebuildEvent]⟩
  · exact objectsRel_refl s

theorem updateActiveSpots_rel (env : Env) (s : State) :
    ObjectsRel s (Trap.updateActiveSpots env s) := by
  unfold Trap.updateActiveSpots
  refine objectsRel_trans (objectsRel_emit s Event.updateActiveSpots rfl) ?_
  simp only []
  split
  · exact objectsRel_refl _
  · split
    · exact objectsRel_foldl _ (activeSpotCreateStep_rel env) _ _
    · split
      · refine objectsRel_trans ?_ (objectsRel_foldl _ activeSpotRemoveStep_rel _ _)
        split
        · exact objectsRel_emit _ _ rfl
        · exact objectsRel_refl _
      · exact objectsRel_refl _

theorem trapTilesRel_refl (ts : List TilePtr) (s : State) : TrapTilesRel ts s s :=
  ⟨s.self.mTrapTiles, [], by simp, fun _ h => Or.inr h, fun _ h => h, fun _ _ => rfl, by simp⟩

theorem trapTilesRel_trans {ts1 ts2 : List TilePtr} {s s1 s2 : State}
    (h1 : TrapTilesRel ts1 s s1) (h2 : TrapTilesRel ts2 s1 s2) :
    TrapTilesRel (ts1 ++ ts2) s s2 := by
  obtain ⟨m1, e1, rfl, hb1, hc1, hd1, he1⟩ := h1
  obtain ⟨m2, e2, rfl, hb2, hc2, hd2, he2⟩ := h2
  refine ⟨m2, e1 ++ e2, by simp, ?_, ?_, ?_, ?_⟩
  · intro t ht
    rcases hb2 t ht with h | h
    · exact Or.inl (List.mem_append.2 (Or.inr h))
    · rcases hb1 t h with h' | h'
      · exact Or.inl (List.mem_append.2 (Or.inl h'))
      · exact Or.inr h'
  · intro t ht
    exact hc2 t (hc1 t ht)
  · intro t ht
    have hn1 : t ∉ ts1 := fun h => ht (List.mem_append.2 (Or.inl h))
    have hn2 : t ∉ ts2 := fun h => ht (List.mem_append.2 (Or.inr h))
    rw [hd2 t hn2]
    exact hd1 t hn1
  · intro e he
    rcases List.mem_append.1 he with h | h
    · exact ⟨(he1 e h).1, fun t ht => List.mem_append.2 (Or.inl ((he1 e h).2 t ht))⟩
    · exact ⟨(he2 e h).1, fun t ht => List.mem_append.2 (Or.inr ((he2 e h).2 t ht))⟩

theorem trapTilesRel_mono {ts ts2 : List TilePtr} {s s2 : State} (hsub : ∀ t ∈ ts, t ∈ ts2)
    (h : TrapTilesRel ts s s2) : TrapTilesRel ts2 s s2 := by
  obtain ⟨m, e, rfl, hb, hc, hd, he⟩ := h
  refine ⟨m, e, rfl, ?_, hc, ?_, ?_⟩
  · intro t ht
    rcases hb t ht with h | h
    · exact Or.inl (hsub t h)
    · exact Or.inr h
  · intro t ht
    exact hd t (fun h => ht (hsub t h))
  · intro x hx
    exact ⟨(he x hx).1, fun t ht => hsub t ((he x hx).2 t ht)⟩

theorem trapTilesRel_seq {ts : List TilePtr} {s s1 s2 : State}
    (h1 : TrapTilesRel ts s s1) (h2 : TrapTilesRel ts s1 s2) : TrapTilesRel ts s s2 :=
  trapTilesRel_mono (fun t ht => by simpa using ht) (trapTilesRel_trans h1 h2)

theorem trapTilesRel_set (s : State) (tile : TilePtr) (v : TrapTileInfo) :
    TrapTilesRel [tile] s
      (s.setSelf { s.self with mTrapTiles := mapSet s.self.mTrapTiles tile v }) := by
  refine ⟨mapSet s.self.mTrapTiles tile v, [], by simp [State.setSelf], ?_, ?_, ?_, by simp⟩
  · intro t ht
    rcases (mem_mapSet _ _ _ _).1 ht with h | h
    · exact Or.inl (by simp [h])
    · exact Or.inr h
  · intro t ht
    exact (mem_mapSet _ _ _ _).2 (Or.inr ht)
  · intro t ht
    exact mapFind_mapSet_ne _ _ (by simpa using ht)

theorem trapTilesRel_touch (s : State) (tile : TilePtr) (d : TrapTileInfo) :
    TrapTilesRel [tile] s
      (s.setSelf { s.self with mTrapTiles := mapTouch d s.self.mTrapTiles tile }) := by
  refine ⟨mapTouch d s.self.mTrapTiles tile, [], by simp [State.setSelf], ?_, ?_, ?_, by simp⟩
  · intro t ht
    rcases (mem_mapTouch _ _ _ _).1 ht with h | h
    · exact Or.inl (by simp [h])
    · exact Or.inr h
  · intro t ht
    exact (mem_mapTouch _ _ _ _).2 (Or.inr ht)
  · intro t ht
    exact mapFind_mapTouch_ne _ _ (by simpa using ht)

theorem trapTilesRel_activate (env : Env) (s : State) (tile : TilePtr) :
    TrapTilesRel [tile] s (Trap.activate env s tile) := by
  unfold Trap.activate
  split
  · exact trapTilesRel_refl _ s
  · exact trapTilesRel_set s tile _

theorem trapTilesRel_deactivate (env : Env) (s : State) (tile : TilePtr) :
    TrapTilesRel [tile] s (Trap.deactivate env s tile) := by
  unfold Trap.deactivate
  split
  · exact trapTilesRel_refl _ s
  · exact trapTilesRel_set s tile _

theorem trapTilesRel_emit (s : State) (tile : TilePtr) (e : Event)
    (h : e = Event.shoot tile ∨ ∃ p, e = Event.playerIsFighting p) :
    TrapTilesRel [tile] s (s.emit e) := by
  refine ⟨s.self.mTrapTiles, [e], by simp [State.emit], fun _ h => Or.inr h, fun _ h => h, fun _ _ => rfl, ?_⟩
  intro x hx
  rw [List.mem_singleton.1 hx]
  rcases h with h | ⟨p, h⟩
  · rw [h]
    exact ⟨rfl, fun t ht => by simpa using ht.symm⟩
  · rw [h]
    exact ⟨rfl, fun t ht => by cases ht⟩

theorem trapTilesRel_ite_deactivate (env : Env) (s : State) (tile : TilePtr) (b : Bool) :
    TrapTilesRel [tile] s (if b = true then Trap.deactivate env s tile else s) := by
  split
  · exact trapTilesRel_deactivate env s tile
  · exact trapTilesRel_refl _ s

theorem shootStep_rel (env : Env) (s : State) (tile : TilePtr) :
    TrapTilesRel [tile] s (Trap.shootStep env s tile) := by
  unfold Trap.shootStep
  simp only []
  have hA := trapTilesRel_emit s tile (Event.shoot tile) (Or.inl rfl)
  have hB := trapTilesRel_ite_deactivate env (s.emit (Event.shoot tile)) tile
    (env.shoot s tile).deactivates
  by_cases ht : (env.shoot s tile).triggered = true
  · simp only [ht, if_true]
    by_cases hs : env.gameMap.isServerGameMap = true
    · simp only [hs, if_true]
      exact trapTilesRel_seq hA (trapTilesRel_seq hB
        (trapTilesRel_seq (trapTilesRel_set _ tile _)
          (trapTilesRel_emit _ tile _ (Or.inr ⟨_, rfl⟩))))
    · simp only [hs, if_false]
      exact trapTilesRel_seq hA (trapTilesRel_seq hB (trapTilesRel_set _ tile _))
  · simp only [ht, if_false]
    exact trapTilesRel_seq hA hB

theorem fireStep_rel (env : Env) (s : State) (tile : TilePtr) :
    TrapTilesRel [tile] s (Trap.fireStep env s tile) := by
  unfold Trap.fireStep
  refine trapTilesRel_seq (trapTilesRel_touch s tile env.trapTileInfoDefault) ?_
  simp only []
  split
  · exact trapTilesRel_set _ tile _
  · refine trapTilesRel_seq ?_ (shootStep_rel env _ tile)
    split
    · exact trapTilesRel_activate env _ tile
    · exact trapTilesRel_refl _ _

theorem fireLoop_rel (env : Env) (l : List TilePtr) (s : State) :
    TrapTilesRel l s (l.foldl (Trap.fireStep env) s) := by
  induction l generalizing s with
  | nil => exact trapTilesRel_refl _ s
  | cons a l ih =>
    rw [List.foldl_cons]
    exact trapTilesRel_trans (fireStep_rel env s a) (ih _)

theorem fireStep_mem (env : Env) (s : State) (tile : TilePtr) :
    tile ∈ (Trap.fireStep env s tile).self.mTrapTiles := by
  have hrest : TrapTilesRel [tile]
      (s.setSelf { s.self with
        mTrapTiles := mapTouch env.trapTileInfoDefault s.self.mTrapTiles tile })
      (Trap.fireStep env s tile) := by
    unfold Trap.fireStep
    simp only []
    split
    · exact trapTilesRel_set _ tile _
    · refine trapTilesRel_seq ?_ (shootStep_rel env _ tile)
      split
      · exact trapTilesRel_activate env _ tile
      · exact trapTilesRel_refl _ _
  obtain ⟨m, evs, heq, _, hc, _, _⟩ := hrest
  rw [heq]
  exact hc tile ((mem_mapTouch _ _ _ _).2 (Or.inl rfl))

theorem trapTilesRel_covered {ts : List TilePtr} {s s2 : State} (h : TrapTilesRel ts s s2) :
    s2.self.mCoveredTiles = s.self.mCoveredTiles := by
  obtain ⟨m, evs, rfl, _⟩ := h
  rfl

theorem trapTilesRel_mem_of_mem {ts : List TilePtr} {s s2 : State} (h : TrapTilesRel ts s s2)
    {t : TilePtr} (ht : t ∈ s.self.mTrapTiles) : t ∈ s2.self.mTrapTiles := by
  obtain ⟨m, evs, rfl, _, hc, _⟩ := h
  exact hc t ht

theorem trapTilesRel_mem_cases {ts : List TilePtr} {s s2 : State} (h : TrapTilesRel ts s s2)
    {t : TilePtr} (ht : t ∈ s2.self.mTrapTiles) : t ∈ ts ∨ t ∈ s.self.mTrapTiles := by
  obtain ⟨m, evs, rfl, hb, _⟩ := h
  exact hb t ht

theorem fireLoop_mem (env : Env) (l : List TilePtr) (s : State) {t : TilePtr} (ht : t ∈ l) :
    t ∈ (l.foldl (Trap.fireStep env) s).self.mTrapTiles := by
  induction l generalizing s with
  | nil => cases ht
  | cons a l ih =>
    rw [List.foldl_cons]
    rcases List.mem_cons.1 ht with h | h
    · rw [h]
      exact trapTilesRel_mem_of_mem (fireLoop_rel env l _) (fireStep_mem env s a)
    · exact ih _ h

theorem mem_eraseAll {V : Type} (L : List TilePtr) (m : TileMap V) (t : TilePtr) :
    t ∈ eraseAll L m ↔ t ∉ L ∧ t ∈ m := by
  induction L generalizing m with
  | nil => simp [eraseAll]
  | cons a L ih =>
    unfold eraseAll
    rw [List.foldl_cons]
    have := ih (mapErase m a)
    unfold eraseAll at this
    rw [this, mem_mapErase]
    simp only [List.mem_cons, not_or]
    tauto

theorem mapFind_eraseAll_of_not_mem {V : Type} (L : List TilePtr) (m : TileMap V) {t : TilePtr}
    (ht : t ∉ L) : mapFind (eraseAll L m) t = mapFind m t := by
  induction L generalizing m with
  | nil => rfl
  | cons a L ih =>
    unfold eraseAll
    rw [List.foldl_cons]
    have hta : t ≠ a := fun h => ht (by simp [h])
    have htL : t ∉ L := fun h => ht (by simp [h])
    have := ih (mapErase m a) htL
    unfold eraseAll at this
    rw [this, mapFind_mapErase_ne m hta]

theorem mapFind_eraseAll_of_mem {V : Type} (L : List TilePtr) (m : TileMap V) {t : TilePtr}
    (ht : t ∈ L) : mapFind (eraseAll L m) t = none := by
  rw [mapFind_eq_none, mem_eraseAll]
  exact fun h => h.1 ht

theorem clearCovering_x (L : List TilePtr) (tiles : TilePtr → Tile) (t : TilePtr) :
    (clearCovering L tiles t).x = (tiles t).x ∧ (clearCovering L tiles t).y = (tiles t).y ∧
    (clearCovering L tiles t).mClaimedPercentage = (tiles t).mClaimedPercentage ∧
    (clearCovering L tiles t).mSeat = (tiles t).mSeat := by
  induction L generalizing tiles with
  | nil => simp [clearCovering]
  | cons a L ih =>
    unfold clearCovering
    rw [List.foldl_cons]
    have := ih (Function.update tiles a { tiles a with mCoveringTrap := nullptr })
    unfold clearCovering at this
    rw [this.1, this.2.1, this.2.2.1, this.2.2.2]
    by_cases h : t = a
    · subst h; simp
    · simp [Function.update_noteq h]

theorem filter_not_of_filter_eq_nil (p : TilePtr → Bool) (l : List TilePtr)
    (h : l.filter p = []) : l.filter (fun t => !p t) = l := by
  rw [List.filter_eq_self]
  intro a ha
  rw [List.filter_eq_nil_iff] at h
  simpa using h a ha

theorem removalEvents_congr (env : Env) (s1 s : State) (L : List TilePtr)
    (hn : s1.self.mName = s.self.mName) (hs : s1.self.mSeat = s.self.mSeat)
    (ha : s1.self.addr = s.self.addr)
    (hx : ∀ t, (s1.tiles t).x = (s.tiles t).x) (hy : ∀ t, (s1.tiles t).y = (s.tiles t).y) :
    removalEvents env s1 L = removalEvents env s L := by
  unfold removalEvents
  congr 1
  apply List.map_congr_left
  intro t _
  exact removalEventsOf_congr env s1 s t hn hs ha (hx t) (hy t)

theorem rebuild_rel (env : Env) (s : State) :
    ObjectsRel s ((Trap.updateActiveSpots env s).emit Event.createMesh) :=
  objectsRel_trans (updateActiveSpots_rel env s)
    (objectsRel_emit (Trap.updateActiveSpots env s) Event.createMesh rfl)

/-- The state of `doUpkeep` at the extinction check, in closed form. -/
theorem afterRemoval_eq (env : Env) (s : State) :
    ∃ objs evs,
      afterRemoval env s =
        { self := { s.self with
            mCoveredTiles := s.self.mCoveredTiles.filter (fun t => !removalCandidate env s t)
            mTileHP := eraseAll (s.self.mCoveredTiles.filter (removalCandidate env s))
              (scanHP (Trap.claimedByEnemy env s) s.self.mCoveredTiles s.self.mTileHP)
            mTrapTiles := eraseAll (s.self.mCoveredTiles.filter (removalCandidate env s))
              s.self.mTrapTiles
            mBuildingObjects := objs }
          tiles := clearCovering (s.self.mCoveredTiles.filter (removalCandidate env s)) s.tiles
          trace := s.trace ++
            removalEvents env s (s.self.mCoveredTiles.filter (removalCandidate env s)) ++ evs } ∧
      ∀ e ∈ evs, isRebuildEvent e = true := by
  unfold afterRemoval Trap.scanTiles
  rw [scanTiles_foldl]
  simp only [List.nil_append]
  unfold Trap.removalPass
  by_cases hnil : (s.self.mCoveredTiles.filter (removalCandidate env s)) = []
  · refine ⟨s.self.mBuildingObjects, [], ?_, by simp⟩
    rw [hnil, filter_not_of_filter_eq_nil _ _ hnil]
    simp [eraseAll, clearCovering, removalEvents, State.setSelf]
  · have hne : (s.self.mCoveredTiles.filter (removalCandidate env s)).isEmpty = false := by
      cases h : s.self.mCoveredTiles.filter (removalCandidate env s) with
      | nil => exact absurd h hnil
      | cons a l => rfl
    rw [hne]
    simp only [Bool.false_eq_true, if_false]
    have hloop := removalLoop_eq env (removalCandidate env s) s.self.mCoveredTiles []
      (s.setSelf { s.self with
        mTileHP := scanHP (Trap.claimedByEnemy env s) s.self.mCoveredTiles s.self.mTileHP })
      (by simp [State.setSelf]) (by simp)
    obtain ⟨m, evs, heq, hev⟩ := rebuild_rel env
      (List.foldl (Trap.removalStep env)
        (s.setSelf { s.self with
          mTileHP := scanHP (Trap.claimedByEnemy env s) s.self.mCoveredTiles s.self.mTileHP })
        (s.self.mCoveredTiles.filter (removalCandidate env s)))
    refine ⟨m, evs, ?_, hev⟩
    rw [heq, hloop]
    have hcongr := removalEvents_congr env
      (s.setSelf { s.self with
        mTileHP := scanHP (Trap.claimedByEnemy env s) s.self.mCoveredTiles s.self.mTileHP })
      s (s.self.mCoveredTiles.filter (removalCandidate env s)) rfl rfl rfl
      (fun _ => rfl) (fun _ => rfl)
    rw [hcongr]
    simp [State.setSelf]

theorem doUpkeep_unfold (env : Env) (s : State) :
    Trap.doUpkeep env s =
      if Building.numCoveredTiles (afterRemoval env s) ≤ 0 then
        (((afterRemoval env s).emit
          (Event.logMessage ("Removing trap " ++ (afterRemoval env s).self.mName))).emit
          (Event.removeTrap (afterRemoval env s).self.addr)).emit
          (Event.deleteYourself (afterRemoval env s).self.addr)
      else
        (afterRemoval env s).self.mCoveredTiles.foldl (Trap.fireStep env) (afterRemoval env s) :=
  rfl

theorem newEvents_append (before evs : List Event) : newEvents before (before ++ evs) = evs := by
  simp [newEvents]

theorem removalEvents_kind (env : Env) (s : State) (L : List TilePtr) :
    ∀ e ∈ removalEvents env s L,
      (∃ n, e = Event.queueServerNotification n) ∨ (∃ r, e = Event.queueRenderRequest r) := by
  intro e he
  unfold removalEvents at he
  rw [List.mem_flatten] at he
  obtain ⟨l, hl, hel⟩ := he
  rw [List.mem_map] at hl
  obtain ⟨t, _, rfl⟩ := hl
  unfold removalEventsOf at hel
  rcases List.mem_cons.1 hel with h | h
  · exact Or.inl ⟨_, h⟩
  · split at h
    · cases h
    · exact Or.inr ⟨_, List.mem_singleton.1 h⟩

theorem removalEvents_not_fire (env : Env) (s : State) (L : List TilePtr) :
    ∀ e ∈ removalEvents env s L, isFireEvent e = false ∧ isExtinctionEvent e = false := by
  intro e he
  rcases removalEvents_kind env s L e he with ⟨n, rfl⟩ | ⟨r, rfl⟩ <;> exact ⟨rfl, rfl⟩

theorem rebuild_not_fire (e : Event) (h : isRebuildEvent e = true) :
    isFireEvent e = false ∧ isExtinctionEvent e = false ∧
      ∀ n, e ≠ Event.queueServerNotification n := by
  cases e <;> simp_all [isRebuildEvent, isFireEvent, isExtinctionEvent]

theorem fire_not_notification (e : Event) (h : isFireEvent e = true) :
    isExtinctionEvent e = false ∧ ∀ n, e ≠ Event.queueServerNotification n := by
  cases e <;> simp_all [isFireEvent, isExtinctionEvent]

theorem serverNotifications_append (a b : List Event) :
    serverNotifications (a ++ b) = serverNotifications a ++ serverNotifications b := by
  simp [serverNotifications, List.filterMap_append]

theorem serverNotifications_eq_nil (evs : List Event)
    (h : ∀ e ∈ evs, ∀ n, e ≠ Event.queueServerNotification n) : serverNotifications evs = [] := by
  unfold serverNotifications
  rw [List.filterMap_eq_nil_iff]
  intro e he
  cases e with
  | queueServerNotification n => exact absurd rfl (h _ he n)
  | _ => rfl

theorem serverNotifications_removalEvents (env : Env) (s : State) (L : List TilePtr) :
    serverNotifications (removalEvents env s L) = L.map (Trap.removeTrapTileNotification env s) := by
  induction L with
  | nil => rfl
  | cons a L ih =>
    have : removalEvents env s (a :: L) = removalEventsOf env s a ++ removalEvents env s L := by
      simp [removalEvents]
    rw [this, serverNotifications_append, ih]
    cases hs : env.gameMap.isServerGameMap <;>
      simp [removalEventsOf, hs, serverNotifications]

theorem not_mem_shootCalls (evs : List Event) (t : TilePtr)
    (h : ∀ e ∈ evs, e ≠ Event.shoot t) : t ∉ shootCalls evs := by
  unfold shootCalls
  rw [List.mem_filterMap]
  rintro ⟨e, he, hf⟩
  cases e with
  | shoot tile =>
    simp only [Option.some.injEq] at hf
    exact h _ he (by rw [hf])
  | _ => cases hf


theorem split_once (l : List TilePtr) (t : TilePtr) (hone : l.count t = 1) :
    ∃ l1 l2, l = l1 ++ t :: l2 ∧ t ∉ l1 ∧ t ∉ l2 := by
  have ht : t ∈ l := List.count_pos_iff.1 (by omega)
  obtain ⟨l1, l2, rfl⟩ := List.append_of_mem ht
  rw [List.count_append, List.count_cons_self] at hone
  exact ⟨l1, l2, rfl, List.count_eq_zero.1 (by omega), List.count_eq_zero.1 (by omega)⟩

theorem count_filter_not (p : TilePtr → Bool) (l : List TilePtr) (t : TilePtr)
    (h : p t = false) : (l.filter (fun x => !p x)).count t = l.count t :=
  @List.count_filter TilePtr _ _ (fun x => !p x) t l (by simp [h])

theorem filter_eq_singleton (p : TilePtr → Bool) (l : List TilePtr) (T : TilePtr)
    (hone : l.count T = 1) (hp : p T = true) (ho : ∀ t ∈ l, t ≠ T → p t = false) :
    l.filter p = [T] ∧ l.filter (fun t => !p t) = l.erase T := by
  obtain ⟨l1, l2, rfl, h1, h2⟩ := split_once l T hone
  have hf1 : ∀ t ∈ l1, p t = false := fun t ht =>
    ho t (List.mem_append.2 (Or.inl ht)) (fun h => h1 (h ▸ ht))
  have hf2 : ∀ t ∈ l2, p t = false := fun t ht =>
    ho t (List.mem_append.2 (Or.inr (List.mem_cons.2 (Or.inr ht)))) (fun h => h2 (h ▸ ht))
  have a1 : l1.filter p = [] := by
    rw [List.filter_eq_nil_iff]
    intro t ht
    simp [hf1 t ht]
  have a2 : l2.filter p = [] := by
    rw [List.filter_eq_nil_iff]
    intro t ht
    simp [hf2 t ht]
  have b1 : l1.filter (fun t => !p t) = l1 := by
    rw [List.filter_eq_self]
    intro t ht
    simp [hf1 t ht]
  have b2 : l2.filter (fun t => !p t) = l2 := by
    rw [List.filter_eq_self]
    intro t ht
    simp [hf2 t ht]
  constructor
  · rw [List.filter_append, List.filter_cons, a1, a2]
    simp [hp]
  · rw [List.filter_append, List.filter_cons, b1, b2, List.erase_append_right _ h1]
    simp [hp]

theorem mem_of_mapAt_pos (m : TileMap ℚ) (t : TilePtr) (h : 0 < mapAt 0 m t) : t ∈ m := by
  by_contra hn
  rw [mapAt_eq, (mapFind_eq_none m t).2 hn] at h
  exact lt_irrefl _ h

theorem fireStep_reloading (env : Env) (s : State) (tile : TilePtr) (info : TrapTileInfo)
    (hentry : mapFind s.self.mTrapTiles tile = some info) (hr : 0 < info.mReloadTime) :
    Trap.fireStep env s tile =
      s.setSelf { s.self with
        mTrapTiles := mapSet s.self.mTrapTiles tile
          { mReloadTime := info.mReloadTime - 1, mIsActivated := info.mIsActivated } } := by
  have hmem : tile ∈ s.self.mTrapTiles := mem_of_mapFind_eq_some hentry
  have htouch : mapTouch env.trapTileInfoDefault s.self.mTrapTiles tile = s.self.mTrapTiles := by
    unfold mapTouch
    rw [if_pos hmem]
  have hat : mapAt env.trapTileInfoDefault s.self.mTrapTiles tile = info := by
    rw [mapAt_eq, hentry]; rfl
  unfold Trap.fireStep
  simp only [State.setSelf, htouch, hat, TrapTileInfo.getReloadTime, hr, if_true,
    TrapTileInfo.decreaseReloadTime]

theorem fireLoop_reloading (env : Env) (l : List TilePtr) (s : State) (t : TilePtr)
    (info : TrapTileInfo) (hone : l.count t = 1)
    (hentry : mapFind s.self.mTrapTiles t = some info) (hr : 0 < info.mReloadTime) :
    ∃ m evs, l.foldl (Trap.fireStep env) s =
        { self := { s.self with mTrapTiles := m }, tiles := s.tiles, trace := s.trace ++ evs } ∧
      mapFind m t = some { mReloadTime := info.mReloadTime - 1,
                           mIsActivated := info.mIsActivated } ∧
      ∀ e ∈ evs, isFireEvent e = true ∧ e ≠ Event.shoot t := by
  obtain ⟨l1, l2, rfl, hnd1, hnd2⟩ := split_once l t hone
  rw [List.foldl_append, List.foldl_cons]
  obtain ⟨m1, e1, h1, _, _, hd1, he1⟩ := fireLoop_rel env l1 s
  rw [h1]
  have hentry1 : mapFind m1 t = some info := by rw [hd1 t hnd1]; exact hentry
  rw [fireStep_reloading env _ t info hentry1 hr]
  obtain ⟨m2, e2, h2, _, _, hd2, he2⟩ := fireLoop_rel env l2
    (State.setSelf { self := { s.self with mTrapTiles := m1 }, tiles := s.tiles,
                     trace := s.trace ++ e1 }
      { ({ self := { s.self with mTrapTiles := m1 }, tiles := s.tiles,
           trace := s.trace ++ e1 } : State).self with
        mTrapTiles := mapSet m1 t
          { mReloadTime := info.mReloadTime - 1, mIsActivated := info.mIsActivated } })
  rw [h2]
  refine ⟨m2, e1 ++ e2, by simp [State.setSelf], ?_, ?_⟩
  · rw [hd2 t hnd2]
    exact mapFind_mapSet_same _ _ _
  · intro e he
    rcases List.mem_append.1 he with h | h
    · exact ⟨(he1 e h).1, fun heq => hnd1 ((he1 e h).2 t heq)⟩
    · exact ⟨(he2 e h).1, fun heq => hnd2 ((he2 e h).2 t heq)⟩

/-! ## The upkeep cycle: claims C1, C6, C7 and C8 -/

namespace Trap

/-- C1 (counterexample): the demo cannon covers the tiles at `23` and `24`; `activate` on
the uncovered tile at `99` gives it a third key.  After `doUpkeep` the covered tiles are
still `23` and `24`, and `99` is still a key of `mTrapTiles`: the key set is not the set of
covered tiles. -/
theorem doUpkeep_keys_counterexample :
    ¬ (∀ t, t ∈ (doUpkeep demoEnv (activate demoEnv demoTrap 99)).self.mTrapTiles ↔
        t ∈ (doUpkeep demoEnv (activate demoEnv demoTrap 99)).self.mCoveredTiles) := by
  intro h
  have h1 : 99 ∈ (doUpkeep demoEnv (activate demoEnv demoTrap 99)).self.mTrapTiles := by decide
  have h2 : 99 ∉ (doUpkeep demoEnv (activate demoEnv demoTrap 99)).self.mCoveredTiles := by
    decide
  exact h2 ((h 99).1 h1)

/-- C1 (amended): if every key of `mTrapTiles` is a covered tile before `doUpkeep()`, then
after it the keys of `mTrapTiles` are exactly the covered tiles, whatever the covered-tile
list, the hit points and the results of the `shoot` hook are. -/
theorem doUpkeep_keys_eq_covered (env : Env) (s : State)
    (h : ∀ t, t ∈ s.self.mTrapTiles → t ∈ s.self.mCoveredTiles) :
    ∀ t, t ∈ (doUpkeep env s).self.mTrapTiles ↔ t ∈ (doUpkeep env s).self.mCoveredTiles := by
  obtain ⟨objs, evs, heq, _⟩ := afterRemoval_eq env s
  have hsub : ∀ t, t ∈ (afterRemoval env s).self.mTrapTiles →
      t ∈ (afterRemoval env s).self.mCoveredTiles := by
    intro t ht
    rw [heq] at ht ⊢
    simp only [mem_eraseAll, List.mem_filter] at ht ⊢
    have hc := h t ht.2
    refine ⟨hc, ?_⟩
    cases hrc : removalCandidate env s t with
    | false => rfl
    | true => exact absurd ⟨hc, hrc⟩ ht.1
  intro t
  rw [doUpkeep_unfold]
  by_cases hz : Building.numCoveredTiles (afterRemoval env s) ≤ 0
  · rw [if_pos hz]
    have hnil : (afterRemoval env s).self.mCoveredTiles = [] := by
      apply List.eq_nil_of_length_eq_zero
      exact Nat.le_zero.1 hz
    simp only [State.emit]
    constructor
    · exact hsub t
    · intro ht
      rw [hnil] at ht
      cases ht
  · rw [if_neg hz]
    have hrel := fireLoop_rel env (afterRemoval env s).self.mCoveredTiles (afterRemoval env s)
    rw [trapTilesRel_covered hrel]
    constructor
    · intro ht
      rcases trapTilesRel_mem_cases hrel ht with h1 | h1
      · exact h1
      · exact hsub t h1
    · intro ht
      exact fireLoop_mem env _ _ ht

/-- C1 (amended), evaluated on the demo cannon: its keys are covered tiles, and after
`doUpkeep` the tile at `24` is a key and a covered tile. -/
theorem doUpkeep_keys_eq_covered_witness :
    24 ∈ (doUpkeep demoEnv demoTrap).self.mTrapTiles ↔
      24 ∈ (doUpkeep demoEnv demoTrap).self.mCoveredTiles :=
  doUpkeep_keys_eq_covered demoEnv demoTrap (by decide) 24

/-- C6 as stated does not hold.  The cannon `demoTrapTwiceDead` covers the tiles `23`, `24`,
`23`; the tile at `23` is the one covered tile with hit points `0`, and the other covered
tile, at `24`, has positive hit points and is not claimed by an enemy.  The call of
`doUpkeep()` queues two `removeTrapTile` notifications for the tile at `23`, one for each
entry of the covered tiles. -/
theorem doUpkeep_removes_dead_tile_counterexample :
    demoTrapTwiceDead.self.mCoveredTiles = [23, 24, 23] ∧
    mapFind demoTrapTwiceDead.self.mTileHP 23 = some 0 ∧
    (∀ t ∈ demoTrapTwiceDead.self.mCoveredTiles, t ≠ 23 →
      0 < mapAt 0 demoTrapTwiceDead.self.mTileHP t ∧
        claimedByEnemy demoEnv demoTrapTwiceDead t = false) ∧
    serverNotifications
        (newEvents demoTrapTwiceDead.trace (doUpkeep demoEnv demoTrapTwiceDead).trace)
      = [removeTrapTileNotification demoEnv demoTrapTwiceDead 23,
         removeTrapTileNotification demoEnv demoTrapTwiceDead 23] := by
  decide

/-- C6, amended: let the covered tile `T` be listed once in the covered tiles and have tracked
hit points `0`, while every other covered tile has positive hit points and is not claimed by
an enemy.  Then `doUpkeep()` removes `T` and nothing else from the covered tiles, queues
exactly one notification, the `removeTrapTile` notification with the trap name and `T`, and
every other covered tile is still covered with the hit points it had. -/
theorem doUpkeep_removes_dead_tile (env : Env) (s : State) (T : TilePtr)
    (hone : s.self.mCoveredTiles.count T = 1)
    (hT0 : mapFind s.self.mTileHP T = some 0)
    (hother : ∀ t ∈ s.self.mCoveredTiles, t ≠ T →
      0 < mapAt 0 s.self.mTileHP t ∧ claimedByEnemy env s t = false) :
    (doUpkeep env s).self.mCoveredTiles = s.self.mCoveredTiles.erase T ∧
    serverNotifications (newEvents s.trace (doUpkeep env s).trace)
      = [removeTrapTileNotification env s T] ∧
    ∀ t ∈ s.self.mCoveredTiles, t ≠ T →
      t ∈ (doUpkeep env s).self.mCoveredTiles ∧
      mapFind (doUpkeep env s).self.mTileHP t = mapFind s.self.mTileHP t := by
  have hcT : removalCandidate env s T = true := by
    have : mapAt 0 s.self.mTileHP T = 0 := by rw [mapAt_eq, hT0]; rfl
    simp [removalCandidate, this]
  have hco : ∀ t ∈ s.self.mCoveredTiles, t ≠ T → removalCandidate env s t = false := by
    intro t ht hne
    have h := hother t ht hne
    simp [removalCandidate, h.2, h.1]
  obtain ⟨hL, hK⟩ := filter_eq_singleton (removalCandidate env s) _ T hone hcT hco
  obtain ⟨objs, evs, heq, hevs⟩ := afterRemoval_eq env s
  rw [hL, hK] at heq
  have hkeep : ∀ t ∈ s.self.mCoveredTiles, t ≠ T →
      t ∈ s.self.mCoveredTiles.erase T ∧
      mapFind (eraseAll [T]
        (scanHP (claimedByEnemy env s) s.self.mCoveredTiles s.self.mTileHP)) t
        = mapFind s.self.mTileHP t := by
    intro t ht hne
    refine ⟨(List.mem_erase_of_ne hne).2 ht, ?_⟩
    rw [mapFind_eraseAll_of_not_mem _ _ (by simpa using hne)]
    exact mapFind_scanHP_of_mem _ _ _ (mem_of_mapAt_pos _ _ (hother t ht hne).1)
  have hnotif : serverNotifications (removalEvents env s [T] ++ evs)
      = [removeTrapTileNotification env s T] := by
    rw [serverNotifications_append, serverNotifications_removalEvents,
      serverNotifications_eq_nil evs (fun e he => (rebuild_not_fire e (hevs e he)).2.2)]
    rfl
  rw [doUpkeep_unfold]
  by_cases hz : Building.numCoveredTiles (afterRemoval env s) ≤ 0
  · rw [if_pos hz, heq]
    simp only [State.emit, List.append_assoc, newEvents_append]
    refine ⟨trivial, ?_, hkeep⟩
    rw [← List.append_assoc, serverNotifications_append, hnotif]
    rfl
  · rw [if_neg hz]
    obtain ⟨m, fevs, hloop, _, _, _, hfe⟩ :=
      fireLoop_rel env (afterRemoval env s).self.mCoveredTiles (afterRemoval env s)
    rw [hloop, heq]
    simp only [List.append_assoc, newEvents_append]
    refine ⟨trivial, ?_, hkeep⟩
    rw [← List.append_assoc, serverNotifications_append, hnotif,
      serverNotifications_eq_nil fevs (fun e he => (fire_not_notification e (hfe e he).1).2)]
    rfl

/-- C6, amended, evaluated on the demo cannon with the hit points of the tile at `23` at `0`:
the tile at `24` stays covered, and the one notification names the trap and the tile
`(2,3)`. -/
theorem doUpkeep_removes_dead_tile_witness :
    (doUpkeep demoEnv (demoTrapHP 0 10)).self.mCoveredTiles = [24] ∧
      serverNotifications
          (newEvents (demoTrapHP 0 10).trace (doUpkeep demoEnv (demoTrapHP 0 10)).trace)
        = [{ type := ServerNotificationType.removeTrapTile, mConcernedPlayer := 1070,
             mPacket := [PacketField.string "Cannon_1", PacketField.int32 2,
               PacketField.int32 3] }] :=
  have h := doUpkeep_removes_dead_tile demoEnv (demoTrapHP 0 10) 23
    (by decide) (by decide) (by decide)
  ⟨h.1.trans (by decide), h.2.1.trans (by decide)⟩

/-- C7: if every covered tile is a removal candidate when `doUpkeep()` is called, no tile is
covered after the removal pass, and the call ends there.  Among the events of the call there
is exactly one `GameMap::removeTrap` and one `deleteYourself`, both for this trap, in that
order; there is no call of `shoot` and none of `playerIsFighting`; and every entry of
`mTrapTiles` that is left is an entry from before the call, with its reload counter and its
activated flag. -/
theorem doUpkeep_extinction (env : Env) (s : State)
    (hall : ∀ t ∈ s.self.mCoveredTiles, removalCandidate env s t = true) :
    Building.numCoveredTiles (afterRemoval env s) = 0 ∧
    (doUpkeep env s).self.mCoveredTiles = [] ∧
    (newEvents s.trace (doUpkeep env s).trace).filter isExtinctionEvent
      = [Event.removeTrap s.self.addr, Event.deleteYourself s.self.addr] ∧
    (newEvents s.trace (doUpkeep env s).trace).filter isFireEvent = [] ∧
    ∀ t info, mapFind (doUpkeep env s).self.mTrapTiles t = some info →
      mapFind s.self.mTrapTiles t = some info := by
  obtain ⟨objs, evs, heq, hevs⟩ := afterRemoval_eq env s
  have hnil : s.self.mCoveredTiles.filter (fun t => !removalCandidate env s t) = [] := by
    rw [List.filter_eq_nil_iff]
    intro a ha
    simp [hall a ha]
  have hcount : Building.numCoveredTiles (afterRemoval env s) = 0 := by
    rw [heq]
    simp [Building.numCoveredTiles, hnil]
  have hdo := doUpkeep_unfold env s
  rw [if_pos (Nat.le_of_eq hcount)] at hdo
  refine ⟨hcount, ?_⟩
  rw [hdo, heq]
  simp only [State.emit, List.append_assoc, newEvents_append]
  refine ⟨hnil, ?_, ?_, ?_⟩
  · rw [List.filter_append, List.filter_append]
    have h1 : (removalEvents env s
        (s.self.mCoveredTiles.filter (removalCandidate env s))).filter isExtinctionEvent = [] := by
      rw [List.filter_eq_nil_iff]
      intro e he
      simp [(removalEvents_not_fire env s _ e he).2]
    have h2 : evs.filter isExtinctionEvent = [] := by
      rw [List.filter_eq_nil_iff]
      intro e he
      simp [(rebuild_not_fire e (hevs e he)).2.1]
    rw [h1, h2]
    rfl
  · rw [List.filter_append, List.filter_append]
    have h1 : (removalEvents env s
        (s.self.mCoveredTiles.filter (removalCandidate env s))).filter isFireEvent = [] := by
      rw [List.filter_eq_nil_iff]
      intro e he
      simp [(removalEvents_not_fire env s _ e he).1]
    have h2 : evs.filter isFireEvent = [] := by
      rw [List.filter_eq_nil_iff]
      intro e he
      simp [(rebuild_not_fire e (hevs e he)).1]
    rw [h1, h2]
    rfl
  · intro t info ht
    by_cases hmem : t ∈ s.self.mCoveredTiles.filter (removalCandidate env s)
    · rw [mapFind_eraseAll_of_mem _ _ hmem] at ht
      cases ht
    · rw [mapFind_eraseAll_of_not_mem _ _ hmem] at ht
      exact ht

/-- C7, evaluated on the demo cannon with the hit points of both tiles at `0`. -/
theorem doUpkeep_extinction_witness :
    (doUpkeep demoEnv (demoTrapHP 0 0)).self.mCoveredTiles = [] ∧
      (newEvents (demoTrapHP 0 0).trace
          (doUpkeep demoEnv (demoTrapHP 0 0)).trace).filter isExtinctionEvent
        = [Event.removeTrap 400, Event.deleteYourself 400] ∧
      (newEvents (demoTrapHP 0 0).trace
          (doUpkeep demoEnv (demoTrapHP 0 0)).trace).filter isFireEvent = [] :=
  have h := doUpkeep_extinction demoEnv (demoTrapHP 0 0) (by decide)
  ⟨h.2.1, h.2.2.1, h.2.2.2.1⟩

/-- C8 as stated does not hold.  The cannon `demoTrapTwice` covers the tiles `23`, `24`, `23`.
The tile at `23` is covered after the removal pass and has reload time `3` before the call of
`doUpkeep()`; after the call its reload time is `1`, not `2`: the fire loop has one round for
each entry of the covered tiles. -/
theorem doUpkeep_reloading_counterexample :
    demoTrapTwice.self.mCoveredTiles = [23, 24, 23] ∧
    23 ∈ (afterRemoval demoEnv demoTrapTwice).self.mCoveredTiles ∧
    mapFind demoTrapTwice.self.mTrapTiles 23
      = some { mReloadTime := 3, mIsActivated := false } ∧
    mapFind (doUpkeep demoEnv demoTrapTwice).self.mTrapTiles 23
      = some { mReloadTime := 1, mIsActivated := false } := by
  decide

/-- C8, amended: take a covered tile that is listed once in the covered tiles, that is still
covered after the removal pass of `doUpkeep()` and whose entry in `mTrapTiles` has reload time
`r > 0` before the call.  After the call its reload time is `r - 1`, its activated flag is the
same, and `shoot` was not called for it. -/
theorem doUpkeep_reloading (env : Env) (s : State) (t : TilePtr) (r : Nat) (a : Bool)
    (hone : s.self.mCoveredTiles.count t = 1)
    (hsurv : t ∈ (afterRemoval env s).self.mCoveredTiles)
    (hentry : mapFind s.self.mTrapTiles t = some { mReloadTime := r, mIsActivated := a })
    (hr : 0 < r) :
    mapFind (doUpkeep env s).self.mTrapTiles t
        = some { mReloadTime := r - 1, mIsActivated := a } ∧
      t ∉ shootCalls (newEvents s.trace (doUpkeep env s).trace) := by
  obtain ⟨objs, evs, heq, hevs⟩ := afterRemoval_eq env s
  have hdo := doUpkeep_unfold env s
  have hpos : ¬ Building.numCoveredTiles (afterRemoval env s) ≤ 0 := by
    intro h
    have hnil : (afterRemoval env s).self.mCoveredTiles = [] :=
      List.eq_nil_of_length_eq_zero (Nat.le_zero.1 h)
    rw [hnil] at hsurv
    cases hsurv
  rw [if_neg hpos] at hdo
  have hsurv' := hsurv
  rw [heq] at hsurv'
  simp only [List.mem_filter] at hsurv'
  have hnotL : t ∉ s.self.mCoveredTiles.filter (removalCandidate env s) := by
    intro h
    have := (List.mem_filter.1 h).2
    rw [this] at hsurv'
    exact absurd hsurv'.2 (by decide)
  have hentry1 : mapFind (afterRemoval env s).self.mTrapTiles t
      = some { mReloadTime := r, mIsActivated := a } := by
    rw [heq]
    simp only []
    rw [mapFind_eraseAll_of_not_mem _ _ hnotL]
    exact hentry
  have hnd1 : (afterRemoval env s).self.mCoveredTiles.count t = 1 := by
    rw [heq]
    simp only []
    rw [count_filter_not _ _ _ (by simpa using hsurv'.2)]
    exact hone
  obtain ⟨m, fevs, hloop, hm, hfe⟩ := fireLoop_reloading env _ (afterRemoval env s) t
    { mReloadTime := r, mIsActivated := a } hnd1 hentry1 hr
  rw [hdo, hloop]
  refine ⟨hm, ?_⟩
  simp only []
  rw [heq]
  simp only [List.append_assoc, newEvents_append]
  apply not_mem_shootCalls
  intro e he
  rcases List.mem_append.1 he with h | h
  · rcases removalEvents_kind env s _ e h with ⟨n, rfl⟩ | ⟨q, rfl⟩ <;> exact fun h => nomatch h
  · rcases List.mem_append.1 h with h' | h'
    · intro hs
      have := (rebuild_not_fire e (hevs e h')).1
      rw [hs] at this
      cases this
    · exact (hfe e h').2

/-- C8, amended, evaluated on the demo cannon, whose tiles start with reload time `3`. -/
theorem doUpkeep_reloading_witness :
    mapFind (doUpkeep demoEnv demoTrap).self.mTrapTiles 23
        = some { mReloadTime := 2, mIsActivated := false } ∧
      23 ∉ shootCalls (newEvents demoTrap.trace (doUpkeep demoEnv demoTrap).trace) :=
  doUpkeep_reloading demoEnv demoTrap 23 3 false (by decide) (by decide) (by decide)
    (by decide)

end Trap

/-! ## Decimal text, packets and the import loops -/

theorem digitChar_spec (d : Nat) (h : d < 10) :
    (Nat.digitChar d).isDigit = true ∧ digitValue (Nat.digitChar d) = d ∧
      isSpace (Nat.digitChar d) = false ∧ Nat.digitChar d ≠ '-' ∧ Nat.digitChar d ≠ '+' := by
  interval_cases d <;> decide

theorem toDigitsCore_append (fuel : Nat) : ∀ (n : Nat) (ds : List Char),
    Nat.toDigitsCore 10 fuel n ds = Nat.toDigitsCore 10 fuel n [] ++ ds := by
  induction fuel with
  | zero => intro n ds; simp [Nat.toDigitsCore]
  | succ fuel ih =>
    intro n ds
    simp only [Nat.toDigitsCore]
    split
    · simp
    · rw [ih (n / 10) (Nat.digitChar (n % 10) :: ds), ih (n / 10) [Nat.digitChar (n % 10)]]
      simp

theorem readDigits_append (xs : List Char) (d : Char) (rest : List Char) (acc : Nat)
    (hx : ∀ c ∈ xs, c.isDigit = true) (hd : d.isDigit = false) :
    readDigits (xs ++ d :: rest) acc = (digitsValue acc xs, d :: rest) := by
  induction xs generalizing acc with
  | nil => simp [readDigits, hd, digitsValue]
  | cons c xs ih =>
    have hc : c.isDigit = true := hx c (List.mem_cons.2 (Or.inl rfl))
    rw [List.cons_append]
    simp only [readDigits, hc, if_true]
    rw [ih _ (fun c hc => hx c (List.mem_cons.2 (Or.inr hc)))]
    rfl

theorem readDigits_all (xs : List Char) (acc : Nat) (hx : ∀ c ∈ xs, c.isDigit = true) :
    readDigits xs acc = (digitsValue acc xs, []) := by
  induction xs generalizing acc with
  | nil => simp [readDigits, digitsValue]
  | cons c xs ih =>
    have hc : c.isDigit = true := hx c (List.mem_cons.2 (Or.inl rfl))
    simp only [readDigits, hc, if_true]
    rw [ih _ (fun c hc => hx c (List.mem_cons.2 (Or.inr hc)))]
    rfl

theorem toDigitsCore_spec (fuel : Nat) : ∀ n, n < fuel →
    (∀ c ∈ Nat.toDigitsCore 10 fuel n [], c.isDigit = true) ∧
      digitsValue 0 (Nat.toDigitsCore 10 fuel n []) = n ∧
      Nat.toDigitsCore 10 fuel n [] ≠ [] := by
  induction fuel with
  | zero => intro n h; omega
  | succ fuel ih =>
    intro n hn
    have hd := digitChar_spec (n % 10) (Nat.mod_lt n (by decide))
    simp only [Nat.toDigitsCore]
    split
    · rename_i h0
      have hlt : n < 10 := by omega
      have hmod : n % 10 = n := Nat.mod_eq_of_lt hlt
      refine ⟨?_, ?_, by simp⟩
      · intro c hc
        rw [List.mem_singleton.1 hc]
        exact hd.1
      · have h2 := hd.2.1
        rw [hmod] at h2
        simp [digitsValue, h2, hmod]
    · rename_i h0
      have hlt : n / 10 < fuel := by omega
      obtain ⟨h1, h2, _⟩ := ih (n / 10) hlt
      rw [toDigitsCore_append]
      refine ⟨?_, ?_, by simp⟩
      · intro c hc
        rcases List.mem_append.1 hc with h | h
        · exact h1 c h
        · rw [List.mem_singleton.1 h]
          exact hd.1
      · unfold digitsValue at h2 ⊢
        rw [List.foldl_append, h2]
        simp only [List.foldl_cons, List.foldl_nil, hd.2.1]
        omega

theorem decimalNat_spec (n : Nat) :
    (∀ c ∈ decimalNat n, c.isDigit = true) ∧ digitsValue 0 (decimalNat n) = n ∧
      ∃ c cs, decimalNat n = c :: cs ∧ c.isDigit = true := by
  obtain ⟨h1, h2, h3⟩ := toDigitsCore_spec (n + 1) n (Nat.lt_succ_self n)
  refine ⟨h1, h2, ?_⟩
  unfold decimalNat Nat.toDigits
  cases h : Nat.toDigitsCore 10 (n + 1) n [] with
  | nil => exact absurd h h3
  | cons c cs => exact ⟨c, cs, rfl, h1 c (by rw [h]; exact List.mem_cons.2 (Or.inl rfl))⟩

theorem isDigit_facts (c : Char) (h : c.isDigit = true) :
    isSpace c = false ∧ c ≠ '-' ∧ c ≠ '+' := by
  have h1 : c.val ≥ 48 ∧ c.val ≤ 57 := by
    simpa [Char.isDigit] using h
  refine ⟨?_, ?_, ?_⟩
  · simp only [isSpace, Bool.or_eq_false_iff, decide_eq_false_iff_not]
    refine ⟨⟨⟨⟨⟨?_, ?_⟩, ?_⟩, ?_⟩, ?_⟩, ?_⟩ <;>
    · intro hc
      rw [hc] at h1
      revert h1
      decide
  · intro hc
    rw [hc] at h1
    revert h1
    decide
  · intro hc
    rw [hc] at h1
    revert h1
    decide

theorem scanSign_of_digit (c : Char) (cs : List Char) (hc : c.isDigit = true) :
    IStream.scanSign (c :: cs) = (false, c :: cs) := by
  have hf := isDigit_facts c hc
  unfold IStream.scanSign
  split
  · rename_i heq
    exact absurd (List.cons.inj heq).1 hf.2.1
  · rename_i heq
    exact absurd (List.cons.inj heq).1 hf.2.2
  · rfl

theorem scanNumber_decimalNat (n : Nat) (d : Char) (rest : List Char) (hd : d.isDigit = false) :
    IStream.scanNumber (decimalNat n ++ d :: rest) = some (false, n, d :: rest) := by
  obtain ⟨hall, hval, c, cs, hcs, hc⟩ := decimalNat_spec n
  have hread : readDigits (decimalNat n ++ d :: rest) 0 = (n, d :: rest) := by
    rw [readDigits_append _ _ _ _ hall hd, hval]
  rw [hcs] at hread ⊢
  unfold IStream.scanNumber
  simp only [List.cons_append] at hread ⊢
  rw [scanSign_of_digit c _ hc]
  simp only [hc, if_true, hread]

theorem scanNumber_minus (n : Nat) (d : Char) (rest : List Char) (hd : d.isDigit = false) :
    IStream.scanNumber ('-' :: (decimalNat n ++ d :: rest)) = some (true, n, d :: rest) := by
  obtain ⟨hall, hval, c, cs, hcs, hc⟩ := decimalNat_spec n
  have hread : readDigits (decimalNat n ++ d :: rest) 0 = (n, d :: rest) := by
    rw [readDigits_append _ _ _ _ hall hd, hval]
  rw [hcs] at hread ⊢
  unfold IStream.scanNumber
  simp only [List.cons_append] at hread ⊢
  simp only [IStream.scanSign, hc, if_true, hread]

theorem dropWhile_isSpace_decimalNat (n : Nat) (tail : List Char) :
    (decimalNat n ++ tail).dropWhile isSpace = decimalNat n ++ tail := by
  obtain ⟨_, _, c, cs, hcs, hc⟩ := decimalNat_spec n
  rw [hcs, List.cons_append, List.dropWhile_cons, (isDigit_facts c hc).1]
  rfl

theorem readUInt32_decimalNat (n : Nat) (hn : n < 4294967296) (d : Char) (rest : List Char)
    (hd : d.isDigit = false) (old : Nat) :
    IStream.readUInt32 { buf := decimalNat n ++ d :: rest, failbit := false } old
      = (n, { buf := d :: rest, failbit := false }) := by
  unfold IStream.readUInt32
  simp only [Bool.false_eq_true, if_false]
  rw [dropWhile_isSpace_decimalNat]
  have hs := scanNumber_decimalNat n d rest hd
  obtain ⟨_, _, c, cs, hcs, _⟩ := decimalNat_spec n
  rw [hcs] at hs ⊢
  simp only [List.cons_append] at hs ⊢
  rw [hs]
  have : ¬ n > 4294967295 := by omega
  simp [this]

theorem readInt_decimalInt (v : Int) (hv : isInt32 v) (c d : Char) (rest : List Char)
    (hc : isSpace c = true) (hd : d.isDigit = false) (old : Int) :
    IStream.readInt { buf := c :: (decimalInt v ++ d :: rest), failbit := false } old
      = (v, { buf := d :: rest, failbit := false }) := by
  unfold IStream.readInt
  simp only [Bool.false_eq_true, if_false]
  rw [List.dropWhile_cons, hc]
  simp only [if_true]
  cases v with
  | ofNat m =>
    simp only [decimalInt]
    rw [dropWhile_isSpace_decimalNat]
    have hs := scanNumber_decimalNat m d rest hd
    obtain ⟨_, _, c2, cs, hcs, _⟩ := decimalNat_spec m
    rw [hcs] at hs ⊢
    simp only [List.cons_append] at hs ⊢
    rw [hs]
    have h1 : ¬ ((m : Int) < -2147483648) := by omega
    have h2 : ¬ ((m : Int) > 2147483647) := by
      have := hv.2
      simp only [Int.ofNat_eq_coe] at this
      omega
    simp [h1, h2]
  | negSucc m =>
    simp only [decimalInt, List.cons_append]
    have hsp : isSpace '-' = false := by decide
    rw [List.dropWhile_cons, hsp]
    simp only [Bool.false_eq_true, if_false]
    rw [scanNumber_minus (m + 1) d rest hd]
    have hv1 := hv.1
    have h1 : ¬ (-((m + 1 : Nat) : Int) < -2147483648) := by
      have : Int.negSucc m = -((m + 1 : Nat) : Int) := rfl
      rw [this] at hv1
      omega
    have h2 : ¬ (-((m + 1 : Nat) : Int) > 2147483647) := by omega
    simp only [if_true, h1, h2, if_false]
    rfl

theorem toInt32_of_lt (n : Nat) (h : n < 2147483648) : toInt32 (n : Int) = n := by
  unfold toInt32
  omega

theorem toUInt32_of_lt (n : Nat) (h : n < 4294967296) : toUInt32 (n : Int) = n := by
  unfold toUInt32
  omega

theorem importTile_spec (env : Env) (s : State) (x y : Int)
    (h : env.gameMap.getTile x y ≠ nullptr) :
    (Trap.importTile env s x y).self.mCoveredTiles
        = s.self.mCoveredTiles ++ [env.gameMap.getTile x y] ∧
      (Trap.importTile env s x y).self.mName = s.self.mName ∧
      (Trap.importTile env s x y).self.mSeat = s.self.mSeat ∧
      (Trap.importTile env s x y).trace = s.trace ∧
      ∀ p, tileCoords (Trap.importTile env s x y).tiles p = tileCoords s.tiles p := by
  unfold Trap.importTile
  simp only [h, not_false_eq_true, decide_True, odAssertTrue, if_true, ne_eq]
  refine ⟨rfl, rfl, rfl, rfl, ?_⟩
  intro p
  simp only [Trap.tileSetSeat, Trap.addCoveredTile, Trap.setCoveringTrap, State.setSelf,
    Building.addCoveredTile, tileCoords]
  by_cases hp : p = env.gameMap.getTile x y
  · subst hp
    simp
  · simp [Function.update_noteq hp]

theorem importTiles_spec (env : Env) (cs : List (Int × Int)) : ∀ (s : State),
    (∀ c ∈ cs, env.gameMap.getTile c.1 c.2 ≠ nullptr) →
    (importTiles env s cs).self.mCoveredTiles
        = s.self.mCoveredTiles ++ cs.map (fun c => env.gameMap.getTile c.1 c.2) ∧
      (importTiles env s cs).self.mName = s.self.mName ∧
      (importTiles env s cs).self.mSeat = s.self.mSeat ∧
      (importTiles env s cs).trace = s.trace ∧
      ∀ p, tileCoords (importTiles env s cs).tiles p = tileCoords s.tiles p := by
  induction cs with
  | nil => intro s _; simp [importTiles]
  | cons c cs ih =>
    intro s h
    have h1 := importTile_spec env s c.1 c.2 (h c (List.mem_cons.2 (Or.inl rfl)))
    have h2 := ih (Trap.importTile env s c.1 c.2)
      (fun c' hc' => h c' (List.mem_cons.2 (Or.inr hc')))
    unfold importTiles at h2 ⊢
    rw [List.foldl_cons]
    refine ⟨?_, ?_, ?_, ?_, ?_⟩
    · rw [h2.1, h1.1]; simp
    · rw [h2.2.1, h1.2.1]
    · rw [h2.2.2.1, h1.2.2.1]
    · rw [h2.2.2.2.1, h1.2.2.2.1]
    · intro p
      rw [h2.2.2.2.2 p, h1.2.2.2.2 p]

theorem exportToPacket_fields (env : Env) (s : State) (os : ODPacket) :
    Trap.exportToPacket env s os =
      { fields := os.fields ++
          [PacketField.string s.self.mName, PacketField.int32 (env.seatGetId s.self.mSeat),
            PacketField.int32 (toInt32 s.self.mCoveredTiles.length)] ++
          coordFields (s.self.mCoveredTiles.map (tileCoords s.tiles))
        valid := os.valid } := by
  unfold Trap.exportToPacket
  simp only []
  have hfold : ∀ (l : List TilePtr) (p : ODPacket),
      l.foldl (fun os tempTile =>
          (os.writeInt (s.tiles tempTile).x).writeInt (s.tiles tempTile).y) p
        = { fields := p.fields ++ coordFields (l.map (tileCoords s.tiles)), valid := p.valid } := by
    intro l
    induction l with
    | nil => intro p; simp [coordFields]
    | cons a l ih =>
      intro p
      rw [List.foldl_cons, ih]
      simp [ODPacket.writeInt, coordFields, tileCoords]
  rw [hfold]
  simp [ODPacket.writeInt, ODPacket.writeString]

theorem importFromPacket_loop (env : Env) (cs : List (Int × Int)) (rest : List PacketField) :
    ∀ (s : State) (tx ty : Int),
      (∀ c ∈ cs, env.gameMap.getTile c.1 c.2 ≠ nullptr) →
      ((Trap.importFromPacketStep env)^[cs.length]
          { s := s, is := { fields := coordFields cs ++ rest, valid := true },
            tempX := tx, tempY := ty }).s = importTiles env s cs ∧
      ((Trap.importFromPacketStep env)^[cs.length]
          { s := s, is := { fields := coordFields cs ++ rest, valid := true },
            tempX := tx, tempY := ty }).is = { fields := rest, valid := true } := by
  induction cs with
  | nil => intro s tx ty _; simp [coordFields, importTiles]
  | cons c cs ih =>
    intro s tx ty h
    have hstep : Trap.importFromPacketStep env
        { s := s, is := { fields := coordFields (c :: cs) ++ rest, valid := true },
          tempX := tx, tempY := ty }
        = { s := Trap.importTile env s c.1 c.2,
            is := { fields := coordFields cs ++ rest, valid := true },
            tempX := c.1, tempY := c.2 } := by
      simp [Trap.importFromPacketStep, coordFields, ODPacket.readInt, odAssertTrue]
    rw [List.length_cons, Function.iterate_succ_apply, hstep]
    have h2 := ih (Trap.importTile env s c.1 c.2) c.1 c.2
      (fun c' hc' => h c' (List.mem_cons.2 (Or.inr hc')))
    rw [h2.1, h2.2]
    exact ⟨rfl, rfl⟩

theorem importFromPacket_fields (env : Env) (s : State) (name : String) (sid : Int)
    (cs : List (Int × Int)) (rest : List PacketField)
    (h : ∀ c ∈ cs, env.gameMap.getTile c.1 c.2 ≠ nullptr) :
    Trap.importFromPacket env s
        { fields := PacketField.string name :: PacketField.int32 sid ::
            PacketField.int32 (cs.length : Int) :: (coordFields cs ++ rest), valid := true }
      = (importTiles env
          (s.setSelf { s.self with mName := name, mSeat := env.gameMap.getSeatById sid }) cs,
         { fields := rest, valid := true }) := by
  unfold Trap.importFromPacket
  simp only [ODPacket.readString, ODPacket.readInt, odAssertTrue, if_true, Int.toNat_ofNat]
  have hl := importFromPacket_loop env cs rest
    (State.setSelf (s.setSelf { s.self with mName := name })
      { (s.setSelf { s.self with mName := name }).self with
        mSeat := env.gameMap.getSeatById sid })
    env.uninitialised env.uninitialised h
  rw [hl.1, hl.2]
  rfl

theorem dispatchTrapType_concrete (env : Env) (w : World) (ty : TrapType)
    (h : ty = cannon ∨ ty = spike ∨ ty = boulder) :
    Trap.dispatchTrapType env w ty
      = (some (Trap.newConcreteTrap env w ty).self, (Trap.newConcreteTrap env w ty).world) := by
  rcases h with h | h | h <;> subst h <;>
    simp [Trap.dispatchTrapType, cannon, spike, boulder, nullTrapType]

theorem getTrapFromPacket_fields (env : Env) (w : World) (ty : TrapType) (name : String)
    (sid : Int) (cs : List (Int × Int)) (rest : List PacketField)
    (hty : ty = cannon ∨ ty = spike ∨ ty = boulder)
    (h : ∀ c ∈ cs, env.gameMap.getTile c.1 c.2 ≠ nullptr) :
    Trap.getTrapFromPacket env w
        { fields := PacketField.uint32 ty :: PacketField.string name :: PacketField.int32 sid ::
            PacketField.int32 (cs.length : Int) :: (coordFields cs ++ rest), valid := true }
      = { result := some (importTiles env (importStart env w ty name sid) cs).self
          world := (importTiles env (importStart env w ty name sid) cs).world
          is := { fields := rest, valid := true } } := by
  unfold Trap.getTrapFromPacket
  simp only [Trap.readTrapTypePacket, ODPacket.readUInt32]
  rw [dispatchTrapType_concrete env w _ hty]
  simp only []
  rw [importFromPacket_fields env _ _ _ _ rest h]
  rfl

theorem importStart_decoded (env : Env) (w : World) (ty : TrapType) (name : String) (sid : Int)
    (cs : List (Int × Int)) (h : ∀ c ∈ cs, env.gameMap.getTile c.1 c.2 ≠ nullptr)
    (hc : ∀ c ∈ cs, tileCoords w.tiles (env.gameMap.getTile c.1 c.2) = c) :
    (importTiles env (importStart env w ty name sid) cs).self.mName = name ∧
      (importTiles env (importStart env w ty name sid) cs).self.mSeat
        = env.gameMap.getSeatById sid ∧
      (importTiles env (importStart env w ty name sid) cs).self.mCoveredTiles.map
          (tileCoords (importTiles env (importStart env w ty name sid) cs).world.tiles) = cs := by
  obtain ⟨h1, h2, h3, _, h5⟩ := importTiles_spec env cs (importStart env w ty name sid) h
  refine ⟨h2, h3, ?_⟩
  have hfun : tileCoords (importTiles env (importStart env w ty name sid) cs).world.tiles
      = tileCoords w.tiles := by
    funext p
    exact h5 p
  rw [hfun, h1]
  have hnil : (importStart env w ty name sid).self.mCoveredTiles = [] := rfl
  rw [hnil, List.nil_append, List.map_map]
  conv_rhs => rw [← List.map_id cs]
  apply List.map_congr_left
  intro c hcm
  exact hc c hcm

theorem coordText_cons (c : Int × Int) (cs : List (Int × Int)) :
    coordText (c :: cs) = decimalInt c.1 ++ '\t' :: (decimalInt c.2 ++ '\n' :: coordText cs) := by
  simp [coordText]

theorem stream_header_assoc (os seat nb body : List Char) :
    os ++ seat ++ ['\t'] ++ nb ++ ['\n'] ++ body
      = os ++ (seat ++ '\t' :: (nb ++ '\n' :: body)) := by
  simp only [List.append_assoc, List.singleton_append, List.cons_append, List.nil_append]

theorem exportToStream_foldl (s : State) : ∀ (l : List TilePtr) (p : List Char),
    l.foldl (fun os tempTile =>
        os ++ decimalInt (s.tiles tempTile).x ++ ['\t'] ++ decimalInt (s.tiles tempTile).y
          ++ ['\n']) p
      = p ++ coordText (l.map (tileCoords s.tiles)) := by
  intro l
  induction l with
  | nil => intro p; simp [coordText]
  | cons a l ih =>
    intro p
    rw [List.foldl_cons, ih, List.map_cons, coordText_cons]
    simp only [tileCoords, List.append_assoc, List.singleton_append, List.cons_append,
      List.nil_append]

theorem exportToStream_text (env : Env) (s : State) (os : List Char) :
    Trap.exportToStream env s os =
      os ++ (decimalInt (env.seatGetId s.self.mSeat) ++ '\t' ::
        (decimalInt (toInt32 s.self.mCoveredTiles.length) ++ '\n' ::
          coordText (s.self.mCoveredTiles.map (tileCoords s.tiles)))) := by
  unfold Trap.exportToStream
  rw [exportToStream_foldl]
  exact stream_header_assoc _ _ _ _

theorem importFromStream_loop (env : Env) (cs : List (Int × Int)) :
    ∀ (s : State) (tx ty : Int),
      (∀ c ∈ cs, isInt32 c.1 ∧ isInt32 c.2) →
      ((Trap.importFromStreamStep env)^[cs.length]
          { s := s, is := { buf := '\n' :: coordText cs, failbit := false },
            tempX := tx, tempY := ty }).s = importTiles env s cs ∧
      ((Trap.importFromStreamStep env)^[cs.length]
          { s := s, is := { buf := '\n' :: coordText cs, failbit := false },
            tempX := tx, tempY := ty }).is = { buf := ['\n'], failbit := false } := by
  induction cs with
  | nil => intro s tx ty _; simp [coordText, importTiles]
  | cons c cs ih =>
    intro s tx ty h
    have hc := h c (List.mem_cons.2 (Or.inl rfl))
    have hstep : Trap.importFromStreamStep env
        { s := s, is := { buf := '\n' :: coordText (c :: cs), failbit := false },
          tempX := tx, tempY := ty }
        = { s := Trap.importTile env s c.1 c.2,
            is := { buf := '\n' :: coordText cs, failbit := false },
            tempX := c.1, tempY := c.2 } := by
      unfold Trap.importFromStreamStep
      simp only [coordText_cons]
      rw [readInt_decimalInt c.1 hc.1 '\n' '\t' _ (by decide) (by decide)]
      simp only []
      rw [readInt_decimalInt c.2 hc.2 '\t' '\n' _ (by decide) (by decide)]
      simp [odAssertTrue]
    rw [List.length_cons, Function.iterate_succ_apply, hstep]
    have h2 := ih (Trap.importTile env s c.1 c.2) c.1 c.2
      (fun c' hc' => h c' (List.mem_cons.2 (Or.inr hc')))
    rw [h2.1, h2.2]
    exact ⟨rfl, rfl⟩

theorem importFromStream_text (env : Env) (s : State) (sid : Int) (cs : List (Int × Int))
    (hsid : isInt32 sid) (hlen : cs.length < 2147483648)
    (h : ∀ c ∈ cs, isInt32 c.1 ∧ isInt32 c.2) :
    Trap.importFromStream env s
        { buf := '\t' :: (decimalInt sid ++ '\t' ::
            (decimalInt (cs.length : Int) ++ '\n' :: coordText cs)), failbit := false }
      = (importTiles env (s.setSelf { s.self with mSeat := env.gameMap.getSeatById sid }) cs,
         { buf := ['\n'], failbit := false }) := by
  have hl32 : isInt32 (cs.length : Int) := by
    unfold isInt32
    omega
  unfold Trap.importFromStream
  simp only []
  rw [readInt_decimalInt sid hsid '\t' '\t' _ (by decide) (by decide)]
  simp only []
  rw [readInt_decimalInt _ hl32 '\t' '\n' _ (by decide) (by decide)]
  simp only [odAssertTrue, Bool.not_false, if_true, Int.toNat_ofNat]
  have hl := importFromStream_loop env cs
    (s.setSelf { s.self with mSeat := env.gameMap.getSeatById sid })
    env.uninitialised env.uninitialised h
  rw [hl.1, hl.2]

theorem getTrapFromStream_text (env : Env) (w : World) (ty : TrapType) (sid : Int)
    (cs : List (Int × Int)) (hty : ty = cannon ∨ ty = spike ∨ ty = boulder)
    (hsid : isInt32 sid) (hlen : cs.length < 2147483648)
    (h : ∀ c ∈ cs, isInt32 c.1 ∧ isInt32 c.2) :
    Trap.getTrapFromStream env w
        { buf := decimalNat ty ++ '\t' :: (decimalInt sid ++ '\t' ::
            (decimalInt (cs.length : Int) ++ '\n' :: coordText cs)), failbit := false }
      = { result := some (importTiles env
            (importStart env w ty (Trap.newConcreteTrap env w ty).self.mName sid) cs).self
          world := (importTiles env
            (importStart env w ty (Trap.newConcreteTrap env w ty).self.mName sid) cs).world
          is := { buf := ['\n'], failbit := false } } := by
  have hlt : ty < 4294967296 := by
    rcases hty with h | h | h <;> rw [h] <;> decide
  unfold Trap.getTrapFromStream
  simp only [Trap.readTrapTypeStream]
  rw [readUInt32_decimalNat ty hlt '\t' _ (by decide)]
  simp only []
  rw [dispatchTrapType_concrete env w _ hty]
  simp only []
  rw [importFromStream_text env _ sid cs hsid hlen h]
  rfl

/-! ## The codecs: claims C2, C3, C4 and C5 -/

theorem dispatchTrapType_unknown (env : Env) (w : World) (ty : TrapType)
    (h0 : ty ≠ nullTrapType) (h1 : ty ≠ cannon) (h2 : ty ≠ spike) (h3 : ty ≠ boulder) :
    Trap.dispatchTrapType env w ty
      = (none, { w with trace := w.trace ++
          [Event.assertFailed ("Unknown enum value : " ++ intToString (toInt32 ty))] }) := by
  unfold Trap.dispatchTrapType
  rw [if_neg h0, if_neg h1, if_neg h2, if_neg h3]

namespace Trap

/-- C2: the live-packet round trip.  A trap of type cannon, spike or boulder, with fewer
than `2^31` covered tiles, is written with `exportHeadersToPacket` and `exportToPacket`
into an empty packet.  `getTrapFromPacket` reads the packet on a map (`env2`, with the tile
objects of `w`) whose seat table resolves the seat id and whose grid has a tile at the
coordinates of every covered tile.  It returns a trap with the same name, the same seat id
and covered tiles at the same coordinates, in the same order; the packet is read to its
end. -/
theorem packet_roundtrip (env env2 : Env) (s : State) (w : World)
    (htype : s.self.mType = cannon ∨ s.self.mType = spike ∨ s.self.mType = boulder)
    (hlen : s.self.mCoveredTiles.length < 2147483648)
    (hseat : env2.seatGetId (env2.gameMap.getSeatById (env.seatGetId s.self.mSeat))
      = env.seatGetId s.self.mSeat)
    (hgrid : ∀ t ∈ s.self.mCoveredTiles,
      env2.gameMap.getTile (s.tiles t).x (s.tiles t).y ≠ nullptr ∧
      tileCoords w.tiles (env2.gameMap.getTile (s.tiles t).x (s.tiles t).y)
        = tileCoords s.tiles t) :
    ∃ trap,
      (getTrapFromPacket env2 w
        (exportToPacket env s (exportHeadersToPacket s ODPacket.empty))).result = some trap ∧
      trap.mName = s.self.mName ∧
      env2.seatGetId trap.mSeat = env.seatGetId s.self.mSeat ∧
      trap.mCoveredTiles.map (tileCoords
          (getTrapFromPacket env2 w
            (exportToPacket env s (exportHeadersToPacket s ODPacket.empty))).world.tiles)
        = s.self.mCoveredTiles.map (tileCoords s.tiles) ∧
      (getTrapFromPacket env2 w
        (exportToPacket env s (exportHeadersToPacket s ODPacket.empty))).is
        = { fields := [], valid := true } := by
  have htag : toUInt32 (s.self.mType : Int) = s.self.mType := by
    apply toUInt32_of_lt
    rcases htype with h | h | h <;> rw [h] <;> decide
  have hlen2 : ((s.self.mCoveredTiles.map (tileCoords s.tiles)).length : Int)
      = (s.self.mCoveredTiles.length : Int) := by simp
  have hpacket : exportToPacket env s (exportHeadersToPacket s ODPacket.empty) =
      { fields := PacketField.uint32 s.self.mType :: PacketField.string s.self.mName ::
          PacketField.int32 (env.seatGetId s.self.mSeat) ::
          PacketField.int32 ((s.self.mCoveredTiles.map (tileCoords s.tiles)).length : Int) ::
          (coordFields (s.self.mCoveredTiles.map (tileCoords s.tiles)) ++ []),
        valid := true } := by
    rw [exportToPacket_fields, toInt32_of_lt _ hlen, hlen2]
    simp [exportHeadersToPacket, writeTrapTypePacket, ODPacket.writeUInt32, ODPacket.empty, htag]
  have hcs : ∀ c ∈ s.self.mCoveredTiles.map (tileCoords s.tiles),
      env2.gameMap.getTile c.1 c.2 ≠ nullptr := by
    intro c hc
    obtain ⟨t, ht, rfl⟩ := List.mem_map.1 hc
    exact (hgrid t ht).1
  have hcc : ∀ c ∈ s.self.mCoveredTiles.map (tileCoords s.tiles),
      tileCoords w.tiles (env2.gameMap.getTile c.1 c.2) = c := by
    intro c hc
    obtain ⟨t, ht, rfl⟩ := List.mem_map.1 hc
    exact (hgrid t ht).2
  rw [hpacket, getTrapFromPacket_fields env2 w _ _ _ _ [] htype hcs]
  obtain ⟨h1, h2, h3⟩ := importStart_decoded env2 w s.self.mType s.self.mName
    (env.seatGetId s.self.mSeat) _ hcs hcc
  refine ⟨_, rfl, h1, ?_, h3, rfl⟩
  rw [h2]
  exact hseat

/-- C2, evaluated on the demo cannon, which covers the tiles `(2,3)` and `(2,4)`, read back on
the demo map. -/
theorem packet_roundtrip_witness :
    ∃ trap,
      (getTrapFromPacket demoEnv demoWorld
        (exportToPacket demoEnv demoTrap
          (exportHeadersToPacket demoTrap ODPacket.empty))).result = some trap ∧
      trap.mName = "Cannon_1" ∧
      demoEnv.seatGetId trap.mSeat = 7 ∧
      trap.mCoveredTiles.map (tileCoords
          (getTrapFromPacket demoEnv demoWorld
            (exportToPacket demoEnv demoTrap
              (exportHeadersToPacket demoTrap ODPacket.empty))).world.tiles)
        = [(2, 3), (2, 4)] ∧
      (getTrapFromPacket demoEnv demoWorld
        (exportToPacket demoEnv demoTrap (exportHeadersToPacket demoTrap ODPacket.empty))).is
        = { fields := [], valid := true } :=
  packet_roundtrip demoEnv demoEnv demoTrap demoWorld (by decide) (by decide) (by decide)
    (by decide)

/-- C3 (counterexample): the save stream does not carry the name.  The text written for the
demo cannon `Cannon_1` is `1 7 2 / 2 3 / 2 4` (tabs and newlines), and the trap that
`getTrapFromStream` builds from it has the name its constructor gave it, the empty string,
not `Cannon_1`. -/
theorem stream_roundtrip_name_counterexample :
    exportToStream demoEnv demoTrap (exportHeadersToStream demoTrap [])
        = ['1', '\t', '7', '\t', '2', '\n', '2', '\t', '3', '\n', '2', '\t', '4', '\n'] ∧
      demoTrap.self.mName = "Cannon_1" ∧
      (getTrapFromStream demoEnv demoWorld
          { buf := exportToStream demoEnv demoTrap (exportHeadersToStream demoTrap []),
            failbit := false }).result.map (fun trap => trap.mName) = some "" := by
  decide

/-- C3 (amended): the save-stream round trip, without the name.  A trap of type cannon,
spike or boulder, with fewer than `2^31` covered tiles, whose seat id and tile coordinates
are values of `int`, is written with `exportHeadersToStream` and `exportToStream`.
`getTrapFromStream` reads the text on a map (`env2`, with the tile objects of `w`) whose seat
table resolves the seat id and whose grid has a tile at the coordinates of every covered
tile.  It returns a trap with the same seat id and covered tiles at the same coordinates, in
the same order. -/
theorem stream_roundtrip (env env2 : Env) (s : State) (w : World)
    (htype : s.self.mType = cannon ∨ s.self.mType = spike ∨ s.self.mType = boulder)
    (hlen : s.self.mCoveredTiles.length < 2147483648)
    (hsid : isInt32 (env.seatGetId s.self.mSeat))
    (hint : ∀ t ∈ s.self.mCoveredTiles, isInt32 (s.tiles t).x ∧ isInt32 (s.tiles t).y)
    (hseat : env2.seatGetId (env2.gameMap.getSeatById (env.seatGetId s.self.mSeat))
      = env.seatGetId s.self.mSeat)
    (hgrid : ∀ t ∈ s.self.mCoveredTiles,
      env2.gameMap.getTile (s.tiles t).x (s.tiles t).y ≠ nullptr ∧
      tileCoords w.tiles (env2.gameMap.getTile (s.tiles t).x (s.tiles t).y)
        = tileCoords s.tiles t) :
    ∃ trap,
      (getTrapFromStream env2 w
        { buf := exportToStream env s (exportHeadersToStream s []),
          failbit := false }).result = some trap ∧
      env2.seatGetId trap.mSeat = env.seatGetId s.self.mSeat ∧
      trap.mCoveredTiles.map (tileCoords
          (getTrapFromStream env2 w
            { buf := exportToStream env s (exportHeadersToStream s []),
              failbit := false }).world.tiles)
        = s.self.mCoveredTiles.map (tileCoords s.tiles) := by
  have htag : toUInt32 (s.self.mType : Int) = s.self.mType := by
    apply toUInt32_of_lt
    rcases htype with h | h | h <;> rw [h] <;> decide
  have hlen2 : ((s.self.mCoveredTiles.map (tileCoords s.tiles)).length : Int)
      = (s.self.mCoveredTiles.length : Int) := by simp
  have hlen3 : (s.self.mCoveredTiles.map (tileCoords s.tiles)).length < 2147483648 := by
    simpa using hlen
  have hhead : exportHeadersToStream s [] = decimalNat s.self.mType ++ ['\t'] := by
    unfold exportHeadersToStream writeTrapTypeStream
    rw [htag]
    rfl
  have htext : exportToStream env s (exportHeadersToStream s []) =
      decimalNat s.self.mType ++ '\t' :: (decimalInt (env.seatGetId s.self.mSeat) ++ '\t' ::
        (decimalInt ((s.self.mCoveredTiles.map (tileCoords s.tiles)).length : Int) ++ '\n' ::
          coordText (s.self.mCoveredTiles.map (tileCoords s.tiles)))) := by
    rw [exportToStream_text, hhead, toInt32_of_lt _ hlen, hlen2]
    simp only [List.append_assoc, List.singleton_append]
  have hcs : ∀ c ∈ s.self.mCoveredTiles.map (tileCoords s.tiles),
      env2.gameMap.getTile c.1 c.2 ≠ nullptr := by
    intro c hc
    obtain ⟨t, ht, rfl⟩ := List.mem_map.1 hc
    exact (hgrid t ht).1
  have hcc : ∀ c ∈ s.self.mCoveredTiles.map (tileCoords s.tiles),
      tileCoords w.tiles (env2.gameMap.getTile c.1 c.2) = c := by
    intro c hc
    obtain ⟨t, ht, rfl⟩ := List.mem_map.1 hc
    exact (hgrid t ht).2
  have hci : ∀ c ∈ s.self.mCoveredTiles.map (tileCoords s.tiles), isInt32 c.1 ∧ isInt32 c.2 := by
    intro c hc
    obtain ⟨t, ht, rfl⟩ := List.mem_map.1 hc
    exact hint t ht
  rw [htext, getTrapFromStream_text env2 w _ _ _ htype hsid hlen3 hci]
  obtain ⟨_, h2, h3⟩ := importStart_decoded env2 w s.self.mType
    (newConcreteTrap env2 w s.self.mType).self.mName (env.seatGetId s.self.mSeat) _ hcs hcc
  refine ⟨_, rfl, ?_, h3⟩
  rw [h2]
  exact hseat

/-- C3 (amended), evaluated on the demo cannon, read back on the demo map. -/
theorem stream_roundtrip_witness :
    ∃ trap,
      (getTrapFromStream demoEnv demoWorld
        { buf := exportToStream demoEnv demoTrap (exportHeadersToStream demoTrap []),
          failbit := false }).result = some trap ∧
      demoEnv.seatGetId trap.mSeat = 7 ∧
      trap.mCoveredTiles.map (tileCoords
          (getTrapFromStream demoEnv demoWorld
            { buf := exportToStream demoEnv demoTrap (exportHeadersToStream demoTrap []),
              failbit := false }).world.tiles)
        = [(2, 3), (2, 4)] :=
  stream_roundtrip demoEnv demoEnv demoTrap demoWorld (by decide) (by decide)
    (by unfold isInt32; decide) (by unfold isInt32; decide) (by decide) (by decide)

/-- C4 (counterexample): for the unknown tag `99`, `getTrapFromStream` and
`getTrapFromPacket` return the null pointer, which is also what they return for the null
tag `0`. -/
theorem unknown_tag_counterexample :
    (getTrapFromStream demoEnv demoWorld
        { buf := ['9', '9', '\t', '7', '\t', '0', '\n'], failbit := false }).result.isNone
      = true ∧
    (getTrapFromStream demoEnv demoWorld
        { buf := ['0', '\t', '7', '\t', '0', '\n'], failbit := false }).result.isNone
      = true ∧
    (getTrapFromPacket demoEnv demoWorld
        { fields := [PacketField.uint32 99, PacketField.string "Cannon_1",
            PacketField.int32 7, PacketField.int32 0], valid := true }).result.isNone
      = true ∧
    (getTrapFromPacket demoEnv demoWorld
        { fields := [PacketField.uint32 0, PacketField.string "Cannon_1",
            PacketField.int32 7, PacketField.int32 0], valid := true }).result.isNone
      = true := by
  decide

/-- C4 (amended): when the tag read from the input is none of `nullTrapType`, `cannon`,
`spike`, `boulder`, `getTrapFromStream` and `getTrapFromPacket` return the null pointer, as
they do for the null tag; the error shows only in the log, as one failed assertion
`Unknown enum value : <tag>`; and nothing is read from the input after the tag. -/
theorem unknown_tag_logged (env : Env) (w : World) :
    (∀ is : IStream,
      (readTrapTypeStream env is).1 ≠ nullTrapType → (readTrapTypeStream env is).1 ≠ cannon →
      (readTrapTypeStream env is).1 ≠ spike → (readTrapTypeStream env is).1 ≠ boulder →
      getTrapFromStream env w is =
        { result := none
          world := { w with trace := w.trace ++
            [Event.assertFailed ("Unknown enum value : " ++
              intToString (toInt32 (readTrapTypeStream env is).1))] }
          is := (readTrapTypeStream env is).2 }) ∧
    (∀ is : ODPacket,
      (readTrapTypePacket env is).1 ≠ nullTrapType → (readTrapTypePacket env is).1 ≠ cannon →
      (readTrapTypePacket env is).1 ≠ spike → (readTrapTypePacket env is).1 ≠ boulder →
      getTrapFromPacket env w is =
        { result := none
          world := { w with trace := w.trace ++
            [Event.assertFailed ("Unknown enum value : " ++
              intToString (toInt32 (readTrapTypePacket env is).1))] }
          is := (readTrapTypePacket env is).2 }) := by
  constructor
  · intro is h0 h1 h2 h3
    unfold getTrapFromStream
    simp only []
    rw [dispatchTrapType_unknown env w _ h0 h1 h2 h3]
  · intro is h0 h1 h2 h3
    unfold getTrapFromPacket
    simp only []
    rw [dispatchTrapType_unknown env w _ h0 h1 h2 h3]

/-- C4 (amended), evaluated for the tag `99` on the demo map: the stream and the packet give
the null pointer, and the trace holds the one failed assertion. -/
theorem unknown_tag_logged_witness :
    (getTrapFromStream demoEnv demoWorld
        { buf := ['9', '9', '\t', '7', '\t', '0', '\n'], failbit := false }).world.trace
      = [Event.assertFailed "Unknown enum value : 99"] ∧
    (getTrapFromPacket demoEnv demoWorld
        { fields := [PacketField.uint32 99, PacketField.string "Cannon_1",
            PacketField.int32 7, PacketField.int32 0], valid := true }).world.trace
      = [Event.assertFailed "Unknown enum value : 99"] :=
  ⟨(congrArg (fun d => d.world.trace)
      ((unknown_tag_logged demoEnv demoWorld).1
        { buf := ['9', '9', '\t', '7', '\t', '0', '\n'], failbit := false }
        (by decide) (by decide) (by decide) (by decide))).trans (by decide),
   (congrArg (fun d => d.world.trace)
      ((unknown_tag_logged demoEnv demoWorld).2
        { fields := [PacketField.uint32 99, PacketField.string "Cannon_1",
            PacketField.int32 7, PacketField.int32 0], valid := true }
        (by decide) (by decide) (by decide) (by decide))).trans (by decide)⟩

/-- C5: when the tag read from the input is the null tag, `getTrapFromStream` and
`getTrapFromPacket` return the null pointer; the world is the same, so no assertion failed
and no trap was constructed; and the input is left as the read of the tag left it, so no
field was imported. -/
theorem null_tag_absent (env : Env) (w : World) :
    (∀ is : IStream, (readTrapTypeStream env is).1 = nullTrapType →
      getTrapFromStream env w is =
        { result := none, world := w, is := (readTrapTypeStream env is).2 }) ∧
    (∀ is : ODPacket, (readTrapTypePacket env is).1 = nullTrapType →
      getTrapFromPacket env w is =
        { result := none, world := w, is := (readTrapTypePacket env is).2 }) := by
  constructor
  · intro is h
    unfold getTrapFromStream
    simp only []
    rw [h]
    rfl
  · intro is h
    unfold getTrapFromPacket
    simp only []
    rw [h]
    rfl

/-- C5, evaluated on the demo map: after the null tag the stream still holds the text that
follows the tag, the packet the fields that follow it, and the trace is empty. -/
theorem null_tag_absent_witness :
    (getTrapFromStream demoEnv demoWorld
        { buf := ['0', '\t', '7', '\t', '0', '\n'], failbit := false }).is
      = { buf := ['\t', '7', '\t', '0', '\n'], failbit := false } ∧
    (getTrapFromStream demoEnv demoWorld
        { buf := ['0', '\t', '7', '\t', '0', '\n'], failbit := false }).world.trace = [] ∧
    (getTrapFromPacket demoEnv demoWorld
        { fields := [PacketField.uint32 0, PacketField.string "Cannon_1",
            PacketField.int32 7, PacketField.int32 0], valid := true }).is
      = { fields := [PacketField.string "Cannon_1", PacketField.int32 7,
            PacketField.int32 0], valid := true } ∧
    (getTrapFromPacket demoEnv demoWorld
        { fields := [PacketField.uint32 0, PacketField.string "Cannon_1",
            PacketField.int32 7, PacketField.int32 0], valid := true }).world.trace = [] :=
  have hs := (null_tag_absent demoEnv demoWorld).1
    { buf := ['0', '\t', '7', '\t', '0', '\n'], failbit := false } (by decide)
  have hp := (null_tag_absent demoEnv demoWorld).2
    { fields := [PacketField.uint32 0, PacketField.string "Cannon_1",
        PacketField.int32 7, PacketField.int32 0], valid := true } (by decide)
  ⟨(congrArg (fun d => d.is) hs).trans (by decide),
   congrArg (fun d => d.world.trace) hs,
   (congrArg (fun d => d.is) hp).trans (by decide),
   congrArg (fun d => d.world.trace) hp⟩

end Trap

/-! ## Activation control: claims C9 and C10 -/

namespace Trap

/-- C9 (counterexample): on the demo cannon, which covers the tiles at `23` and `24`,
`activate` and `deactivate` on the uncovered tile at `99` are not no-ops: `99` is not a key
of `mTrapTiles` before the call and is one after it, so the state is not the same. -/
theorem activate_absent_counterexample :
    99 ∉ demoTrap.self.mTrapTiles ∧
      99 ∈ (activate demoEnv demoTrap 99).self.mTrapTiles ∧
      99 ∈ (deactivate demoEnv demoTrap 99).self.mTrapTiles ∧
      activate demoEnv demoTrap 99 ≠ demoTrap ∧ deactivate demoEnv demoTrap 99 ≠ demoTrap := by
  have h0 : 99 ∉ demoTrap.self.mTrapTiles := by decide
  have h1 : 99 ∈ (activate demoEnv demoTrap 99).self.mTrapTiles := by decide
  have h2 : 99 ∈ (deactivate demoEnv demoTrap 99).self.mTrapTiles := by decide
  refine ⟨h0, h1, h2, ?_, ?_⟩
  · intro h
    rw [h] at h1
    exact h0 h1
  · intro h
    rw [h] at h2
    exact h0 h2

/-- C9 (amended): `activate(tile)` and `deactivate(tile)` leave the whole state as it is when
`tile` is the null pointer.  For a tile that is not null and is a key of `mTrapTiles` with
entry `info`, the call changes nothing but `mTrapTiles`, whose key set stays the same, whose
entry of `tile` becomes `info` with the activated flag set (`true` for `activate`, `false`
for `deactivate`), and whose other entries are the same. -/
theorem activate_deactivate_spec (env : Env) (s : State) :
    (activate env s nullptr = s ∧ deactivate env s nullptr = s) ∧
    ∀ (tile : TilePtr) (info : TrapTileInfo), tile ≠ nullptr →
      mapFind s.self.mTrapTiles tile = some info →
      (activate env s tile
          = s.setSelf { s.self with mTrapTiles := (activate env s tile).self.mTrapTiles } ∧
        deactivate env s tile
          = s.setSelf { s.self with mTrapTiles := (deactivate env s tile).self.mTrapTiles }) ∧
      (∀ t, t ∈ (activate env s tile).self.mTrapTiles ↔ t ∈ s.self.mTrapTiles) ∧
      (∀ t, t ∈ (deactivate env s tile).self.mTrapTiles ↔ t ∈ s.self.mTrapTiles) ∧
      mapFind (activate env s tile).self.mTrapTiles tile
        = some { info with mIsActivated := true } ∧
      mapFind (deactivate env s tile).self.mTrapTiles tile
        = some { info with mIsActivated := false } ∧
      ∀ t, t ≠ tile →
        mapFind (activate env s tile).self.mTrapTiles t = mapFind s.self.mTrapTiles t ∧
        mapFind (deactivate env s tile).self.mTrapTiles t = mapFind s.self.mTrapTiles t := by
  refine ⟨⟨by simp [activate], by simp [deactivate]⟩, ?_⟩
  intro tile info hne hfind
  have hmem : tile ∈ s.self.mTrapTiles := mem_of_mapFind_eq_some hfind
  have hat : mapAt env.trapTileInfoDefault s.self.mTrapTiles tile = info := by
    rw [mapAt_eq, hfind]; rfl
  have ha : activate env s tile = s.setSelf { s.self with
      mTrapTiles := mapSet s.self.mTrapTiles tile (info.setActivated true) } := by
    unfold activate
    rw [if_neg hne, hat]
  have hd : deactivate env s tile = s.setSelf { s.self with
      mTrapTiles := mapSet s.self.mTrapTiles tile (info.setActivated false) } := by
    unfold deactivate
    rw [if_neg hne, hat]
  rw [ha, hd]
  refine ⟨⟨rfl, rfl⟩, ?_, ?_, ?_, ?_, ?_⟩
  · intro t
    simp only [State.setSelf, mem_mapSet]
    constructor
    · rintro (h | h)
      · rw [h]; exact hmem
      · exact h
    · intro h; exact Or.inr h
  · intro t
    simp only [State.setSelf, mem_mapSet]
    constructor
    · rintro (h | h)
      · rw [h]; exact hmem
      · exact h
    · intro h; exact Or.inr h
  · simp only [State.setSelf, mapFind_mapSet_same]
    rfl
  · simp only [State.setSelf, mapFind_mapSet_same]
    rfl
  · intro t ht
    simp only [State.setSelf]
    exact ⟨mapFind_mapSet_ne _ _ ht, mapFind_mapSet_ne _ _ ht⟩

/-- C9 (amended), evaluated on the demo cannon and its covered tile at `23`. -/
theorem activate_deactivate_spec_witness :
    mapFind (activate demoEnv demoTrap 23).self.mTrapTiles 23
        = some { mReloadTime := 3, mIsActivated := true } ∧
      mapFind (deactivate demoEnv demoTrap 23).self.mTrapTiles 23
        = some { mReloadTime := 3, mIsActivated := false } :=
  have h := (activate_deactivate_spec demoEnv demoTrap).2 23
    { mReloadTime := 3, mIsActivated := false } (by decide) (by decide)
  ⟨h.2.2.2.1, h.2.2.2.2.1⟩

/-- C10: `isActivated(tile)` is `false` for every tile that is not a key of `mTrapTiles`, the
null tile included, and is the stored activated flag for every tile that is a key.  The
function is `const`: it returns a boolean and no state. -/
theorem isActivated_spec (s : State) (tile : TilePtr) :
    (tile ∉ s.self.mTrapTiles → isActivated s tile = false) ∧
    (∀ info, mapFind s.self.mTrapTiles tile = some info →
      isActivated s tile = info.mIsActivated) := by
  constructor
  · intro h
    unfold isActivated
    rw [(mapFind_eq_none _ _).2 h]
  · intro info h
    unfold isActivated
    rw [h]
    rfl

/-- C10, evaluated on the demo cannon: the null tile and the uncovered tile at `99` are not
activated, and the covered tile at `23` reports its stored flag once it is activated. -/
theorem isActivated_spec_witness :
    isActivated demoTrap nullptr = false ∧ isActivated demoTrap 99 = false ∧
      isActivated (activate demoEnv demoTrap 23) 23 = true :=
  ⟨(isActivated_spec demoTrap nullptr).1 (by decide),
   (isActivated_spec demoTrap 99).1 (by decide),
   (isActivated_spec (activate demoEnv demoTrap 23) 23).2
     { mReloadTime := 3, mIsActivated := true } (by decide)⟩

end Trap

/-! ## The wire formats: claims C12 and C13 -/

theorem decimalInt_eq_toString (i : Int) : String.mk (decimalInt i) = toString i := by
  cases i with
  | ofNat m => rfl
  | negSucc m => rfl

theorem readUInt32_decimalNat_end (n : Nat) (hn : n < 4294967296) (old : Nat) :
    IStream.readUInt32 { buf := decimalNat n, failbit := false } old
      = (n, { buf := [], failbit := false }) := by
  obtain ⟨hall, hval, c, cs, hcs, hc⟩ := decimalNat_spec n
  have hread : readDigits (decimalNat n) 0 = (n, []) := by
    rw [readDigits_all _ _ hall, hval]
  have hdrop : (decimalNat n).dropWhile isSpace = decimalNat n := by
    rw [hcs, List.dropWhile_cons, (isDigit_facts c hc).1]
    rfl
  unfold IStream.readUInt32
  simp only [Bool.false_eq_true, if_false]
  rw [hdrop]
  rw [hcs] at hread ⊢
  simp only []
  unfold IStream.scanNumber
  rw [scanSign_of_digit c _ hc]
  simp only [hc, if_true, hread]
  have : ¬ n > 4294967295 := by omega
  simp [this]

theorem stream_record_assoc (os seat nb body body2 : List Char) (h : body = body2) :
    os ++ (seat ++ '\t' :: (nb ++ '\n' :: body))
      = os ++ (seat ++ ['\t'] ++ nb ++ ['\n'] ++ body2) := by
  subst h
  simp only [List.append_assoc, List.singleton_append, List.cons_append, List.nil_append]

theorem coordText_map (tiles : TilePtr → Tile) (l : List TilePtr) :
    coordText (l.map (tileCoords tiles))
      = (l.map (fun t =>
          decimalInt (tiles t).x ++ ['\t'] ++ decimalInt (tiles t).y ++ ['\n'])).flatten := by
  unfold coordText
  rw [List.map_map]
  congr 1
  apply List.map_congr_left
  intro t _
  simp only [Function.comp, tileCoords, List.append_assoc, List.singleton_append,
    List.cons_append, List.nil_append]

theorem exportToPacket_head (env : Env) (s : State) :
    (Trap.exportToPacket env s (Trap.exportHeadersToPacket s ODPacket.empty)).fields.head?
      = some (PacketField.uint32 (toUInt32 s.self.mType)) := by
  rw [exportToPacket_fields]
  rfl

namespace Trap

/-- C12: the save-stream record is exact.  `exportToStream` appends to the stream the decimal
text of the seat id, a TAB, the decimal text of the tile count (an `int32_t`), a NEWLINE, and
then one line `x TAB y NEWLINE` for each covered tile in covered order, and nothing else; the
count is the number of covered tiles when that is below `2^31`.  `exportHeadersToStream`
appends the type tag as an unsigned decimal and one TAB. -/
theorem exportToStream_exact (env : Env) (s : State) (os : List Char) :
    exportToStream env s os
      = os ++ (decimalInt (env.seatGetId s.self.mSeat) ++ ['\t'] ++
          decimalInt (toInt32 s.self.mCoveredTiles.length) ++ ['\n'] ++
          (s.self.mCoveredTiles.map (fun t =>
            decimalInt (s.tiles t).x ++ ['\t'] ++ decimalInt (s.tiles t).y ++ ['\n'])).flatten) ∧
    (s.self.mCoveredTiles.length < 2147483648 →
      toInt32 s.self.mCoveredTiles.length = s.self.mCoveredTiles.length) ∧
    exportHeadersToStream s os = os ++ (decimalNat (toUInt32 s.self.mType) ++ ['\t']) ∧
    (s.self.mType < 4294967296 → toUInt32 s.self.mType = s.self.mType) :=
  ⟨(exportToStream_text env s os).trans
      (stream_record_assoc _ _ _ _ _ (coordText_map s.tiles s.self.mCoveredTiles)),
    toInt32_of_lt _,
    List.append_assoc _ _ _,
    toUInt32_of_lt _⟩

/-- C12, evaluated on the demo cannon: seat `7`, two tiles, `(2,3)` and `(2,4)`. -/
theorem exportToStream_exact_witness :
    exportToStream demoEnv demoTrap []
        = ['7', '\t', '2', '\n', '2', '\t', '3', '\n', '2', '\t', '4', '\n'] ∧
      toInt32 demoTrap.self.mCoveredTiles.length = demoTrap.self.mCoveredTiles.length ∧
      toUInt32 demoTrap.self.mType = demoTrap.self.mType :=
  have h := exportToStream_exact demoEnv demoTrap []
  ⟨h.1.trans (by decide), h.2.1 (by decide), h.2.2.2 (by decide)⟩

/-- C13: the read and write adapters of `TrapType` are symmetric.  For every tag value `t`
of the 32-bit unsigned range, the packet adapter and the stream adapter write the same
number, the `uint32_t` value of `t`; reading it back with `operator>>` returns `t` on both
channels (for the stream: at the end of the text or before any character that is not a
digit); and the tag is the first field of the packet that `exportHeadersToPacket` and
`exportToPacket` produce. -/
theorem trapType_adapters (env : Env) (t : TrapType) (ht : t < 4294967296) :
    (∀ os, writeTrapTypePacket os t = os.writeUInt32 t) ∧
    (∀ os, writeTrapTypeStream os t = os ++ decimalNat t) ∧
    readTrapTypePacket env (writeTrapTypePacket ODPacket.empty t)
      = (t, { fields := [], valid := true }) ∧
    readTrapTypeStream env { buf := writeTrapTypeStream [] t, failbit := false }
      = (t, { buf := [], failbit := false }) ∧
    (∀ d rest, d.isDigit = false →
      readTrapTypeStream env { buf := writeTrapTypeStream [] t ++ d :: rest, failbit := false }
        = (t, { buf := d :: rest, failbit := false })) ∧
    (∀ (env2 : Env) (s : State), s.self.mType = t →
      (exportToPacket env2 s (exportHeadersToPacket s ODPacket.empty)).fields.head?
        = some (PacketField.uint32 t)) := by
  have htag : toUInt32 (t : Int) = t := toUInt32_of_lt t ht
  have hw : writeTrapTypeStream [] t = decimalNat t := by
    unfold writeTrapTypeStream
    rw [htag]
    rfl
  refine ⟨?_, ?_, ?_, ?_, ?_, ?_⟩
  · intro os
    unfold writeTrapTypePacket
    rw [htag]
  · intro os
    unfold writeTrapTypeStream
    rw [htag]
  · unfold writeTrapTypePacket readTrapTypePacket
    rw [htag]
    rfl
  · unfold readTrapTypeStream
    rw [hw]
    exact readUInt32_decimalNat_end t ht _
  · intro d rest hd
    unfold readTrapTypeStream
    rw [hw]
    exact readUInt32_decimalNat t ht d rest hd _
  · intro env2 s hs
    rw [exportToPacket_head, hs, htag]

/-- C13, evaluated for the tag `boulder`, and for the first field of the packet of the
demo cannon. -/
theorem trapType_adapters_witness :
    readTrapTypePacket demoEnv (writeTrapTypePacket ODPacket.empty boulder)
        = (boulder, { fields := [], valid := true }) ∧
      readTrapTypeStream demoEnv { buf := writeTrapTypeStream [] boulder, failbit := false }
        = (boulder, { buf := [], failbit := false }) ∧
      (exportToPacket demoEnv demoTrap (exportHeadersToPacket demoTrap ODPacket.empty)).fields.head?
        = some (PacketField.uint32 cannon) :=
  have h := trapType_adapters demoEnv boulder (by decide)
  have h2 := trapType_adapters demoEnv cannon (by decide)
  ⟨h.2.2.1, h.2.2.2.1, h2.2.2.2.2.2 demoEnv demoTrap (by decide)⟩

end Trap

/-! ## Render requests: claim C14 -/

namespace Trap

end Trap

/-! ## Removal before firing: claims C15 and C17 -/

theorem mem_shootCalls (evs : List Event) (t : TilePtr) :
    t ∈ shootCalls evs ↔ Event.shoot t ∈ evs := by
  unfold shootCalls
  rw [List.mem_filterMap]
  constructor
  · rintro ⟨e, he, hf⟩
    cases e with
    | shoot tile =>
      simp only [Option.some.injEq] at hf
      rw [← hf]
      exact he
    | _ => cases hf
  · intro h
    exact ⟨Event.shoot t, h, rfl⟩

/-- The events of a call of `doUpkeep`, split at the extinction check: the events of the
removal pass, and the events after it. -/
theorem doUpkeep_events (env : Env) (s : State) :
    ∃ evs after,
      newEvents s.trace (Trap.doUpkeep env s).trace
        = removalEvents env s (s.self.mCoveredTiles.filter (removalCandidate env s))
            ++ evs ++ after ∧
      (∀ e ∈ evs, isRebuildEvent e = true) ∧
      (Trap.doUpkeep env s).self.mCoveredTiles
        = s.self.mCoveredTiles.filter (fun t => !removalCandidate env s t) ∧
      (afterRemoval env s).self.mCoveredTiles
        = s.self.mCoveredTiles.filter (fun t => !removalCandidate env s t) ∧
      ((after = [Event.logMessage ("Removing trap " ++ s.self.mName),
          Event.removeTrap s.self.addr, Event.deleteYourself s.self.addr]) ∨
        (∀ e ∈ after, isFireEvent e = true ∧
          ∀ t, e = Event.shoot t →
            t ∈ s.self.mCoveredTiles.filter (fun t => !removalCandidate env s t))) := by
  obtain ⟨objs, evs, heq, hevs⟩ := afterRemoval_eq env s
  have hcov : (afterRemoval env s).self.mCoveredTiles
      = s.self.mCoveredTiles.filter (fun t => !removalCandidate env s t) := by
    rw [heq]
  rw [doUpkeep_unfold]
  by_cases hz : Building.numCoveredTiles (afterRemoval env s) ≤ 0
  · rw [if_pos hz]
    refine ⟨evs, [Event.logMessage ("Removing trap " ++ s.self.mName),
      Event.removeTrap s.self.addr, Event.deleteYourself s.self.addr], ?_, hevs, ?_, hcov,
      Or.inl rfl⟩
    · rw [heq]
      simp only [State.emit, List.append_assoc, newEvents_append]
      rfl
    · simp only [State.emit]
      exact hcov
  · rw [if_neg hz]
    obtain ⟨m, fevs, hloop, _, _, _, hfe⟩ :=
      fireLoop_rel env (afterRemoval env s).self.mCoveredTiles (afterRemoval env s)
    refine ⟨evs, fevs, ?_, hevs, ?_, hcov, Or.inr ?_⟩
    · rw [hloop, heq]
      simp only [List.append_assoc, newEvents_append]
    · rw [hloop]
      exact hcov
    · intro e he
      have := hfe e he
      rw [hcov] at this
      exact this

namespace Trap

/-- C17: removal is settled before firing.  The events of a call of `doUpkeep()` split in two
parts.  The first part holds no call of `shoot` (and no `playerIsFighting`); the second part
holds no notification and no call of `updateActiveSpots()`: every `removeTrapTile`
notification and the `updateActiveSpots()` call come before the first shot.  And `shoot` is
invoked only for tiles that are covered after the removal pass and at the end of the call,
none of them a removal candidate. -/
theorem doUpkeep_removal_before_fire (env : Env) (s : State) :
    (∃ first second,
      newEvents s.trace (doUpkeep env s).trace = first ++ second ∧
      (∀ e ∈ first, isFireEvent e = false) ∧
      (∀ e ∈ second, (∀ n, e ≠ Event.queueServerNotification n) ∧
        e ≠ Event.updateActiveSpots)) ∧
    ∀ t ∈ shootCalls (newEvents s.trace (doUpkeep env s).trace),
      t ∈ (afterRemoval env s).self.mCoveredTiles ∧
      t ∈ (doUpkeep env s).self.mCoveredTiles ∧
      removalCandidate env s t = false := by
  obtain ⟨evs, after, hev, hevs, hcov, hcov1, hafter⟩ := doUpkeep_events env s
  have hfirst : ∀ e ∈ removalEvents env s (s.self.mCoveredTiles.filter (removalCandidate env s))
      ++ evs, isFireEvent e = false := by
    intro e he
    rcases List.mem_append.1 he with h | h
    · exact (removalEvents_not_fire env s _ e h).1
    · exact (rebuild_not_fire e (hevs e h)).1
  constructor
  · refine ⟨_, after, hev, hfirst, ?_⟩
    intro e he
    rcases hafter with h | h
    · rw [h] at he
      simp only [List.mem_cons, List.mem_singleton, List.not_mem_nil, or_false] at he
      rcases he with rfl | rfl | rfl <;> exact ⟨fun _ h => (nomatch h), fun h => (nomatch h)⟩
    · have hf := (h e he).1
      constructor
      · exact (fire_not_notification e hf).2
      · intro heq
        rw [heq] at hf
        cases hf
  · intro t ht
    rw [mem_shootCalls, hev] at ht
    have hin : Event.shoot t ∈ after := by
      rcases List.mem_append.1 ht with h | h
      · have := hfirst _ h
        cases this
      · exact h
    have hmem : t ∈ s.self.mCoveredTiles.filter (fun t => !removalCandidate env s t) := by
      rcases hafter with h | h
      · rw [h] at hin
        simp at hin
      · exact (h _ hin).2 t rfl
    rw [hcov, hcov1]
    refine ⟨hmem, hmem, ?_⟩
    have := (List.mem_filter.1 hmem).2
    simpa using this

/-- C17, evaluated on the demo cannon with its reload time run down: the tile at `23` is
shot at, it is covered after the call and it was no removal candidate. -/
theorem doUpkeep_removal_before_fire_witness :
    23 ∈ shootCalls (newEvents demoTrapLoaded.trace (doUpkeep demoEnv demoTrapLoaded).trace) ∧
      23 ∈ (doUpkeep demoEnv demoTrapLoaded).self.mCoveredTiles ∧
      removalCandidate demoEnv demoTrapLoaded 23 = false :=
  ⟨by decide,
    ((doUpkeep_removal_before_fire demoEnv demoTrapLoaded).2 23 (by decide)).2⟩

end Trap

/-! ## Active spots: claims C18 and C19 -/

theorem exists_key_not_covered (keys covered : List TilePtr) (hnd : keys.Nodup)
    (hlt : covered.length < keys.length) : ∃ k ∈ keys, k ∉ covered := by
  by_contra h
  push_neg at h
  have hsub : keys ⊆ covered := fun k hk => h k hk
  have := (List.subperm_of_subset hnd hsub).length_le
  omega

theorem activeSpotTilesToRemove_ne_nil (s : State)
    (hmore : s.self.mCoveredTiles.length < mapSize s.self.mBuildingObjects) :
    Trap.activeSpotTilesToRemove s ≠ [] := by
  obtain ⟨k, hk, hnot⟩ := exists_key_not_covered s.self.mBuildingObjects.keys
    s.self.mCoveredTiles s.self.mBuildingObjects.keys_nodup hmore
  intro hnil
  have hmem : k ∈ Trap.activeSpotTilesToRemove s := by
    unfold Trap.activeSpotTilesToRemove mapIterKeys
    rw [List.mem_filter]
    exact ⟨(List.mem_insertionSort _).2 hk, by simpa using hnot⟩
  rw [hnil] at hmem
  cases hmem

theorem activeSpotRemoveStep_trace (s : State) (t : TilePtr) :
    ∃ evs, (Trap.activeSpotRemoveStep s t).trace = s.trace ++ evs ∧
      ∀ e ∈ evs, ∃ obj, e = Event.removeRenderedMovableEntity obj := by
  unfold Trap.activeSpotRemoveStep
  split
  · unfold Trap.notifyActiveSpotRemoved Building.removeBuildingObject
    split
    · exact ⟨[], by simp, by simp⟩
    · rename_i obj _
      exact ⟨[Event.removeRenderedMovableEntity obj], by simp [State.emit, State.setSelf],
        by simp⟩
  · exact ⟨[], by simp, by simp⟩

theorem activeSpotRemoveLoop_trace (l : List TilePtr) (s : State) :
    ∃ evs, (l.foldl Trap.activeSpotRemoveStep s).trace = s.trace ++ evs ∧
      ∀ e ∈ evs, ∃ obj, e = Event.removeRenderedMovableEntity obj := by
  induction l generalizing s with
  | nil => exact ⟨[], by simp, by simp⟩
  | cons a l ih =>
    obtain ⟨e1, h1, hp1⟩ := activeSpotRemoveStep_trace s a
    obtain ⟨e2, h2, hp2⟩ := ih (Trap.activeSpotRemoveStep s a)
    refine ⟨e1 ++ e2, ?_, ?_⟩
    · rw [List.foldl_cons, h2, h1, List.append_assoc]
    · intro e he
      rcases List.mem_append.1 he with h | h
      · exact hp1 e h
      · exact hp2 e h

namespace Trap

/-- C19: on a server map, when `mBuildingObjects` has more entries than there are covered
tiles, the list `tilesToRemove` that `updateActiveSpots()` computes is not empty, and the
call logs no failed assertion. -/
theorem updateActiveSpots_assertion (env : Env) (s : State)
    (hserver : env.gameMap.isServerGameMap = true)
    (hmore : s.self.mCoveredTiles.length < mapSize s.self.mBuildingObjects) :
    activeSpotTilesToRemove (s.emit Event.updateActiveSpots) ≠ [] ∧
    ∀ e ∈ newEvents s.trace (updateActiveSpots env s).trace,
      ∀ msg, e ≠ Event.assertFailed msg := by
  have hne : activeSpotTilesToRemove (s.emit Event.updateActiveSpots) ≠ [] :=
    activeSpotTilesToRemove_ne_nil (s.emit Event.updateActiveSpots) hmore
  refine ⟨hne, ?_⟩
  have hempty : (activeSpotTilesToRemove (s.emit Event.updateActiveSpots)).isEmpty = false := by
    cases h : activeSpotTilesToRemove (s.emit Event.updateActiveSpots) with
    | nil => exact absurd h hne
    | cons a l => rfl
  have hnot : ¬ ((s.emit Event.updateActiveSpots).self.mCoveredTiles.length
      > mapSize (s.emit Event.updateActiveSpots).self.mBuildingObjects) := by
    simp only [State.emit]
    omega
  have hlt : (s.emit Event.updateActiveSpots).self.mCoveredTiles.length
      < mapSize (s.emit Event.updateActiveSpots).self.mBuildingObjects := hmore
  obtain ⟨evs, htr, hevs⟩ := activeSpotRemoveLoop_trace
    (activeSpotTilesToRemove (s.emit Event.updateActiveSpots)) (s.emit Event.updateActiveSpots)
  have hrun : updateActiveSpots env s
      = (activeSpotTilesToRemove (s.emit Event.updateActiveSpots)).foldl activeSpotRemoveStep
          (s.emit Event.updateActiveSpots) := by
    unfold updateActiveSpots
    simp only [hserver, Bool.not_true, Bool.false_eq_true, if_false, if_neg hnot, if_pos hlt,
      hempty]
  rw [hrun, htr]
  simp only [State.emit, List.append_assoc, newEvents_append]
  intro e he msg
  rcases List.mem_cons.1 he with h | h
  · rw [h]
    exact fun h => nomatch h
  · obtain ⟨obj, ho⟩ := hevs e h
    rw [ho]
    exact fun h => nomatch h

/-- C19, evaluated on the demo cannon that lost the tile at `24` and still has two objects:
the list `tilesToRemove` is not empty and no assertion fails. -/
theorem updateActiveSpots_assertion_witness :
    activeSpotTilesToRemove (demoTrapShrunk.emit Event.updateActiveSpots) ≠ [] ∧
    ∀ e ∈ newEvents demoTrapShrunk.trace (updateActiveSpots demoSpotEnv demoTrapShrunk).trace,
      ∀ msg, e ≠ Event.assertFailed msg :=
  updateActiveSpots_assertion demoSpotEnv demoTrapShrunk (by decide) (by decide)

end Trap

/-! ## Unresolved references on import: claim C11 -/

theorem importTile_null (env : Env) (s : State) (x y : Int)
    (h : env.gameMap.getTile x y = nullptr) :
    Trap.importTile env s x y = s.emit (tileAssertion (x, y)) := by
  unfold Trap.importTile
  simp [h, odAssertTrue, tileAssertion]

theorem importTiles_any (env : Env) (cs : List (Int × Int)) : ∀ (s : State),
    (importTiles env s cs).self.mSeat = s.self.mSeat ∧
    (importTiles env s cs).self.mName = s.self.mName ∧
    (importTiles env s cs).self.mCoveredTiles
      = s.self.mCoveredTiles
        ++ (cs.map (fun c => env.gameMap.getTile c.1 c.2)).filter (fun t => decide (t ≠ nullptr)) ∧
    (importTiles env s cs).trace
      = s.trace ++ (cs.filter (fun c => decide (env.gameMap.getTile c.1 c.2 = nullptr))).map
          tileAssertion := by
  induction cs with
  | nil => intro s; simp [importTiles]
  | cons c cs ih =>
    intro s
    have h2 := ih (Trap.importTile env s c.1 c.2)
    unfold importTiles at h2 ⊢
    rw [List.foldl_cons]
    by_cases h : env.gameMap.getTile c.1 c.2 = nullptr
    · rw [importTile_null env s c.1 c.2 h] at h2 ⊢
      obtain ⟨a1, a2, a3, a4⟩ := h2
      refine ⟨a1, a2, ?_, ?_⟩
      · rw [a3]
        simp [State.emit, h]
      · rw [a4]
        simp [State.emit, h]
    · obtain ⟨b1, b2, b3, b4, _⟩ := importTile_spec env s c.1 c.2 h
      obtain ⟨a1, a2, a3, a4⟩ := h2
      refine ⟨a1.trans b3, a2.trans b2, ?_, ?_⟩
      · rw [a3, b1]
        simp [h]
      · rw [a4, b4]
        simp [h]

theorem importFromPacket_loop_any (env : Env) (cs : List (Int × Int))
    (rest : List PacketField) : ∀ (s : State) (tx ty : Int),
      ((Trap.importFromPacketStep env)^[cs.length]
          { s := s, is := { fields := coordFields cs ++ rest, valid := true },
            tempX := tx, tempY := ty }).s = importTiles env s cs ∧
      ((Trap.importFromPacketStep env)^[cs.length]
          { s := s, is := { fields := coordFields cs ++ rest, valid := true },
            tempX := tx, tempY := ty }).is = { fields := rest, valid := true } := by
  induction cs with
  | nil => intro s tx ty; simp [coordFields, importTiles]
  | cons c cs ih =>
    intro s tx ty
    have hstep : Trap.importFromPacketStep env
        { s := s, is := { fields := coordFields (c :: cs) ++ rest, valid := true },
          tempX := tx, tempY := ty }
        = { s := Trap.importTile env s c.1 c.2,
            is := { fields := coordFields cs ++ rest, valid := true },
            tempX := c.1, tempY := c.2 } := by
      simp [Trap.importFromPacketStep, coordFields, ODPacket.readInt, odAssertTrue]
    rw [List.length_cons, Function.iterate_succ_apply, hstep]
    have h2 := ih (Trap.importTile env s c.1 c.2) c.1 c.2
    rw [h2.1, h2.2]
    exact ⟨rfl, rfl⟩

theorem importFromPacket_any (env : Env) (s : State) (name : String) (sid : Int)
    (cs : List (Int × Int)) (rest : List PacketField) :
    Trap.importFromPacket env s
        { fields := PacketField.string name :: PacketField.int32 sid ::
            PacketField.int32 (cs.length : Int) :: (coordFields cs ++ rest), valid := true }
      = (importTiles env
          (s.setSelf { s.self with mName := name, mSeat := env.gameMap.getSeatById sid }) cs,
         { fields := rest, valid := true }) := by
  unfold Trap.importFromPacket
  simp only [ODPacket.readString, ODPacket.readInt, odAssertTrue, if_true, Int.toNat_ofNat]
  have hl := importFromPacket_loop_any env cs rest
    (State.setSelf (s.setSelf { s.self with mName := name })
      { (s.setSelf { s.self with mName := name }).self with
        mSeat := env.gameMap.getSeatById sid })
    env.uninitialised env.uninitialised
  rw [hl.1, hl.2]
  rfl

namespace Trap

/-- C11 as stated does not hold.  On the demo map, which has seat `7` only and no tile at
`(5,5)`, the import of a record with seat id `9` and the pairs `(5,5)`, `(2,3)` is not
aborted: `getTrapFromPacket` and `getTrapFromStream` return a trap, its seat is the null
pointer, the pair `(2,3)` after the unresolved pair was imported, and the only thing logged
besides the construction is the assertion for `(5,5)`. -/
theorem import_unresolved_counterexample :
    demoMap.getSeatById 9 = nullptr ∧ demoMap.getTile 5 5 = nullptr ∧
    ((getTrapFromPacket demoEnv demoWorld
        { fields := [PacketField.uint32 1, PacketField.string "T", PacketField.int32 9,
            PacketField.int32 2, PacketField.int32 5, PacketField.int32 5,
            PacketField.int32 2, PacketField.int32 3], valid := true }).result.map
        (fun t => (t.mSeat, t.mCoveredTiles))) = some (nullptr, [23]) ∧
    (getTrapFromPacket demoEnv demoWorld
        { fields := [PacketField.uint32 1, PacketField.string "T", PacketField.int32 9,
            PacketField.int32 2, PacketField.int32 5, PacketField.int32 5,
            PacketField.int32 2, PacketField.int32 3], valid := true }).world.trace
      = [Event.newTrap cannon, Event.assertFailed "tile=5,5"] ∧
    ((getTrapFromStream demoEnv demoWorld
        { buf := "1\t9\t2\n5\t5\n2\t3\n".toList, failbit := false }).result.map
        (fun t => (t.mSeat, t.mCoveredTiles))) = some (nullptr, [23]) ∧
    (getTrapFromStream demoEnv demoWorld
        { buf := "1\t9\t2\n5\t5\n2\t3\n".toList, failbit := false }).world.trace
      = [Event.newTrap cannon, Event.assertFailed "tile=5,5"] := by
  decide

/-- C11, amended: field import does not fail fast.  `importFromPacket` and `importFromStream`
read the whole record - the name (packet only), the seat id, the count and every coordinate
pair - and leave the state `importTiles`, that of lines 411-417 run for every pair, with the
seat set to the result of `getSeatById`, unchecked.  In that state the covered tiles are
the former ones followed by the tiles of the pairs that resolve, in order, and what was
logged is one assertion `tile=x,y` for each pair that does not resolve; nothing is logged
for the seat. -/
theorem import_unresolved (env : Env) (s : State) (name : String) (sid : Int)
    (cs : List (Int × Int)) (rest : List PacketField)
    (hsid : isInt32 sid) (hlen : cs.length < 2147483648)
    (h : ∀ c ∈ cs, isInt32 c.1 ∧ isInt32 c.2) :
    importFromPacket env s
        { fields := PacketField.string name :: PacketField.int32 sid ::
            PacketField.int32 (cs.length : Int) :: (coordFields cs ++ rest), valid := true }
      = (importTiles env
          (s.setSelf { s.self with mName := name, mSeat := env.gameMap.getSeatById sid }) cs,
         { fields := rest, valid := true }) ∧
    importFromStream env s
        { buf := '\t' :: (decimalInt sid ++ '\t' ::
            (decimalInt (cs.length : Int) ++ '\n' :: coordText cs)), failbit := false }
      = (importTiles env (s.setSelf { s.self with mSeat := env.gameMap.getSeatById sid }) cs,
         { buf := ['\n'], failbit := false }) ∧
    ∀ s1 : State,
      (importTiles env s1 cs).self.mSeat = s1.self.mSeat ∧
      (importTiles env s1 cs).self.mCoveredTiles
        = s1.self.mCoveredTiles ++
          (cs.map (fun c => env.gameMap.getTile c.1 c.2)).filter (fun t => decide (t ≠ nullptr)) ∧
      newEvents s1.trace (importTiles env s1 cs).trace
        = (cs.filter (fun c => decide (env.gameMap.getTile c.1 c.2 = nullptr))).map
            tileAssertion := by
  refine ⟨importFromPacket_any env s name sid cs rest,
    importFromStream_text env s sid cs hsid hlen h, ?_⟩
  intro s1
  obtain ⟨a1, _, a3, a4⟩ := importTiles_any env cs s1
  refine ⟨a1, a3, ?_⟩
  rw [a4, newEvents_append]

/-- C11, amended, evaluated on the demo map for seat id `9` and the pairs `(5,5)`, `(2,3)`:
the import from a packet yields a trap with the null seat that covers the tile at `23`. -/
theorem import_unresolved_witness :
    (importFromPacket demoEnv demoBlankTrap
        { fields := [PacketField.string "T", PacketField.int32 9, PacketField.int32 2,
            PacketField.int32 5, PacketField.int32 5, PacketField.int32 2,
            PacketField.int32 3], valid := true }).1
      = importTiles demoEnv
          (demoBlankTrap.setSelf { demoBlankTrap.self with mName := "T", mSeat := 0 })
          [(5, 5), (2, 3)] ∧
    (importTiles demoEnv
        (demoBlankTrap.setSelf { demoBlankTrap.self with mName := "T", mSeat := 0 })
        [(5, 5), (2, 3)]).self.mCoveredTiles = [23] :=
  ⟨congrArg Prod.fst
      (import_unresolved demoEnv demoBlankTrap "T" 9 [(5, 5), (2, 3)] []
        (by unfold isInt32; decide) (by decide)
        (by unfold isInt32; decide)).1,
    ((import_unresolved demoEnv demoBlankTrap "T" 9 [(5, 5), (2, 3)] []
        (by unfold isInt32; decide) (by decide)
        (by unfold isInt32; decide)).2.2 _).2.1⟩

end Trap

/-! ## The fire step and the reload period: claims C16 and C20 -/

theorem takeWhile_ne_append (l1 l2 : List TilePtr) (t : TilePtr) (h : t ∉ l1) :
    (l1 ++ t :: l2).takeWhile (fun x => decide (x ≠ t)) = l1 := by
  induction l1 with
  | nil => simp
  | cons a l ih =>
    have ha : a ≠ t := fun e => h (by simp [e])
    have hl : t ∉ l := fun e => h (by simp [e])
    rw [List.cons_append, List.takeWhile_cons, decide_eq_true ha, if_pos rfl, ih hl]

theorem hookState_spec (env : Env) (s : State) (tile : TilePtr) (a : Bool)
    (hentry : mapFind s.self.mTrapTiles tile = some { mReloadTime := 0, mIsActivated := a }) :
    Trap.fireStep env s tile = Trap.shootStep env (hookState env s tile) tile ∧
    (hookState env s tile).trace = s.trace ∧
    (hookState env s tile).self.mReloadTime = s.self.mReloadTime ∧
    (hookState env s tile).self.mSeat = s.self.mSeat ∧
    ∃ a2, mapFind (hookState env s tile).self.mTrapTiles tile
        = some { mReloadTime := 0, mIsActivated := a2 } ∧
      (tile ≠ nullptr → a2 = true) := by
  have hmem : tile ∈ s.self.mTrapTiles := mem_of_mapFind_eq_some hentry
  have htouch : mapTouch env.trapTileInfoDefault s.self.mTrapTiles tile = s.self.mTrapTiles := by
    unfold mapTouch
    rw [if_pos hmem]
  have hat : mapAt env.trapTileInfoDefault s.self.mTrapTiles tile
      = { mReloadTime := 0, mIsActivated := a } := by
    rw [mapAt_eq, hentry]; rfl
  have hs : s.setSelf { s.self with mTrapTiles := s.self.mTrapTiles } = s := rfl
  refine ⟨?_, ?_, ?_, ?_, ?_⟩
  · unfold Trap.fireStep hookState
    simp only [State.setSelf, htouch, hat, TrapTileInfo.getReloadTime, gt_iff_lt,
      lt_irrefl, if_false]
  · unfold hookState
    simp only [State.setSelf, htouch, hat]
    split
    · unfold Trap.activate
      split <;> rfl
    · rfl
  · unfold hookState
    simp only [State.setSelf, htouch, hat]
    split
    · unfold Trap.activate
      split <;> rfl
    · rfl
  · unfold hookState
    simp only [State.setSelf, htouch, hat]
    split
    · unfold Trap.activate
      split <;> rfl
    · rfl
  · unfold hookState
    simp only [State.setSelf, htouch, hat, TrapTileInfo.isActivated]
    cases a with
    | true =>
      refine ⟨true, ?_, fun _ => rfl⟩
      simp only [Bool.not_true, Bool.false_eq_true, if_false]
      exact hentry
    | false =>
      simp only [Bool.not_false, if_true]
      unfold Trap.activate
      by_cases h0 : tile = nullptr
      · refine ⟨false, ?_, fun h => absurd h0 h⟩
        rw [if_pos h0]
        exact hentry
      · refine ⟨true, ?_, fun _ => rfl⟩
        rw [if_neg h0]
        simp only [State.setSelf, hat, TrapTileInfo.setActivated]
        exact mapFind_mapSet_same _ _ _

theorem shootStep_spec (env : Env) (s : State) (tile : TilePtr) (a : Bool)
    (hentry : mapFind s.self.mTrapTiles tile = some { mReloadTime := 0, mIsActivated := a }) :
    (Trap.shootStep env s tile).trace = s.trace ++ Event.shoot tile ::
      (if (env.shoot s tile).triggered && env.gameMap.isServerGameMap then
        [Event.playerIsFighting (env.gameMap.getPlayerBySeat s.self.mSeat)] else []) ∧
    ∃ a2, mapFind (Trap.shootStep env s tile).self.mTrapTiles tile
        = some { mReloadTime := if (env.shoot s tile).triggered then s.self.mReloadTime else 0,
                 mIsActivated := a2 } ∧
      (tile ≠ nullptr → a2 = (a && !(env.shoot s tile).deactivates)) := by
  have hat : mapAt env.trapTileInfoDefault s.self.mTrapTiles tile
      = { mReloadTime := 0, mIsActivated := a } := by
    rw [mapAt_eq, hentry]; rfl
  unfold Trap.shootStep
  generalize env.shoot s tile = res
  rcases res with ⟨trig, deact⟩
  by_cases h0 : tile = nullptr
  · subst h0
    cases trig <;> cases deact <;> cases hsv : env.gameMap.isServerGameMap <;>
      simp [hsv, State.emit, State.setSelf, Trap.deactivate, hat, hentry,
        TrapTileInfo.setReloadTime, TrapTileInfo.setActivated, mapFind_mapSet_same]
  · cases trig <;> cases deact <;> cases hsv : env.gameMap.isServerGameMap <;>
      simp [hsv, h0, State.emit, State.setSelf, Trap.deactivate, hat, hentry,
        TrapTileInfo.setReloadTime, TrapTileInfo.setActivated, mapFind_mapSet_same, mapAt_eq]

theorem shootStep_trace (env : Env) (s : State) (tile : TilePtr) :
    (Trap.shootStep env s tile).trace = s.trace ++ Event.shoot tile ::
      (if (env.shoot s tile).triggered && env.gameMap.isServerGameMap then
        [Event.playerIsFighting (env.gameMap.getPlayerBySeat s.self.mSeat)] else []) := by
  unfold Trap.shootStep
  generalize env.shoot s tile = res
  rcases res with ⟨trig, deact⟩
  by_cases h0 : tile = nullptr <;>
    cases trig <;> cases deact <;> cases hsv : env.gameMap.isServerGameMap <;>
      simp [h0, State.emit, State.setSelf, Trap.deactivate]

theorem fireStep_trace_head (env : Env) (s : State) (tile : TilePtr) :
    ∃ evs, (Trap.fireStep env s tile).trace = s.trace ++ evs ∧
      ∀ p, evs.head? ≠ some (Event.playerIsFighting p) := by
  unfold Trap.fireStep
  simp only []
  split
  · exact ⟨[], by simp [State.setSelf], fun p h => (nomatch h)⟩
  · rw [shootStep_trace]
    have htr : ∀ (b : Bool) (s1 : State), (if b = true then Trap.activate env s1 tile
        else s1).trace = s1.trace := by
      intro b s1
      split
      · unfold Trap.activate
        split <;> rfl
      · rfl
    rw [htr]
    refine ⟨_, rfl, ?_⟩
    intro p h
    simp only [List.head?_cons, Option.some.injEq] at h
    cases h

theorem fireLoop_head (env : Env) (l : List TilePtr) (s : State) :
    ∃ evs, (l.foldl (Trap.fireStep env) s).trace = s.trace ++ evs ∧
      ∀ p, evs.head? ≠ some (Event.playerIsFighting p) := by
  induction l generalizing s with
  | nil => exact ⟨[], by simp, fun p h => (nomatch h)⟩
  | cons x l ih =>
    obtain ⟨e1, h1, p1⟩ := fireStep_trace_head env s x
    obtain ⟨e2, h2, p2⟩ := ih (Trap.fireStep env s x)
    refine ⟨e1 ++ e2, by rw [List.foldl_cons, h2, h1, List.append_assoc], ?_⟩
    intro p
    cases e1 with
    | nil => exact p2 p
    | cons y ys => exact p1 p

theorem fireLoop_shot (env : Env) (l : List TilePtr) (s : State) (t : TilePtr) (a : Bool)
    (hone : l.count t = 1)
    (hentry : mapFind s.self.mTrapTiles t = some { mReloadTime := 0, mIsActivated := a })
    (pre : State)
    (hpre : pre = (l.takeWhile (fun x => decide (x ≠ t))).foldl (Trap.fireStep env) s) :
    ∃ before after,
      pre.trace = s.trace ++ before ∧
      (l.foldl (Trap.fireStep env) s).trace = (Trap.fireStep env pre t).trace ++ after ∧
      (∀ e ∈ before, e ≠ Event.shoot t) ∧
      ((∀ e ∈ after, e ≠ Event.shoot t) ∧ ∀ p, after.head? ≠ some (Event.playerIsFighting p)) ∧
      mapFind pre.self.mTrapTiles t = some { mReloadTime := 0, mIsActivated := a } ∧
      mapFind (l.foldl (Trap.fireStep env) s).self.mTrapTiles t
        = mapFind (Trap.fireStep env pre t).self.mTrapTiles t ∧
      pre.self.mReloadTime = s.self.mReloadTime ∧ pre.self.mSeat = s.self.mSeat := by
  obtain ⟨l1, l2, rfl, hnd1, hnd2⟩ := split_once l t hone
  rw [takeWhile_ne_append l1 l2 t hnd1] at hpre
  rw [List.foldl_append, List.foldl_cons, ← hpre]
  obtain ⟨m1, e1, h1, _, _, hd1, he1⟩ := fireLoop_rel env l1 s
  rw [← hpre] at h1
  obtain ⟨m2, e2, h2, _, _, hd2, he2⟩ := fireLoop_rel env l2 (Trap.fireStep env pre t)
  refine ⟨e1, e2, by rw [h1], by rw [h2], ?_, ?_, ?_, ?_, by rw [h1], by rw [h1]⟩
  · intro e he heq
    exact hnd1 ((he1 e he).2 t heq)
  · refine ⟨fun e he heq => hnd2 ((he2 e he).2 t heq), ?_⟩
    obtain ⟨e3, h3, p3⟩ := fireLoop_head env l2 (Trap.fireStep env pre t)
    have hsame : e2 = e3 := by
      have h2t : (l2.foldl (Trap.fireStep env) (Trap.fireStep env pre t)).trace
          = (Trap.fireStep env pre t).trace ++ e2 := by rw [h2]
      exact List.append_cancel_left (h2t.symm.trans h3)
    rw [hsame]
    exact p3
  · rw [h1]
    simp only []
    rw [hd1 t hnd1]
    exact hentry
  · rw [h2]
    simp only []
    exact hd2 t hnd2

theorem doUpkeep_keeps (env : Env) (s : State) (t : TilePtr)
    (hone : s.self.mCoveredTiles.count t = 1) (ht : t ∈ s.self.mCoveredTiles)
    (hnc : removalCandidate env s t = false) :
    (Trap.doUpkeep env s).self.mCoveredTiles.count t = 1 ∧
    t ∈ (Trap.doUpkeep env s).self.mCoveredTiles ∧
    removalCandidate env (Trap.doUpkeep env s) t = false ∧
    (Trap.doUpkeep env s).self.mReloadTime = s.self.mReloadTime ∧
    t ∈ (afterRemoval env s).self.mCoveredTiles := by
  obtain ⟨objs, evs, heq, hevs⟩ := afterRemoval_eq env s
  have hsurv : t ∈ (afterRemoval env s).self.mCoveredTiles := by
    rw [heq]
    exact List.mem_filter.2 ⟨ht, by simp [hnc]⟩
  have hnotL : t ∉ s.self.mCoveredTiles.filter (removalCandidate env s) := by
    intro h
    have := (List.mem_filter.1 h).2
    rw [hnc] at this
    cases this
  have hdo := doUpkeep_unfold env s
  have hpos : ¬ Building.numCoveredTiles (afterRemoval env s) ≤ 0 := by
    intro h
    have hnil : (afterRemoval env s).self.mCoveredTiles = [] :=
      List.eq_nil_of_length_eq_zero (Nat.le_zero.1 h)
    rw [hnil] at hsurv
    cases hsurv
  rw [if_neg hpos] at hdo
  obtain ⟨m, fevs, hloop, _⟩ :=
    fireLoop_rel env (afterRemoval env s).self.mCoveredTiles (afterRemoval env s)
  rw [hloop] at hdo
  have hcov : (Trap.doUpkeep env s).self.mCoveredTiles
      = s.self.mCoveredTiles.filter (fun t => !removalCandidate env s t) := by
    rw [hdo, heq]
  refine ⟨?_, ?_, ?_, ?_, hsurv⟩
  · rw [hcov, count_filter_not _ _ _ hnc]
    exact hone
  · rw [hcov]
    exact List.mem_filter.2 ⟨ht, by simp [hnc]⟩
  · have hclaim : Trap.claimedByEnemy env (Trap.doUpkeep env s) t
        = Trap.claimedByEnemy env s t := by
      rw [hdo, heq]
      unfold Trap.claimedByEnemy
      simp only []
      rw [(clearCovering_x _ s.tiles t).2.2.1, (clearCovering_x _ s.tiles t).2.2.2]
    have hhp : mapAt 0 (Trap.doUpkeep env s).self.mTileHP t = mapAt 0 s.self.mTileHP t := by
      rw [hdo, heq]
      simp only []
      rw [mapAt_eq, mapFind_eraseAll_of_not_mem _ _ hnotL, ← mapAt_eq, mapAt_scanHP]
    unfold removalCandidate at hnc ⊢
    rw [hclaim, hhp]
    exact hnc
  · rw [hdo, heq]

theorem doUpkeep_shot (env : Env) (s : State) (t : TilePtr) (a : Bool)
    (hone : s.self.mCoveredTiles.count t = 1)
    (hsurv : t ∈ (afterRemoval env s).self.mCoveredTiles)
    (hentry : mapFind s.self.mTrapTiles t = some { mReloadTime := 0, mIsActivated := a }) :
    ∃ before after a2,
      (fireLoopBefore env s t).trace = s.trace ++ before ∧
      (Trap.doUpkeep env s).trace = (fireLoopBefore env s t).trace ++ Event.shoot t ::
        (if (shotResult env s t).triggered && env.gameMap.isServerGameMap then
          [Event.playerIsFighting (env.gameMap.getPlayerBySeat s.self.mSeat)] else []) ++ after ∧
      (∀ e ∈ before, e ≠ Event.shoot t) ∧
      ((∀ e ∈ after, e ≠ Event.shoot t) ∧ ∀ p, after.head? ≠ some (Event.playerIsFighting p)) ∧
      mapFind (Trap.doUpkeep env s).self.mTrapTiles t
        = some { mReloadTime := if (shotResult env s t).triggered then s.self.mReloadTime else 0,
                 mIsActivated := a2 } ∧
      (t ≠ nullptr → Trap.isActivated (hookState env (fireLoopBefore env s t) t) t = true ∧
        a2 = !(shotResult env s t).deactivates) := by
  obtain ⟨objs, evs, heq, hevs⟩ := afterRemoval_eq env s
  have hdo := doUpkeep_unfold env s
  have hpos : ¬ Building.numCoveredTiles (afterRemoval env s) ≤ 0 := by
    intro h
    have hnil : (afterRemoval env s).self.mCoveredTiles = [] :=
      List.eq_nil_of_length_eq_zero (Nat.le_zero.1 h)
    rw [hnil] at hsurv
    cases hsurv
  rw [if_neg hpos] at hdo
  have hsurv2 := hsurv
  rw [heq] at hsurv2
  simp only [List.mem_filter] at hsurv2
  have hnotL : t ∉ s.self.mCoveredTiles.filter (removalCandidate env s) := by
    intro h
    have := (List.mem_filter.1 h).2
    rw [this] at hsurv2
    exact absurd hsurv2.2 (by decide)
  have hentry1 : mapFind (afterRemoval env s).self.mTrapTiles t
      = some { mReloadTime := 0, mIsActivated := a } := by
    rw [heq]
    simp only []
    rw [mapFind_eraseAll_of_not_mem _ _ hnotL]
    exact hentry
  have hnd1 : (afterRemoval env s).self.mCoveredTiles.count t = 1 := by
    rw [heq]
    simp only []
    rw [count_filter_not _ _ _ (by simpa using hsurv2.2)]
    exact hone
  obtain ⟨before, after, hb, hafter, hbne, hane, hpe, hfin, hrl, hseat⟩ :=
    fireLoop_shot env _ (afterRemoval env s) t a hnd1 hentry1 (fireLoopBefore env s t) rfl
  have hAr : (afterRemoval env s).self.mReloadTime = s.self.mReloadTime := by rw [heq]
  have hAs : (afterRemoval env s).self.mSeat = s.self.mSeat := by rw [heq]
  have hAt : (afterRemoval env s).trace = s.trace ++
      (removalEvents env s (s.self.mCoveredTiles.filter (removalCandidate env s)) ++ evs) := by
    rw [heq, List.append_assoc]
  obtain ⟨hfs, htr, hhr, hhs, a1, hh1, hact⟩ := hookState_spec env (fireLoopBefore env s t) t a hpe
  obtain ⟨hstr, a2, hsent, ha2⟩ :=
    shootStep_spec env (hookState env (fireLoopBefore env s t) t) t a1 hh1
  refine ⟨removalEvents env s (s.self.mCoveredTiles.filter (removalCandidate env s)) ++ evs
    ++ before, after, a2, ?_, ?_, ?_, hane, ?_, ?_⟩
  · rw [hb, hAt]
    simp only [List.append_assoc]
  · rw [hdo, hafter, hfs, hstr, htr, hhs, hseat, hAs]
    rfl
  · intro e he
    rcases List.mem_append.1 he with h | h
    · rcases List.mem_append.1 h with h2 | h2
      · rcases removalEvents_kind env s _ e h2 with ⟨n, rfl⟩ | ⟨q, rfl⟩ <;>
          exact fun h => (nomatch h)
      · intro heq2
        have := (rebuild_not_fire e (hevs e h2)).1
        rw [heq2] at this
        cases this
    · exact hbne e h
  · rw [hdo, hfin, hfs, hsent, hhr, hrl, hAr]
    rfl
  · intro h0
    have h1 := hact h0
    have h2 := ha2 h0
    subst h1
    refine ⟨?_, by simpa using h2⟩
    unfold Trap.isActivated
    rw [hh1]
    rfl

theorem doUpkeep_reload_step (env : Env) (s : State) (t : TilePtr) (r : Nat) (a : Bool)
    (hone : s.self.mCoveredTiles.count t = 1)
    (hsurv : t ∈ (afterRemoval env s).self.mCoveredTiles)
    (hentry : mapFind s.self.mTrapTiles t = some { mReloadTime := r, mIsActivated := a })
    (hr : 0 < r) :
    mapFind (Trap.doUpkeep env s).self.mTrapTiles t
        = some { mReloadTime := r - 1, mIsActivated := a } ∧
      t ∉ shootCalls (newEvents s.trace (Trap.doUpkeep env s).trace) := by
  obtain ⟨objs, evs, heq, hevs⟩ := afterRemoval_eq env s
  have hdo := doUpkeep_unfold env s
  have hpos : ¬ Building.numCoveredTiles (afterRemoval env s) ≤ 0 := by
    intro h
    have hnil : (afterRemoval env s).self.mCoveredTiles = [] :=
      List.eq_nil_of_length_eq_zero (Nat.le_zero.1 h)
    rw [hnil] at hsurv
    cases hsurv
  rw [if_neg hpos] at hdo
  have hsurv' := hsurv
  rw [heq] at hsurv'
  simp only [List.mem_filter] at hsurv'
  have hnotL : t ∉ s.self.mCoveredTiles.filter (removalCandidate env s) := by
    intro h
    have := (List.mem_filter.1 h).2
    rw [this] at hsurv'
    exact absurd hsurv'.2 (by decide)
  have hentry1 : mapFind (afterRemoval env s).self.mTrapTiles t
      = some { mReloadTime := r, mIsActivated := a } := by
    rw [heq]
    simp only []
    rw [mapFind_eraseAll_of_not_mem _ _ hnotL]
    exact hentry
  have hnd1 : (afterRemoval env s).self.mCoveredTiles.count t = 1 := by
    rw [heq]
    simp only []
    rw [count_filter_not _ _ _ (by simpa using hsurv'.2)]
    exact hone
  obtain ⟨m, fevs, hloop, hm, hfe⟩ := fireLoop_reloading env _ (afterRemoval env s) t
    { mReloadTime := r, mIsActivated := a } hnd1 hentry1 hr
  rw [hdo, hloop]
  refine ⟨hm, ?_⟩
  simp only []
  rw [heq]
  simp only [List.append_assoc, newEvents_append]
  apply not_mem_shootCalls
  intro e he
  rcases List.mem_append.1 he with h | h
  · rcases removalEvents_kind env s _ e h with ⟨n, rfl⟩ | ⟨q, rfl⟩ <;> exact fun h => nomatch h
  · rcases List.mem_append.1 h with h' | h'
    · intro hs
      have := (rebuild_not_fire e (hevs e h')).1
      rw [hs] at this
      cases this
    · exact (hfe e h').2

theorem shootCalls_append (xs ys : List Event) :
    shootCalls (xs ++ ys) = shootCalls xs ++ shootCalls ys := by
  unfold shootCalls
  exact List.filterMap_append _ _ _

theorem shootCalls_eq_nil (evs : List Event) (h : ∀ e ∈ evs, ∀ t, e ≠ Event.shoot t) :
    shootCalls evs = [] := by
  unfold shootCalls
  rw [List.filterMap_eq_nil_iff]
  intro e he
  cases e with
  | shoot tile => exact absurd rfl (h _ he tile)
  | _ => rfl

theorem count_shootCalls_zero (evs : List Event) (t : TilePtr)
    (h : ∀ e ∈ evs, e ≠ Event.shoot t) : (shootCalls evs).count t = 0 :=
  List.count_eq_zero.2 (not_mem_shootCalls evs t h)

theorem shootCalls_round (t : TilePtr) (b : Bool) (p : PlayerPtr) :
    shootCalls (Event.shoot t :: (if b then [Event.playerIsFighting p] else [])) = [t] := by
  cases b <;> rfl

theorem iterate_doUpkeep_succ (env : Env) (k : Nat) (s : State) :
    (Trap.doUpkeep env)^[k + 1] s = (Trap.doUpkeep env)^[k] (Trap.doUpkeep env s) :=
  Function.iterate_succ_apply _ _ _

theorem reload_countdown (env : Env) (t : TilePtr) : ∀ (r : Nat) (s : State) (a : Bool),
    s.self.mCoveredTiles.count t = 1 → t ∈ s.self.mCoveredTiles →
    removalCandidate env s t = false →
    mapFind s.self.mTrapTiles t = some { mReloadTime := r, mIsActivated := a } →
    (∀ k, k < r → t ∉ shootCalls (newEvents ((Trap.doUpkeep env)^[k] s).trace
      ((Trap.doUpkeep env)^[k + 1] s).trace)) ∧
    ((Trap.doUpkeep env)^[r] s).self.mCoveredTiles.count t = 1 ∧
    t ∈ ((Trap.doUpkeep env)^[r] s).self.mCoveredTiles ∧
    removalCandidate env ((Trap.doUpkeep env)^[r] s) t = false ∧
    ((Trap.doUpkeep env)^[r] s).self.mReloadTime = s.self.mReloadTime ∧
    mapFind ((Trap.doUpkeep env)^[r] s).self.mTrapTiles t
      = some { mReloadTime := 0, mIsActivated := a } := by
  intro r
  induction r with
  | zero =>
    intro s a hnd ht hnc hentry
    exact ⟨fun k hk => absurd hk (Nat.not_lt_zero k), hnd, ht, hnc, rfl, hentry⟩
  | succ r ih =>
    intro s a hnd ht hnc hentry
    obtain ⟨k1, k2, k3, k4, k5⟩ := doUpkeep_keeps env s t hnd ht hnc
    obtain ⟨e1, e2⟩ := doUpkeep_reload_step env s t (r + 1) a hnd k5 hentry (Nat.succ_pos r)
    rw [Nat.add_sub_cancel] at e1
    obtain ⟨i1, i2, i3, i4, i5, i6⟩ := ih (Trap.doUpkeep env s) a k1 k2 k3 e1
    refine ⟨?_, ?_, ?_, ?_, ?_, ?_⟩
    · intro k hk
      cases k with
      | zero => exact e2
      | succ k =>
        rw [iterate_doUpkeep_succ env (k + 1) s, iterate_doUpkeep_succ env k s]
        exact i1 k (Nat.lt_of_succ_lt_succ hk)
    · rw [iterate_doUpkeep_succ]; exact i2
    · rw [iterate_doUpkeep_succ]; exact i3
    · rw [iterate_doUpkeep_succ]; exact i4
    · rw [iterate_doUpkeep_succ, i5, k4]
    · rw [iterate_doUpkeep_succ]; exact i6

theorem reload_period_aux (env : Env) (t : TilePtr) (r : Nat) (s : State) (a : Bool)
    (hnd : s.self.mCoveredTiles.count t = 1) (ht : t ∈ s.self.mCoveredTiles)
    (hnc : removalCandidate env s t = false)
    (hentry : mapFind s.self.mTrapTiles t = some { mReloadTime := r, mIsActivated := a }) :
    (∀ k, k < r → t ∉ shootCalls (newEvents ((Trap.doUpkeep env)^[k] s).trace
      ((Trap.doUpkeep env)^[k + 1] s).trace)) ∧
    t ∈ shootCalls (newEvents ((Trap.doUpkeep env)^[r] s).trace
      ((Trap.doUpkeep env)^[r + 1] s).trace) ∧
    ((Trap.doUpkeep env)^[r + 1] s).self.mCoveredTiles.count t = 1 ∧
    t ∈ ((Trap.doUpkeep env)^[r + 1] s).self.mCoveredTiles ∧
    removalCandidate env ((Trap.doUpkeep env)^[r + 1] s) t = false ∧
    ((Trap.doUpkeep env)^[r + 1] s).self.mReloadTime = s.self.mReloadTime ∧
    ∃ a2, mapFind ((Trap.doUpkeep env)^[r + 1] s).self.mTrapTiles t
      = some { mReloadTime :=
                 if (shotResult env ((Trap.doUpkeep env)^[r] s) t).triggered then
                   s.self.mReloadTime else 0,
               mIsActivated := a2 } := by
  obtain ⟨c1, c2, c3, c4, c5, c6⟩ := reload_countdown env t r s a hnd ht hnc hentry
  obtain ⟨k1, k2, k3, k4, k5⟩ := doUpkeep_keeps env ((Trap.doUpkeep env)^[r] s) t c2 c3 c4
  obtain ⟨before, after, a2, hb, hd, hbne, _, hfin, _⟩ :=
    doUpkeep_shot env ((Trap.doUpkeep env)^[r] s) t a c2 k5 c6
  have hsucc : (Trap.doUpkeep env)^[r + 1] s
      = Trap.doUpkeep env ((Trap.doUpkeep env)^[r] s) :=
    Function.iterate_succ_apply' _ _ _
  rw [hsucc]
  refine ⟨c1, ?_, k1, k2, k3, by rw [k4, c5], a2, by rw [hfin, c5]⟩
  rw [hd, hb]
  simp only [List.append_assoc, newEvents_append]
  rw [mem_shootCalls]
  exact List.mem_append.2 (Or.inr (List.mem_cons.2 (Or.inl rfl)))

namespace Trap

/-- C16 as stated does not hold.  The cannon `demoTrapTwiceLoaded` has reload time `2` and
covers the tiles `23`, `24`, `23`; the tile at `23` is covered after the removal pass and has
reload time `0` before the call of `doUpkeep()`.  When the shot hits, the reload time of the
tile is `1` after the call, not `mReloadTime`: the second round of the tile has counted it
down.  When the shot misses, `shoot` is called twice for the tile. -/
theorem doUpkeep_fire_counterexample :
    demoTrapTwiceLoaded.self.mCoveredTiles = [23, 24, 23] ∧
    demoTrapTwiceLoaded.self.mReloadTime = 2 ∧
    23 ∈ (afterRemoval demoEnv demoTrapTwiceLoaded).self.mCoveredTiles ∧
    mapFind demoTrapTwiceLoaded.self.mTrapTiles 23
      = some { mReloadTime := 0, mIsActivated := false } ∧
    (shotResult demoEnv demoTrapTwiceLoaded 23).triggered = true ∧
    mapFind (doUpkeep demoEnv demoTrapTwiceLoaded).self.mTrapTiles 23
      = some { mReloadTime := 1, mIsActivated := true } ∧
    shootCalls (newEvents demoTrapTwiceLoaded.trace
        (doUpkeep demoMissEnv demoTrapTwiceLoaded).trace) = [23, 23] := by
  decide

/-- C16, amended: the fire step of `doUpkeep()`.  Take a tile `t`, not the null pointer, that
is listed once in the covered tiles, that is covered after the removal pass and whose entry
in `mTrapTiles` has reload time `0` before the call.  Then `t` is activated when `shoot(t)` is
called; `shoot` is called once for `t` in the call; the events of the round of `t` are the
call of `shoot`, followed by `playerIsFighting` for the player of the seat of the trap
exactly when `shoot` returned true and the map is a server map, and what follows the round
does not start with a `playerIsFighting`; after the call the reload time of `t` is
`mReloadTime` when `shoot` returned true and `0` when it returned false, and `t` is activated
unless `shoot` deactivated it. -/
theorem doUpkeep_fire (env : Env) (s : State) (t : TilePtr) (a : Bool)
    (hone : s.self.mCoveredTiles.count t = 1) (h0 : t ≠ nullptr)
    (hsurv : t ∈ (afterRemoval env s).self.mCoveredTiles)
    (hentry : mapFind s.self.mTrapTiles t = some { mReloadTime := 0, mIsActivated := a }) :
    isActivated (hookState env (fireLoopBefore env s t) t) t = true ∧
    (shootCalls (newEvents s.trace (doUpkeep env s).trace)).count t = 1 ∧
    (∃ before after,
      (fireLoopBefore env s t).trace = s.trace ++ before ∧
      newEvents s.trace (doUpkeep env s).trace = before ++ (Event.shoot t ::
        (if (shotResult env s t).triggered && env.gameMap.isServerGameMap then
          [Event.playerIsFighting (env.gameMap.getPlayerBySeat s.self.mSeat)] else [])) ++ after ∧
      ∀ p, after.head? ≠ some (Event.playerIsFighting p)) ∧
    mapFind (doUpkeep env s).self.mTrapTiles t
      = some { mReloadTime := if (shotResult env s t).triggered then s.self.mReloadTime else 0,
               mIsActivated := !(shotResult env s t).deactivates } := by
  obtain ⟨before, after, a2, hb, hd, hbne, ⟨hane, hhead⟩, hfin, hact⟩ :=
    doUpkeep_shot env s t a hone hsurv hentry
  obtain ⟨hact1, hact2⟩ := hact h0
  have hev : newEvents s.trace (doUpkeep env s).trace = before ++ (Event.shoot t ::
      (if (shotResult env s t).triggered && env.gameMap.isServerGameMap then
        [Event.playerIsFighting (env.gameMap.getPlayerBySeat s.self.mSeat)] else [])) ++ after := by
    rw [hd, hb]
    simp only [List.append_assoc, newEvents_append]
  refine ⟨hact1, ?_, ⟨before, after, hb, hev, hhead⟩, ?_⟩
  · rw [hev, shootCalls_append, shootCalls_append, List.count_append, List.count_append,
      count_shootCalls_zero before t hbne, count_shootCalls_zero after t hane, shootCalls_round]
    simp
  · rw [hfin, hact2]

/-- C16, amended, evaluated on the demo cannon with its reload time run down: `shoot` is called once
for the tile at `23`, and as every shot of the demo environment hits, its reload time is `3`
again after the call. -/
theorem doUpkeep_fire_witness :
    (shootCalls (newEvents demoTrapLoaded.trace
        (doUpkeep demoEnv demoTrapLoaded).trace)).count 23 = 1 ∧
    mapFind (doUpkeep demoEnv demoTrapLoaded).self.mTrapTiles 23
      = some { mReloadTime := 3, mIsActivated := true } :=
  ⟨(doUpkeep_fire demoEnv demoTrapLoaded 23 false (by decide) (by decide) (by decide)
      (by decide)).2.1,
    (doUpkeep_fire demoEnv demoTrapLoaded 23 false (by decide) (by decide) (by decide)
      (by decide)).2.2.2⟩

/-- C20 as stated does not hold.  The cannon `demoTrapTwice` covers the tiles `23`, `24`,
`23`; the tile at `23` is covered, no removal candidate, and has reload time `3`.  The second
call of `doUpkeep()` already calls `shoot` for it: a call has two rounds for the tile. -/
theorem reload_period_counterexample :
    demoTrapTwice.self.mCoveredTiles = [23, 24, 23] ∧
    removalCandidate demoEnv demoTrapTwice 23 = false ∧
    mapFind demoTrapTwice.self.mTrapTiles 23
      = some { mReloadTime := 3, mIsActivated := false } ∧
    23 ∈ shootCalls (newEvents ((doUpkeep demoEnv)^[1] demoTrapTwice).trace
      ((doUpkeep demoEnv)^[2] demoTrapTwice).trace) := by
  decide

/-- C20, amended: the reload period.  Take a tile `t` that is listed once in the covered
tiles and is no removal candidate, with reload time `r` in `mTrapTiles`.  The next `r` calls
of `doUpkeep()` do not call `shoot` for `t`, and the call after them does.  A tile that
`addCoveredTile` just added has `r = mReloadTime` and is not activated, so that its first
shot is in call `mReloadTime + 1`.  And when the shot of call `r + 1` is reported as a
success, the next `mReloadTime` calls do not call `shoot` for `t` and the call after them
does. -/
theorem reload_period (env : Env) (s : State) (t : TilePtr) (r : Nat) (a : Bool)
    (hone : s.self.mCoveredTiles.count t = 1)
    (hnc : removalCandidate env s t = false)
    (hentry : mapFind s.self.mTrapTiles t = some { mReloadTime := r, mIsActivated := a }) :
    (∀ k, k < r → t ∉ shootCalls (newEvents ((doUpkeep env)^[k] s).trace
      ((doUpkeep env)^[k + 1] s).trace)) ∧
    t ∈ shootCalls (newEvents ((doUpkeep env)^[r] s).trace ((doUpkeep env)^[r + 1] s).trace) ∧
    (∀ (s0 : State) (nHP : ℚ), s = addCoveredTile s0 t nHP →
      r = s.self.mReloadTime ∧ a = false) ∧
    ((shotResult env ((doUpkeep env)^[r] s) t).triggered = true →
      (∀ k, k < s.self.mReloadTime →
        t ∉ shootCalls (newEvents ((doUpkeep env)^[r + 1 + k] s).trace
          ((doUpkeep env)^[r + 1 + k + 1] s).trace)) ∧
      t ∈ shootCalls (newEvents ((doUpkeep env)^[r + 1 + s.self.mReloadTime] s).trace
        ((doUpkeep env)^[r + 1 + s.self.mReloadTime + 1] s).trace)) := by
  have ht : t ∈ s.self.mCoveredTiles := List.count_pos_iff.1 (by omega)
  obtain ⟨p1, p2, p3, p4, p5, p6, a2, p7⟩ := reload_period_aux env t r s a hone ht hnc hentry
  refine ⟨p1, p2, ?_, ?_⟩
  · intro s0 nHP hs
    have hfind : mapFind s.self.mTrapTiles t
        = some { mReloadTime := s.self.mReloadTime, mIsActivated := false } := by
      rw [hs]
      unfold addCoveredTile
      simp only [State.setSelf]
      exact mapFind_mapSet_same _ _ _
    rw [hentry] at hfind
    injection hfind with hfind
    injection hfind with h1 h2
    exact ⟨h1, h2⟩
  · intro htrig
    rw [htrig, if_pos rfl] at p7
    obtain ⟨q1, q2, _⟩ := reload_period_aux env t s.self.mReloadTime
      ((doUpkeep env)^[r + 1] s) a2 p3 p4 p5 (p6 ▸ p7)
    have hadd : ∀ k, (doUpkeep env)^[k] ((doUpkeep env)^[r + 1] s)
        = (doUpkeep env)^[r + 1 + k] s := by
      intro k
      rw [Nat.add_comm (r + 1) k]
      exact (Function.iterate_add_apply _ k (r + 1) s).symm
    constructor
    · intro k hk
      have := q1 k hk
      rw [hadd k, hadd (k + 1)] at this
      exact this
    · have := q2
      rw [hadd, hadd] at this
      exact this

/-- C20, amended, evaluated on the demo cannon, whose reload time is `3`: no shot for the tile at `23`
in the first three calls of `doUpkeep()`, and one in the fourth. -/
theorem reload_period_witness :
    (∀ k, k < 3 → 23 ∉ shootCalls (newEvents ((doUpkeep demoEnv)^[k] demoTrap).trace
      ((doUpkeep demoEnv)^[k + 1] demoTrap).trace)) ∧
    23 ∈ shootCalls (newEvents ((doUpkeep demoEnv)^[3] demoTrap).trace
      ((doUpkeep demoEnv)^[3 + 1] demoTrap).trace) :=
  ⟨(reload_period demoEnv demoTrap 23 3 false (by decide) (by decide) (by decide)).1,
    (reload_period demoEnv demoTrap 23 3 false (by decide) (by decide) (by decide)).2.1⟩

end Trap

end OpenDungeons
